import Mathlib

/-!
Shallow embedding of the reaction-network parser of
`ChemicalReactionsBase::ChemicalReactionsBase` (crane), together with proofs
about the claims of its specification.

Strings are modelled as `List Char`.  `std::string::find` returns `npos`
(`2^64 - 1`) when the character is absent, and the constructor's substring
arithmetic is performed in `size_t`, so positions are natural numbers with
explicit wrap-around where the C++ code can wrap.

External collaborators are parameters of the embedding:
  * `std::stod`   becomes a parameter `stod : Str → Option ℚ`,
  * `Moose::stringify` becomes a parameter `stringify : ℚ → Str`,
  * the file system probed by `file_exists` becomes `fexists : Str → Bool`.
`Real` values are modelled as `ℚ`; the `NAN` sentinel stored into
`_rate_coefficient` is modelled by `Option ℚ` with `none` for `NAN`
(a value-initialised `Real` from `resize` is `some 0`).
-/

namespace Crane

abbrev Str := List Char

/-- Whitespace set used by `MooseUtils::trim` and `std::ws`. -/
def isWsC (c : Char) : Bool :=
  c == ' ' || c == '\t' || c == '\n' || c == '\x0b' || c == '\x0c' || c == '\r'

/-- `MooseUtils::trim`: strip whitespace from both ends. -/
def trimStr (s : Str) : Str :=
  ((s.dropWhile isWsC).reverse.dropWhile isWsC).reverse

/-- `std::string::npos` as a natural number. -/
def npos : ℕ := 2 ^ 64 - 1

/-- `token.find(c)`: index of the first occurrence, `npos` when absent. -/
def findC (s : Str) (c : Char) : ℕ :=
  match s.findIdx? (fun x => x == c) with
  | some i => i
  | none => npos

/-- `a - b` computed in `size_t` (the operands are `< 2^64`). -/
def sub64 (a b : ℕ) : ℕ := (a + 2 ^ 64 - b) % 2 ^ 64

/-- `token.substr(p, cnt)` for `p ≤ token.size()` (the only uses below). -/
def substrC (s : Str) (p cnt : ℕ) : Str := (s.drop p).take cnt

/-- `std::to_string` on an index. -/
def natStr (n : ℕ) : Str := (Nat.repr n).data

/-- The per-line fields produced by the tokenizer part of the constructor
(one structured record per parsed reaction line). -/
structure LineFields where
  reaction : Str
  rate_coeff_string : Str
  threshold_string : Str
  energy_change : Bool
  rate_equation_string : Str
  rate_equation : Bool
  is_identified : Bool
  reaction_identifier : Str
deriving DecidableEq, Inhabited, Repr

/-- The body of the `while (std::getline(...))` loop: locate `:`, `[`/`]`,
the braces, `(`/`)`, and cut the line into its fields exactly as the
constructor does (including the `size_t` wrap in the substring lengths and
the `rxn_identifier_start < pos_start` tie-break).  The C++ sentinel string
pushed for an absent energy bracket is `std::string("\0")`, which is the
empty string, so the sentinel here is `[]`. -/
def parseLine (token : Str) : LineFields :=
  let pos := findC token ':'
  let pos_start := findC token '['
  let pos_end := findC token ']'
  let eq_start := findC token '\x7b'
  let eq_end := findC token '\x7d'
  let rxn_identifier_start := findC token '('
  let rxn_identifier_end := findC token ')'
  let p1 := (pos + 1) % 2 ^ 64
  let rate_raw :=
    if rxn_identifier_start < pos_start then
      substrC token p1 (sub64 rxn_identifier_start p1)
    else
      substrC token p1 (sub64 pos_start p1)
  let thr :=
    if pos_start ≠ npos then
      (substrC token (pos_start + 1) (sub64 pos_end (pos_start + 1)), true)
    else (([] : Str), false)
  let req :=
    if eq_start ≠ npos then
      (substrC token (eq_start + 1) (sub64 eq_end (eq_start + 1)), true)
    else ("NONE".data, false)
  let idf :=
    if rxn_identifier_start ≠ npos ∧ req.2 = false then
      (true, substrC token (rxn_identifier_start + 1)
        (sub64 rxn_identifier_end (rxn_identifier_start + 1)))
    else (false, "NONE".data)
  { reaction := trimStr (substrC token 0 pos)
    rate_coeff_string := trimStr rate_raw
    threshold_string := thr.1
    energy_change := thr.2
    rate_equation_string := req.1
    rate_equation := req.2
    is_identified := idf.1
    reaction_identifier := idf.2 }

/-- `std::getline(iss >> std::ws, token)` over the whole input: leading
whitespace (including blank lines) is skipped, and lines whose first
character is `#` are skipped (`token.find('#') == 0`). -/
def prepLines (input : List Str) : List Str :=
  ((input.map (fun l => l.dropWhile isWsC)).filter (fun l => !l.isEmpty)).filter
    (fun l => l.headD ' ' != '#')

/-- `std::getline(iss2 >> std::ws, token, ' ')` over a reaction equation:
cut at single spaces, strip leading whitespace from each piece, drop pieces
that were entirely whitespace. -/
def eqTokens (s : Str) : List Str :=
  ((s.splitOn ' ').map (fun p => p.dropWhile isWsC)).filter (fun p => !p.isEmpty)

/-- Accumulated sides of one reaction equation. -/
structure EqSides where
  reactants : List Str
  products : List Str
  reversible : Bool
  super_incr : ℕ
deriving DecidableEq, Inhabited, Repr

/-- One term token: skip `+`, switch to products at `=`/`->`/`=>` (marking
irreversible), switch at `<=>`/`<->` marking reversible and bumping the
pending-superelastic counter, otherwise push onto the active side.  The
`Bool` component is `react_check`. -/
def eqSplitStep (st : EqSides × Bool) (t : Str) : EqSides × Bool :=
  if t = "+".data then st
  else if t = "=".data ∨ t = "->".data ∨ t = "=>".data then
    ({ st.1 with reversible := false }, false)
  else if t = "<=>".data ∨ t = "<->".data then
    ({ st.1 with reversible := true, super_incr := st.1.super_incr + 1 }, false)
  else if st.2 then ({ st.1 with reactants := st.1.reactants ++ [t] }, st.2)
  else ({ st.1 with products := st.1.products ++ [t] }, st.2)

/-- Split `_reaction[i]` into reactants and products. -/
def splitEquation (s : Str) : EqSides :=
  ((eqTokens s).foldl eqSplitStep
    ({ reactants := [], products := [], reversible := false, super_incr := 0 }, true)).1

/-- The reactant half of a stoichiometric accumulation:
`for k: if (tok == sp) coeff -= 1`. -/
def coeffFoldR (sp : Str) (start : ℚ) (reac : List Str) : ℚ :=
  reac.foldl (fun a t => if t = sp then a - 1 else a) start

/-- The product half: `for k: if (tok == sp) coeff += 1`. -/
def coeffFoldP (sp : Str) (start : ℚ) (prod : List Str) : ℚ :=
  prod.foldl (fun a t => if t = sp then a + 1 else a) start

/-- Run both halves starting from `start` (the constructor always updates a
stored entry in place, so the starting value matters). -/
def addCoeff (start : ℚ) (reac prod : List Str) (sp : Str) : ℚ :=
  coeffFoldP sp (coeffFoldR sp start reac) prod

/-- A fresh `_species_count` row for one reaction. -/
def speciesRow (species : List Str) (reac prod : List Str) : List ℚ :=
  species.map (fun sp => addCoeff 0 reac prod sp)

/-- The `// Calculate coefficients` block of the superelastic loop: update an
existing `_species_count` row in place, species by species. -/
def recountRow (species : List Str) (oldRow : List ℚ) (reac prod : List Str) : List ℚ :=
  species.enum.map (fun je => addCoeff (oldRow.getD je.1 0) reac prod je.2)

/-- `std::vector::resize(n, d)`: truncate or pad with `d`. -/
def resizeD (l : List α) (n : ℕ) (d : α) : List α :=
  l.take n ++ List.replicate (n - l.length) d

/-- `std::string` `operator<=` (lexicographic on character values). -/
def strLeB : Str → Str → Bool
  | [], _ => true
  | _ :: _, [] => false
  | a :: as, b :: bs => if a = b then strLeB as bs else decide (a < b)

def insertSorted (x : Str) : List Str → List Str
  | [] => [x]
  | y :: ys => if strLeB x y then x :: y :: ys else y :: insertSorted x ys

/-- `std::sort` on strings (the elements at equal keys are equal strings, so
a stable insertion sort has the same result). -/
def sortStrs (l : List Str) : List Str := l.foldr insertSorted []

/-- `std::unique` + `resize`: drop consecutive duplicates. -/
def uniqueConsec : List Str → List Str
  | [] => []
  | [x] => [x]
  | x :: y :: rest =>
    if x = y then uniqueConsec (y :: rest) else x :: uniqueConsec (y :: rest)

/-- The configuration parameters the constructor reads.  `Option` marks
parameters whose `isParamValid` is consulted. -/
structure Config where
  species : List Str
  aux_species : Option (List Str)
  lumped_species : Bool
  lumped : Option (List Str)
  lumped_name : Str
  balance_check : Bool
  num_particles : Option (List ℤ)
  include_electrons : Bool
  electron_density : Str
  convert_to_moles : Bool
  convert_to_meters : ℚ
  file_location : Str
  interpolation_type : Str
  name : Option Str
  has_energy_variable : Bool
deriving DecidableEq, Inhabited

def Config.lumpedList (cfg : Config) : List Str := cfg.lumped.getD []

def Config.numParticlesList (cfg : Config) : List ℤ := cfg.num_particles.getD []

/-- `_aux_species`: the configured list, or the single entry `"none"`. -/
def Config.auxList (cfg : Config) : List Str :=
  match cfg.aux_species with
  | some l => l
  | none => ["none".data]

/-- The fatal `mooseError`s of the constructor, plus `oobSpeciesIndex`, which
marks the out-of-bounds vector access the balance check performs on a token
that is missing from `species` (undefined behaviour in the C++, not a
diagnostic). -/
inductive BuildError
  | badInterpolation
  | lumpedMissing
  | numParticlesMissing
  | numParticlesSize
  | thresholdParse (s : Str)
  | invalidRateSpec (s : Str)
  | energyNoVar
  | unbalanced (eqs : List Str)
  | oobSpeciesIndex (token : Str)
  | auxOverlap (sp : Str)
  | fileMissing (loc : Str)
deriving DecidableEq, Repr

/-- Output of the first per-reaction loop (threshold parsing and
rate-coefficient classification). -/
structure Classified where
  threshold_energy : List ℚ
  elastic_collision : List Bool
  rate_coefficient : List (Option ℚ)
  rate_type : List Str
  aux_var_name : List Str
  reaction_coefficient_name : List Str
  num_eedf_reactions : ℕ
deriving DecidableEq, Inhabited

/-- The body of the first `for (i < _num_reactions)` loop on one line:
parse the threshold string (`""` sentinel → 0, `"elastic"` → 0 with the
elastic flag, otherwise `std::stod`, whose failure is fatal), then classify
the rate coefficient (`EEDF` literal / captured equation / `std::stod`
constant, anything else fatal).  Result: `((threshold, elastic),
(rate_coefficient, rate_type, is_eedf))`. -/
def classifyLine (stod : Str → Option ℚ) (lf : LineFields) :
    Except BuildError ((ℚ × Bool) × (Option ℚ × Str × Bool)) :=
  let thrRes : Except BuildError (ℚ × Bool) :=
    if lf.threshold_string = [] then .ok (0, false)
    else if lf.threshold_string = "elastic".data then .ok (0, true)
    else match stod lf.threshold_string with
      | some v => .ok (v, false)
      | none => .error (.thresholdParse lf.threshold_string)
  let rcRes : Except BuildError (Option ℚ × Str × Bool) :=
    if lf.rate_coeff_string = "EEDF".data then .ok (none, "EEDF".data, true)
    else if lf.rate_equation then .ok (none, "Equation".data, false)
    else match stod lf.rate_coeff_string with
      | some v => .ok (some v, "Constant".data, false)
      | none => .error (.invalidRateSpec lf.rate_coeff_string)
  thrRes >>= fun thrElast => rcRes >>= fun rc => .ok (thrElast, rc)

/-- The first `for (i < _num_reactions)` loop, iterated over the parsed
lines with running index `i`; also names the auxiliary variables. -/
def classifyAux (stod : Str → Option ℚ) (nm : Str) :
    ℕ → List LineFields → Except BuildError Classified
  | _, [] =>
    .ok { threshold_energy := [], elastic_collision := [], rate_coefficient := []
          rate_type := [], aux_var_name := [], reaction_coefficient_name := []
          num_eedf_reactions := 0 }
  | i, lf :: rest => do
    let c ← classifyLine stod lf
    let restC ← classifyAux stod nm (i + 1) rest
    .ok { threshold_energy := c.1.1 :: restC.threshold_energy
          elastic_collision := c.1.2 :: restC.elastic_collision
          rate_coefficient := c.2.1 :: restC.rate_coefficient
          rate_type := c.2.2.1 :: restC.rate_type
          aux_var_name := (nm ++ "reaction_rate".data ++ natStr i) :: restC.aux_var_name
          reaction_coefficient_name :=
            ("rate_constant".data ++ natStr i) :: restC.reaction_coefficient_name
          num_eedf_reactions := (if c.2.2.2 then 1 else 0) + restC.num_eedf_reactions }

/-- The compiled reaction network held by the Action after construction
(only the members the constructor itself builds; kernel-registration
bookkeeping such as `_electron_index` and the bolsig species list is not
modelled).  List entries beyond a vector's C++ size never arise in the
defined-behaviour regimes the theorems below quantify over. -/
structure RxnState where
  reaction : List Str
  rate_coefficient : List (Option ℚ)
  threshold_energy : List ℚ
  elastic_collision : List Bool
  rate_type : List Str
  rate_equation : List Bool
  rate_equation_string : List Str
  energy_change : List Bool
  is_identified : List Bool
  reaction_identifier : List Str
  reactants : List (List Str)
  products : List (List Str)
  reversible_reaction : List Bool
  reaction_lumped : List Bool
  lumped_reaction : List ℕ
  species_count : List (List ℚ)
  num_reactants : List ℕ
  num_products : List ℕ
  superelastic_index : List ℕ
  superelastic_reaction : List Bool
  reaction_participants : List (List Str)
  reaction_stoichiometric_coeff : List (List ℚ)
  reaction_coefficient_name : List Str
  aux_var_name : List Str
  num_reactions : ℕ
  superelastic_count : ℕ
  num_eedf_reactions : ℕ
deriving DecidableEq, Inhabited

/-- Occurrences of the lumped placeholder in a reactant list (the flagging
loop pushes the reaction index once per occurrence). -/
def lumpedOccs (cfg : Config) (reacs : List Str) : ℕ :=
  if cfg.lumped_species then reacs.countP (fun t => t == cfg.lumped_name) else 0

/-- The unit-conversion factor `pow(N_A, n-1) * pow(_rate_factor, 3*(n-1))`
for a reaction with `r` reactant tokens (`exp_factor = r - 1`; the C++
`size_t` wrap at `r = 0` is outside the regimes considered). -/
def convFactor (NA rf : ℚ) (r : ℕ) : ℚ := NA ^ (r - 1) * rf ^ (3 * (r - 1))

/-- The second `for (i < _num_reactions)` loop: split every equation into
sides, apply the mole/length conversion to constant values and equation
strings, flag lumped reactions, and compute `_species_count`,
`_num_reactants`, `_num_products` and the pending superelastic counter.
Each iteration touches only index `i` of the per-reaction vectors, so the
loop is expressed element-wise. -/
def stage3 (cfg : Config) (stringify : ℚ → Str) (NA : ℚ) (lines : List LineFields)
    (cl : Classified) : RxnState :=
  let sides := lines.map (fun lf => splitEquation lf.reaction)
  let n := lines.length
  let reacsOf := fun i => (sides.getD i default).reactants
  let prodsOf := fun i => (sides.getD i default).products
  let fac := fun i => convFactor NA cfg.convert_to_meters (reacsOf i).length
  { reaction := lines.map (fun lf => lf.reaction)
    rate_coefficient := (List.range n).map (fun i =>
      if cl.rate_type.getD i [] = "Constant".data then
        (cl.rate_coefficient.getD i none).map (fun v => v * fac i)
      else cl.rate_coefficient.getD i none)
    threshold_energy := cl.threshold_energy
    elastic_collision := cl.elastic_collision
    rate_type := cl.rate_type
    rate_equation := lines.map (fun lf => lf.rate_equation)
    rate_equation_string := (List.range n).map (fun i =>
      if cl.rate_type.getD i [] = "Equation".data then
        (lines.getD i default).rate_equation_string ++ "*".data ++ stringify (fac i)
      else (lines.getD i default).rate_equation_string)
    energy_change := lines.map (fun lf => lf.energy_change)
    is_identified := lines.map (fun lf => lf.is_identified)
    reaction_identifier := lines.map (fun lf => lf.reaction_identifier)
    reactants := sides.map (fun s => s.reactants)
    products := sides.map (fun s => s.products)
    reversible_reaction := sides.map (fun s => s.reversible)
    reaction_lumped := (List.range n).map (fun i => lumpedOccs cfg (reacsOf i) != 0)
    lumped_reaction :=
      ((List.range n).map (fun i => List.replicate (lumpedOccs cfg (reacsOf i)) i)).flatten
    species_count := (List.range n).map (fun i => speciesRow cfg.species (reacsOf i) (prodsOf i))
    num_reactants := sides.map (fun s => s.reactants.length)
    num_products := sides.map (fun s => s.products.length)
    superelastic_index := []
    superelastic_reaction := []
    reaction_participants := []
    reaction_stoichiometric_coeff := []
    reaction_coefficient_name := cl.reaction_coefficient_name
    aux_var_name := cl.aux_var_name
    num_reactions := n
    superelastic_count := (sides.map (fun s => s.super_incr)).sum
    num_eedf_reactions := cl.num_eedf_reactions }

/-- Substituting a concrete species for the lumped placeholder in one token
list (every occurrence is replaced). -/
def substLumped (nme conc : Str) (l : List Str) : List Str :=
  l.map (fun t => if t = nme then conc else t)

/-- Index of the concrete reaction for occurrence `ac.1` of the template
list and lumped species `ac.2`. -/
def slotOf (old_num L : ℕ) (ac : ℕ × ℕ) : ℕ := old_num + ac.1 * L + ac.2

/-- One slot of the lumped expansion: fill index `old_num + a*L + c` with a
copy of template `_lumped_reaction[a]` in which the placeholder is replaced
by `_lumped_species[c]`.  The templates sit at indices `< old_num` and are
never overwritten, so reads from the pre-state `st` agree with the C++
in-place reads. -/
def lumpedAssign (cfg : Config) (st : RxnState) (old_num L : ℕ) (acc : RxnState)
    (ac : ℕ × ℕ) : RxnState :=
  let src := st.lumped_reaction.getD ac.1 0
  let li := slotOf old_num L ac
  let conc := cfg.lumpedList.getD ac.2 []
  { acc with
    reaction := acc.reaction.set li (st.reaction.getD src [])
    rate_coefficient := acc.rate_coefficient.set li (st.rate_coefficient.getD src (some 0))
    rate_type := acc.rate_type.set li (st.rate_type.getD src [])
    rate_equation_string :=
      acc.rate_equation_string.set li (st.rate_equation_string.getD src [])
    reaction_coefficient_name :=
      acc.reaction_coefficient_name.set li (st.reaction_coefficient_name.getD src [])
    aux_var_name := acc.aux_var_name.set li ("rate_constant".data ++ natStr li)
    superelastic_reaction :=
      acc.superelastic_reaction.set li (st.superelastic_reaction.getD src false)
    reversible_reaction :=
      acc.reversible_reaction.set li (st.reversible_reaction.getD src false)
    reaction_lumped := acc.reaction_lumped.set li false
    species_count := acc.species_count.set li (st.species_count.getD src [])
    reactants := acc.reactants.set li
      (substLumped cfg.lumped_name conc (st.reactants.getD src []))
    products := acc.products.set li
      (substLumped cfg.lumped_name conc (st.products.getD src [])) }

/-- The double loop of the lumped expansion. -/
def lumpedFold (cfg : Config) (st : RxnState) (old_num L : ℕ) (idxs : List (ℕ × ℕ))
    (acc : RxnState) : RxnState :=
  idxs.foldl (lumpedAssign cfg st old_num L) acc

/-- The `resize` block at the head of the lumped expansion: enlarge the
listed vectors to `old_num + |_lumped_reaction| * |_lumped_species|`. -/
def lumpedResize (cfg : Config) (st : RxnState) : RxnState :=
  let n' := st.num_reactions + st.lumped_reaction.length * cfg.lumpedList.length
  { st with
    reaction := resizeD st.reaction n' []
    reactants := resizeD st.reactants n' []
    products := resizeD st.products n' []
    rate_coefficient := resizeD st.rate_coefficient n' (some 0)
    rate_type := resizeD st.rate_type n' []
    rate_equation_string := resizeD st.rate_equation_string n' []
    reaction_coefficient_name := resizeD st.reaction_coefficient_name n' []
    aux_var_name := resizeD st.aux_var_name n' []
    superelastic_reaction := resizeD st.superelastic_reaction n' false
    reversible_reaction := resizeD st.reversible_reaction n' false
    reaction_lumped := resizeD st.reaction_lumped n' false
    species_count := resizeD st.species_count n' []
    num_reactions := n' }

/-- Iteration space of the lumped double loop, in loop order. -/
def lumpedIdxs (cfg : Config) (st : RxnState) : List (ℕ × ℕ) :=
  (List.range st.lumped_reaction.length).flatMap
    (fun a => (List.range cfg.lumpedList.length).map (fun c => (a, c)))

/-- The lumped-species expansion block. -/
def lumpedExpand (cfg : Config) (st : RxnState) : RxnState :=
  if cfg.lumped_species = false then st else
  lumpedFold cfg st st.num_reactions cfg.lumpedList.length (lumpedIdxs cfg st)
    (lumpedResize cfg st)

/-- `new_reaction.append(...)` loop: items joined by `" + "`. -/
def joinPlus : List Str → Str
  | [] => []
  | [x] => x
  | x :: y :: xs => x ++ " + ".data ++ joinPlus (y :: xs)

/-- Loop state of the superelastic pass: the running `new_index` and the
`new_reaction` string, which the C++ declares outside the loop and never
clears, so the text accumulates across iterations. -/
structure SuperAcc where
  st : RxnState
  new_index : ℕ
  new_reaction : Str
deriving DecidableEq, Inhabited

/-- One iteration of the superelastic loop at reaction `i`: when
`_reversible_reaction[i]`, append the reversed reaction at `new_index + 1`
(the reversed reactant list is read through the stored `_num_products[i]`),
then — unconditionally, as in the source — rerun the `Calculate
coefficients` block on the row at the current `new_index`. -/
def superStep (species : List Str) (i : ℕ) (acc : SuperAcc) : SuperAcc :=
  let st := acc.st
  let acc1 :=
    if st.reversible_reaction.getD i false then
      let ni := acc.new_index + 1
      let m := st.num_products.getD i 0
      let prods := st.products.getD i []
      let reacs := st.reactants.getD i []
      let nr := acc.new_reaction ++ joinPlus (prods.take m) ++ " -> ".data ++ joinPlus reacs
      { st := { st with
          superelastic_index := st.superelastic_index.set ni i
          superelastic_reaction := st.superelastic_reaction.set ni true
          rate_coefficient := st.rate_coefficient.set ni none
          threshold_energy :=
            st.threshold_energy.set ni (-(st.threshold_energy.getD i 0))
          aux_var_name := st.aux_var_name.set ni ("rate_constant".data ++ natStr ni)
          reaction_coefficient_name :=
            st.reaction_coefficient_name.set ni ("rate_constant".data ++ natStr ni)
          rate_equation := st.rate_equation.set ni (st.rate_equation.getD i false)
          energy_change := st.energy_change.set ni (st.energy_change.getD i false)
          reactants := st.reactants.set ni ((st.reactants.getD ni []) ++ prods.take m)
          products := st.products.set ni ((st.products.getD ni []) ++ reacs)
          reaction := st.reaction ++ [nr] }
        new_index := ni
        new_reaction := nr }
    else acc
  let st1 := acc1.st
  let k := acc1.new_index
  let row := recountRow species (st1.species_count.getD k [])
    (st1.reactants.getD k []) (st1.products.getD k [])
  { acc1 with st := { st1 with species_count := st1.species_count.set k row } }

/-- The `for (i < _num_reactions)` loop of the superelastic pass. -/
def superLoop (species : List Str) (is : List ℕ) (acc : SuperAcc) : SuperAcc :=
  is.foldl (fun a i => superStep species i a) acc

/-- The `resize` block ahead of the superelastic loop: extend the listed
vectors by the pending-superelastic count with value-initialised defaults. -/
def superResize (cfg : Config) (st0 : RxnState) : RxnState :=
  let s := st0.superelastic_count
  let n := st0.num_reactions
  { st0 with
    superelastic_index := resizeD st0.superelastic_index (n + s) 0
    superelastic_reaction := resizeD st0.superelastic_reaction (n + s) false
    rate_coefficient := resizeD st0.rate_coefficient (n + s) (some 0)
    threshold_energy := resizeD st0.threshold_energy (n + s) 0
    rate_equation := resizeD st0.rate_equation (n + s) false
    species_count :=
      resizeD st0.species_count (n + s) (List.replicate cfg.species.length (0 : ℚ))
    reactants := resizeD st0.reactants (st0.reactants.length + s) []
    products := resizeD st0.products (st0.products.length + s) []
    aux_var_name := resizeD st0.aux_var_name (n + s) []
    energy_change := resizeD st0.energy_change (n + s) false
    reaction_coefficient_name := resizeD st0.reaction_coefficient_name (n + s) [] }

/-- The superelastic synthesis pass: resize, run the loop when the pending
count is positive, then `_num_reactions += superelastic_reactions`. -/
def superelasticExpand (cfg : Config) (st0 : RxnState) : RxnState :=
  let s := st0.superelastic_count
  let n := st0.num_reactions
  let acc :=
    if 0 < s then
      superLoop cfg.species (List.range n)
        { st := superResize cfg st0, new_index := n - 1, new_reaction := [] }
    else { st := superResize cfg st0, new_index := n - 1, new_reaction := [] }
  { acc.st with num_reactions := n + s }

/-- `(count in products) - (count in reactants)` accumulated from zero — the
per-reaction stoichiometric computation. -/
def coeffOf (reac prod : List Str) (sp : Str) : ℚ := addCoeff 0 reac prod sp

/-- The final reduction: per reaction, sort and deduplicate its tokens, keep
only tracked species, and recompute the stoichiometric coefficients against
that restricted participant list. -/
def participantsStage (cfg : Config) (st : RxnState) : RxnState :=
  let parts := (List.range st.num_reactions).map (fun i =>
    (uniqueConsec (sortStrs ((st.reactants.getD i []) ++ (st.products.getD i [])))).filter
      (fun sp => decide (sp ∈ cfg.species)))
  { st with
    reaction_participants := parts
    reaction_stoichiometric_coeff := (List.range st.num_reactions).map (fun i =>
      (parts.getD i []).map
        (fun sp => coeffOf (st.reactants.getD i []) (st.products.getD i []) sp)) }

/-- `if (_energy_change[i]) { if (no energy variable) mooseError(...) }`. -/
def energyCheck (cfg : Config) (st : RxnState) : Except BuildError RxnState :=
  if ((List.range st.num_reactions).filter
      (fun i => st.energy_change.getD i false)).isEmpty then .ok st
  else if cfg.has_energy_variable then .ok st else .error .energyNoVar

/-- One token of a side's particle sum in the balance check: `std::find` the
token in `_species`, take `std::distance` as the index, skip the electron
species, and add `num_particles[index]`.  A token absent from `_species`
makes both indexings out of bounds; that access is surfaced as
`oobSpeciesIndex`. -/
def partStep (species : List Str) (numP : List ℤ) (electron : Str) (acc : ℚ)
    (t : Str) : Except BuildError ℚ :=
  let idx := species.findIdx (fun sp => sp == t)
  match species.get? idx with
  | none => Except.error (.oobSpeciesIndex t)
  | some sp =>
    if sp = electron then Except.ok acc
    else match numP.get? idx with
      | none => Except.error (.oobSpeciesIndex t)
      | some w => Except.ok (acc + (w : ℚ))

/-- One side's particle sum: fold `partStep` over the side's tokens. -/
def partSum (species : List Str) (numP : List ℤ) (electron : Str) (toks : List Str) :
    Except BuildError ℚ :=
  toks.foldlM (partStep species numP electron) 0

/-- The `balance_check` block: scan every reaction, record the equation text
of each mismatch, and fail once at the end listing all offenders. -/
def balanceStage (cfg : Config) (st : RxnState) : Except BuildError RxnState :=
  if cfg.balance_check = false then .ok st else do
    let faulty ← (List.range st.num_reactions).foldlM (fun (acc : List Str) i => do
      let r ← partSum cfg.species cfg.numParticlesList cfg.electron_density
        (st.reactants.getD i [])
      let p ← partSum cfg.species cfg.numParticlesList cfg.electron_density
        (st.products.getD i [])
      if r ≠ p then pure (acc ++ [st.reaction.getD i []]) else pure acc) []
    if faulty ≠ [] then .error (.unbalanced faulty) else .ok st

/-- The tracked/auxiliary overlap check. -/
def auxCheck (cfg : Config) (st : RxnState) : Except BuildError RxnState :=
  match cfg.species.find? (fun sp => decide (sp ∈ cfg.auxList)) with
  | some sp => .error (.auxOverlap sp)
  | none => .ok st

/-- One iteration of the tabulated-rate file check: probe the bare path,
then `.txt`, `.csv`, `.dat`; the first hit appends its suffix to the stored
identifier; no hit is fatal. -/
def probeStep (fexists : Str → Bool) (loc : Str) (st : RxnState) (i : ℕ) :
    Except BuildError RxnState :=
  if st.is_identified.getD i false then
    let fileloc := loc ++ "/".data ++ st.reaction_identifier.getD i []
    if fexists fileloc then .ok st
    else if fexists (fileloc ++ ".txt".data) then
      .ok { st with reaction_identifier :=
        st.reaction_identifier.set i ((st.reaction_identifier.getD i []) ++ ".txt".data) }
    else if fexists (fileloc ++ ".csv".data) then
      .ok { st with reaction_identifier :=
        st.reaction_identifier.set i ((st.reaction_identifier.getD i []) ++ ".csv".data) }
    else if fexists (fileloc ++ ".dat".data) then
      .ok { st with reaction_identifier :=
        st.reaction_identifier.set i ((st.reaction_identifier.getD i []) ++ ".dat".data) }
    else .error (.fileMissing fileloc)
  else .ok st

/-- The file-check loop.  As in the source, the loop bound is
`_num_eedf_reactions` while `_is_identified` is indexed by the loop counter
itself. -/
def probeStage (fexists : Str → Bool) (cfg : Config) (st : RxnState) :
    Except BuildError RxnState :=
  (List.range st.num_eedf_reactions).foldlM
    (fun s i => probeStep fexists cfg.file_location s i) st

/-- `N_A = 6.022e23` when `convert_to_moles` is set, `1.0` otherwise. -/
def naOf (cfg : Config) : ℚ := if cfg.convert_to_moles then 6022 * 10 ^ 20 else 1

/-- `_name`: the optional reaction-list name followed by `_`. -/
def nmOf (cfg : Config) : Str :=
  match cfg.name with
  | some s => s ++ "_".data
  | none => []

/-- The whole constructor: parameter validation, line parsing,
classification, the tokenizing loop, lumped expansion, superelastic
synthesis, the participant reduction, and the trailing checks, in source
order. -/
def build (cfg : Config) (stod : Str → Option ℚ) (stringify : ℚ → Str)
    (fexists : Str → Bool) (input : List Str) : Except BuildError RxnState :=
  if ¬ (cfg.interpolation_type = "spline".data ∨ cfg.interpolation_type = "linear".data) then
    .error .badInterpolation
  else if cfg.lumped_species ∧ cfg.lumped = none then .error .lumpedMissing
  else if cfg.balance_check ∧ cfg.num_particles = none then .error .numParticlesMissing
  else if cfg.balance_check ∧ cfg.numParticlesList.length ≠ cfg.species.length then
    .error .numParticlesSize
  else
    let NA : ℚ := naOf cfg
    let nm := nmOf cfg
    let lines := (prepLines input).map parseLine
    do
      let cl ← classifyAux stod nm 0 lines
      let st6 := participantsStage cfg
        (superelasticExpand cfg (lumpedExpand cfg (stage3 cfg stringify NA lines cl)))
      let st7 ← energyCheck cfg st6
      let st8 ← balanceStage cfg st7
      let st9 ← auxCheck cfg st8
      probeStage fexists cfg st9

/-! ## Specification-side definitions and concrete fixtures -/

/-- The characters strictly between positions `a` and `b` of a line. -/
def textBetween (s : Str) (a b : ℕ) : Str := (s.take b).drop (a + 1)

/-- The error component of a construction outcome. -/
def buildErr (r : Except BuildError RxnState) : Option BuildError :=
  match r with
  | .error e => some e
  | .ok _ => none

/-- A concrete `std::stod` covering the literals used in the fixtures. -/
def stodFix : Str → Option ℚ := fun s =>
  if s = "1.0".data then some 1
  else if s = "1.5".data then some (3 / 2)
  else if s = "2.0".data then some 2
  else none

/-- A concrete `Moose::stringify`. -/
def strfFix : ℚ → Str := fun _ => "CF".data

/-- A file system on which every probe succeeds. -/
def fexAll : Str → Bool := fun _ => true

/-- A file system on which every probe fails. -/
def fexNone : Str → Bool := fun _ => false

/-- Baseline configuration: tracked species `A`, `B`, no optional features. -/
def cfgBase : Config :=
  { species := ["A".data, "B".data]
    aux_species := none
    lumped_species := false
    lumped := none
    lumped_name := []
    balance_check := false
    num_particles := none
    include_electrons := false
    electron_density := "e".data
    convert_to_moles := false
    convert_to_meters := 1
    file_location := "/data".data
    interpolation_type := "spline".data
    name := none
    has_energy_variable := true }

/-- A reversible reaction followed by a non-reversible one: the
`Calculate coefficients` block of the superelastic loop runs for every `i`,
so it reruns on the already-computed row of the synthesized reaction. -/
def c1Input : List Str := ["A <=> B : 1.0".data, "A -> B : 1.0".data]

def c1St : RxnState :=
  ((build cfgBase stodFix strfFix fexAll c1Input).toOption).getD default

/-- Balance check enabled, reaction `A -> C : 1.0`, but `C` is not in the
tracked species list. -/
def cfgC4 : Config := { cfgBase with balance_check := true, num_particles := some [1, 2] }

def c4Input : List Str := ["A -> C : 1.0".data]

/-- A constant-rate reaction at index 0 and an identified EEDF reaction at
index 1: `_num_eedf_reactions` is 1, so the file-check loop only inspects
index 0. -/
def c6Input : List Str := ["A -> B : 1.0".data, "A -> B : EEDF (ON)".data]

def c6St : RxnState :=
  ((build cfgBase stodFix strfFix fexNone c6Input).toOption).getD default

/-- Lumped configuration with a single concrete species `X` and placeholder
`M`. -/
def cfgC3x : Config :=
  { cfgBase with lumped_species := true, lumped := some ["X".data], lumped_name := "M".data }

/-- A template whose reactant list contains the placeholder twice. -/
def c3xInput : List Str := ["M + M -> B : 1.0".data]

def c3xSt : RxnState :=
  ((build cfgC3x stodFix strfFix fexAll c3xInput).toOption).getD default

/-- Lumped configuration with two concrete species and a template carrying a
threshold-energy bracket. -/
def cfgC9 : Config :=
  { cfgBase with lumped_species := true
                 lumped := some ["X".data, "Y".data]
                 lumped_name := "M".data }

def c9Input : List Str := ["A + M -> B : 1.0 [1.5]".data]

def c9xSt : RxnState :=
  ((build cfgC9 stodFix strfFix fexAll c9Input).toOption).getD default

/-- Mole and length conversion both enabled: `N_A = 6.022e23`,
`position_units = 100`. -/
def cfgC7 : Config := { cfgBase with convert_to_moles := true, convert_to_meters := 100 }

/-- A two-reactant constant-rate line and a two-reactant equation-rate
line. -/
def c7Input : List Str :=
  ["A + B -> B : 2.0".data, "A + B -> A : \x7b2.0*Te\x7d".data]

def c7St : RxnState :=
  ((build cfgC7 stodFix strfFix fexAll c7Input).toOption).getD default

/-- Claim-side particle sum of one equation side: the `num_particles`
weight of every token, looked up by its position in `_species`, with
tokens equal to the electron species skipped. -/
def specParticleSum (species : List Str) (numP : List ℤ) (electron : Str)
    (toks : List Str) : ℚ :=
  ((toks.filter (fun t => !(t == electron))).map
    (fun t => ((numP.getD (species.findIdx (fun sp => sp == t)) 0 : ℤ) : ℚ))).sum

/-- A one-reaction state whose template `M + M -> B` carries the placeholder
twice, with the occurrence list `[0, 0]` the flag loop produces. -/
def c3St : RxnState :=
  { (default : RxnState) with
    num_reactions := 1
    reaction := ["M + M -> B".data]
    reactants := [["M".data, "M".data]]
    products := [["B".data]]
    rate_coefficient := [some 1]
    rate_type := ["Constant".data]
    rate_equation_string := ["RR".data]
    reaction_coefficient_name := ["rate_constant0".data]
    aux_var_name := ["rate_constant0".data]
    reaction_lumped := [true]
    lumped_reaction := [0, 0] }

/-- A two-reaction state for the balance check: `A -> B` is unbalanced
(weights 1 vs 2), `A + A -> B` is balanced (2 vs 2). -/
def c5St : RxnState :=
  { (default : RxnState) with
    num_reactions := 2
    reaction := ["A -> B".data, "A + A -> B".data]
    reactants := [["A".data], ["A".data, "A".data]]
    products := [["B".data], ["B".data]] }

/-- A reversible reaction with a threshold-energy bracket, followed by a
non-reversible one. -/
def c2Input : List Str := ["A <=> B : 1.0 [1.5]".data, "A -> B : 1.0".data]

def c2St : RxnState :=
  ((build cfgBase stodFix strfFix fexAll c2Input).toOption).getD default

/-! ## Helper lemmas -/

theorem findC_le_npos (s : Str) (c : Char) (hl : s.length ≤ npos) : findC s c ≤ npos := by
  unfold findC
  cases h : s.findIdx? (fun x => x == c) with
  | none => exact le_rfl
  | some i =>
    show i ≤ npos
    have := (List.findIdx?_eq_some_iff_findIdx_eq.mp h).1
    omega

theorem findC_lt_length (s : Str) (c : Char) (_hl : s.length ≤ npos)
    (h : findC s c ≠ npos) : findC s c < s.length := by
  unfold findC at h ⊢
  cases h' : s.findIdx? (fun x => x == c) with
  | none => rw [h'] at h; exact absurd rfl h
  | some i =>
    show i < s.length
    exact (List.findIdx?_eq_some_iff_findIdx_eq.mp h').1

theorem sub64_eq_of_le (a b : ℕ) (hba : b ≤ a) (ha : a - b < 2 ^ 64) :
    sub64 a b = a - b := by
  unfold sub64
  have h1 : a + 2 ^ 64 - b = 2 ^ 64 + (a - b) := by omega
  rw [h1, Nat.add_mod_left, Nat.mod_eq_of_lt ha]

theorem getD_set_ne {α : Type} (l : List α) (i j : ℕ) (a d : α) (h : i ≠ j) :
    (l.set i a).getD j d = l.getD j d := by
  simp [List.getD_eq_getElem?_getD, List.getElem?_set_ne h]

theorem getD_set_self {α : Type} (l : List α) (i : ℕ) (a d : α) (h : i < l.length) :
    (l.set i a).getD i d = a := by
  simp [List.getD_eq_getElem?_getD, List.getElem?_set_self h]

theorem coeffFoldR_eq (sp : Str) (start : ℚ) (reac : List Str) :
    coeffFoldR sp start reac = start - reac.count sp := by
  induction reac generalizing start with
  | nil => simp [coeffFoldR]
  | cons t ts ih =>
    by_cases h : t = sp
    · subst h
      simp only [coeffFoldR, List.foldl_cons, if_pos rfl] at *
      rw [ih]
      rw [List.count_cons_self]
      push_cast
      ring
    · simp only [coeffFoldR, List.foldl_cons, if_neg h] at *
      rw [ih, List.count_cons_of_ne]
      exact fun hc => h hc.symm

theorem coeffFoldP_eq (sp : Str) (start : ℚ) (prod : List Str) :
    coeffFoldP sp start prod = start + prod.count sp := by
  induction prod generalizing start with
  | nil => simp [coeffFoldP]
  | cons t ts ih =>
    by_cases h : t = sp
    · subst h
      simp only [coeffFoldP, List.foldl_cons, if_pos rfl] at *
      rw [ih, List.count_cons_self]
      push_cast
      ring
    · simp only [coeffFoldP, List.foldl_cons, if_neg h] at *
      rw [ih, List.count_cons_of_ne]
      exact fun hc => h hc.symm

/-- The stoichiometric accumulation is exactly
`start + (count in products) - (count in reactants)`. -/
theorem addCoeff_eq (start : ℚ) (reac prod : List Str) (sp : Str) :
    addCoeff start reac prod sp = start + prod.count sp - reac.count sp := by
  unfold addCoeff
  rw [coeffFoldR_eq, coeffFoldP_eq]
  ring

theorem coeffOf_eq (reac prod : List Str) (sp : Str) :
    coeffOf reac prod sp = (prod.count sp : ℚ) - reac.count sp := by
  unfold coeffOf
  rw [addCoeff_eq]
  ring

theorem except_bind_ok {ε α β : Type} (x : Except ε α) (f : α → Except ε β) (b : β) :
    x >>= f = .ok b ↔ ∃ a, x = .ok a ∧ f a = .ok b := by
  cases x with
  | error e => simp [Bind.bind, Except.bind]
  | ok a => simp [Bind.bind, Except.bind]

theorem getD_map_lt {α β : Type} (l : List α) (f : α → β) (i : ℕ) (d : β) (d0 : α)
    (h : i < l.length) : (l.map f).getD i d = f (l.getD i d0) := by
  rw [List.getD_eq_getElem?_getD, List.getD_eq_getElem?_getD, List.getElem?_map,
    List.getElem?_eq_getElem h]
  simp

theorem getD_range_map {β : Type} (n i : ℕ) (f : ℕ → β) (d : β) (h : i < n) :
    ((List.range n).map f).getD i d = f i := by
  rw [getD_map_lt (List.range n) f i d 0 (by simpa using h)]
  congr 1
  rw [List.getD_eq_getElem?_getD, List.getElem?_range h]
  rfl

theorem length_resizeD {α : Type} (l : List α) (n : ℕ) (d : α) (h : l.length ≤ n) :
    (resizeD l n d).length = n := by
  unfold resizeD
  simp only [List.length_append, List.length_take, List.length_replicate]
  omega

theorem getD_resizeD_lt {α : Type} (l : List α) (n i : ℕ) (d d' : α) (hi : i < l.length)
    (hn : l.length ≤ n) : (resizeD l n d).getD i d' = l.getD i d' := by
  unfold resizeD
  rw [List.take_of_length_le hn, List.getD_eq_getElem?_getD, List.getD_eq_getElem?_getD,
    List.getElem?_append, if_pos hi]

theorem getD_resizeD_pad {α : Type} (l : List α) (n i : ℕ) (d d' : α) (hi : l.length ≤ i)
    (hin : i < n) : (resizeD l n d).getD i d' = d := by
  unfold resizeD
  rw [List.take_of_length_le (by omega), List.getD_eq_getElem?_getD, List.getElem?_append,
    if_neg (by omega), List.getElem?_replicate, if_pos (by omega)]
  simp

theorem getD_append_lt {α : Type} (l l2 : List α) (i : ℕ) (d : α) (h : i < l.length) :
    (l ++ l2).getD i d = l.getD i d := by
  rw [List.getD_eq_getElem?_getD, List.getD_eq_getElem?_getD, List.getElem?_append, if_pos h]

theorem energyCheck_ok_eq (cfg : Config) (st st' : RxnState)
    (h : energyCheck cfg st = .ok st') : st' = st := by
  unfold energyCheck at h
  split at h
  · exact (Except.ok.inj h).symm
  · split at h
    · exact (Except.ok.inj h).symm
    · simp at h

theorem balanceStage_ok_eq (cfg : Config) (st st' : RxnState)
    (h : balanceStage cfg st = .ok st') : st' = st := by
  unfold balanceStage at h
  split at h
  · exact (Except.ok.inj h).symm
  · rcases (except_bind_ok _ _ _).mp h with ⟨f, _, hres⟩
    split at hres
    · simp at hres
    · exact (Except.ok.inj hres).symm

theorem auxCheck_ok_eq (cfg : Config) (st st' : RxnState)
    (h : auxCheck cfg st = .ok st') : st' = st := by
  unfold auxCheck at h
  split at h
  · simp at h
  · exact (Except.ok.inj h).symm

theorem probeStep_shape (fexists : Str → Bool) (loc : Str) (st : RxnState) (i : ℕ)
    (st' : RxnState) (h : probeStep fexists loc st i = .ok st') :
    st' = { st with reaction_identifier := st'.reaction_identifier } := by
  simp only [probeStep] at h
  split at h
  · split at h
    · rw [← Except.ok.inj h]
    · split at h
      · rw [← Except.ok.inj h]
      · split at h
        · rw [← Except.ok.inj h]
        · split at h
          · rw [← Except.ok.inj h]
          · simp at h
  · rw [← Except.ok.inj h]

theorem probeFold_shape (fexists : Str → Bool) (loc : Str) (is : List ℕ)
    (s s' : RxnState)
    (h : is.foldlM (fun a i => probeStep fexists loc a i) s = .ok s') :
    s' = { s with reaction_identifier := s'.reaction_identifier } := by
  induction is generalizing s with
  | nil =>
    simp only [List.foldlM_nil] at h
    rw [← Except.ok.inj h]
  | cons i is ih =>
    simp only [List.foldlM_cons] at h
    rcases (except_bind_ok _ _ _).mp h with ⟨a, ha, hrest⟩
    have h1 := probeStep_shape fexists loc s i a ha
    have h2 := ih a hrest
    rw [h2, h1]

theorem probeStage_shape (fexists : Str → Bool) (cfg : Config) (st st' : RxnState)
    (h : probeStage fexists cfg st = .ok st') :
    st' = { st with reaction_identifier := st'.reaction_identifier } :=
  probeFold_shape fexists cfg.file_location _ st st' h

/-- Inversion of a successful construction: the final state agrees with the
output of the staged pipeline on every field except `reaction_identifier`
(which the file-probing loop may extend with a suffix). -/
theorem build_ok_inv (cfg : Config) (stod : Str → Option ℚ) (stringify : ℚ → Str)
    (fexists : Str → Bool) (input : List Str) (st : RxnState)
    (h : build cfg stod stringify fexists input = .ok st) :
    ∃ cl, classifyAux stod (nmOf cfg) 0 ((prepLines input).map parseLine) = .ok cl ∧
      st = { participantsStage cfg (superelasticExpand cfg (lumpedExpand cfg
        (stage3 cfg stringify (naOf cfg) ((prepLines input).map parseLine) cl))) with
          reaction_identifier := st.reaction_identifier } := by
  unfold build at h
  split at h
  · simp at h
  · split at h
    · simp at h
    · split at h
      · simp at h
      · split at h
        · simp at h
        · rcases (except_bind_ok _ _ _).mp h with ⟨cl, hcl, h2⟩
          rcases (except_bind_ok _ _ _).mp h2 with ⟨st7, hst7, h3⟩
          rcases (except_bind_ok _ _ _).mp h3 with ⟨st8, hst8, h4⟩
          rcases (except_bind_ok _ _ _).mp h4 with ⟨st9, hst9, h5⟩
          have e7 := energyCheck_ok_eq cfg _ st7 hst7
          have e8 := balanceStage_ok_eq cfg st7 st8 hst8
          have e9 := auxCheck_ok_eq cfg st8 st9 hst9
          have e10 := probeStage_shape fexists cfg st9 st h5
          refine ⟨cl, hcl, ?_⟩
          rw [e10, e9, e8, e7]

/-! ## Fold lemmas for the expansion passes -/

theorem foldl_set_getD_ne {α β : Type} (g : β → ℕ) (v : β → α) (l0 : List α)
    (is : List β) (i : ℕ) (d : α) (h : ∀ b ∈ is, g b ≠ i) :
    (is.foldl (fun l b => l.set (g b) (v b)) l0).getD i d = l0.getD i d := by
  induction is generalizing l0 with
  | nil => rfl
  | cons b bs ih =>
    rw [List.foldl_cons, ih _ (fun b' hb' => h b' (List.mem_cons_of_mem _ hb')),
      getD_set_ne _ _ _ _ _ (h b (List.mem_cons_self _ _))]

theorem foldl_set_length {α β : Type} (g : β → ℕ) (v : β → α) (l0 : List α)
    (is : List β) :
    (is.foldl (fun l b => l.set (g b) (v b)) l0).length = l0.length := by
  induction is generalizing l0 with
  | nil => rfl
  | cons b bs ih =>
    rw [List.foldl_cons, ih]
    simp

theorem foldl_set_getD_slot {α β : Type} (g : β → ℕ) (v : β → α) (l0 : List α)
    (is1 is2 : List β) (b : β) (d : α) (hne : ∀ b' ∈ is2, g b' ≠ g b)
    (hlt : g b < l0.length) :
    ((is1 ++ b :: is2).foldl (fun l c => l.set (g c) (v c)) l0).getD (g b) d = v b := by
  rw [List.foldl_append, List.foldl_cons, foldl_set_getD_ne g v _ is2 _ d hne]
  apply getD_set_self
  rw [foldl_set_length]
  exact hlt

/-- The lumped double loop decomposes into independent per-field
`List.set` folds (each iteration reads templates only from the fixed
pre-state `st` and writes one slot). -/
theorem lumpedFold_eq (cfg : Config) (st : RxnState) (old_num L : ℕ)
    (idxs : List (ℕ × ℕ)) (acc : RxnState) :
    lumpedFold cfg st old_num L idxs acc =
      { acc with
        reaction := idxs.foldl (fun l ac => l.set (slotOf old_num L ac)
          (st.reaction.getD (st.lumped_reaction.getD ac.1 0) [])) acc.reaction
        rate_coefficient := idxs.foldl (fun l ac => l.set (slotOf old_num L ac)
          (st.rate_coefficient.getD (st.lumped_reaction.getD ac.1 0) (some 0)))
          acc.rate_coefficient
        rate_type := idxs.foldl (fun l ac => l.set (slotOf old_num L ac)
          (st.rate_type.getD (st.lumped_reaction.getD ac.1 0) [])) acc.rate_type
        rate_equation_string := idxs.foldl (fun l ac => l.set (slotOf old_num L ac)
          (st.rate_equation_string.getD (st.lumped_reaction.getD ac.1 0) []))
          acc.rate_equation_string
        reaction_coefficient_name := idxs.foldl (fun l ac => l.set (slotOf old_num L ac)
          (st.reaction_coefficient_name.getD (st.lumped_reaction.getD ac.1 0) []))
          acc.reaction_coefficient_name
        aux_var_name := idxs.foldl (fun l ac => l.set (slotOf old_num L ac)
          ("rate_constant".data ++ natStr (slotOf old_num L ac))) acc.aux_var_name
        superelastic_reaction := idxs.foldl (fun l ac => l.set (slotOf old_num L ac)
          (st.superelastic_reaction.getD (st.lumped_reaction.getD ac.1 0) false))
          acc.superelastic_reaction
        reversible_reaction := idxs.foldl (fun l ac => l.set (slotOf old_num L ac)
          (st.reversible_reaction.getD (st.lumped_reaction.getD ac.1 0) false))
          acc.reversible_reaction
        reaction_lumped := idxs.foldl (fun l ac => l.set (slotOf old_num L ac) false)
          acc.reaction_lumped
        species_count := idxs.foldl (fun l ac => l.set (slotOf old_num L ac)
          (st.species_count.getD (st.lumped_reaction.getD ac.1 0) [])) acc.species_count
        reactants := idxs.foldl (fun l ac => l.set (slotOf old_num L ac)
          (substLumped cfg.lumped_name (cfg.lumpedList.getD ac.2 [])
            (st.reactants.getD (st.lumped_reaction.getD ac.1 0) []))) acc.reactants
        products := idxs.foldl (fun l ac => l.set (slotOf old_num L ac)
          (substLumped cfg.lumped_name (cfg.lumpedList.getD ac.2 [])
            (st.products.getD (st.lumped_reaction.getD ac.1 0) []))) acc.products } := by
  induction idxs generalizing acc with
  | nil => rfl
  | cons ac idxs ih =>
    show lumpedFold cfg st old_num L idxs (lumpedAssign cfg st old_num L acc ac) = _
    rw [ih]
    rfl
/-- Shape of one superelastic iteration at a reversible reaction: all
per-reaction writes land at `new_index + 1`, plus one `_reaction` append
and the species-count rewrite at the same slot. -/
theorem superStep_shape_true (species : List Str) (j : ℕ) (acc : SuperAcc)
    (hrev : acc.st.reversible_reaction.getD j false = true) :
    ∃ row nr,
      superStep species j acc =
        { st := { acc.st with
            superelastic_index := acc.st.superelastic_index.set (acc.new_index + 1) j
            superelastic_reaction :=
              acc.st.superelastic_reaction.set (acc.new_index + 1) true
            rate_coefficient := acc.st.rate_coefficient.set (acc.new_index + 1) none
            threshold_energy := acc.st.threshold_energy.set (acc.new_index + 1)
              (-(acc.st.threshold_energy.getD j 0))
            aux_var_name := acc.st.aux_var_name.set (acc.new_index + 1)
              ("rate_constant".data ++ natStr (acc.new_index + 1))
            reaction_coefficient_name :=
              acc.st.reaction_coefficient_name.set (acc.new_index + 1)
                ("rate_constant".data ++ natStr (acc.new_index + 1))
            rate_equation := acc.st.rate_equation.set (acc.new_index + 1)
              (acc.st.rate_equation.getD j false)
            energy_change := acc.st.energy_change.set (acc.new_index + 1)
              (acc.st.energy_change.getD j false)
            reactants := acc.st.reactants.set (acc.new_index + 1)
              ((acc.st.reactants.getD (acc.new_index + 1) []) ++
                (acc.st.products.getD j []).take (acc.st.num_products.getD j 0))
            products := acc.st.products.set (acc.new_index + 1)
              ((acc.st.products.getD (acc.new_index + 1) []) ++
                acc.st.reactants.getD j [])
            reaction := acc.st.reaction ++ [nr]
            species_count := acc.st.species_count.set (acc.new_index + 1) row }
          new_index := acc.new_index + 1
          new_reaction := nr } := by
  simp only [superStep, hrev, reduceIte]
  exact ⟨_, _, rfl⟩

/-- Shape of one superelastic iteration at a non-reversible reaction: only
the stray species-count rewrite at the current `new_index` happens. -/
theorem superStep_shape_false (species : List Str) (j : ℕ) (acc : SuperAcc)
    (hrev : acc.st.reversible_reaction.getD j false = false) :
    ∃ row,
      superStep species j acc =
        { acc with st :=
            { acc.st with species_count := acc.st.species_count.set acc.new_index row } } := by
  simp only [superStep, hrev, reduceIte]
  exact ⟨_, rfl⟩

theorem superStep_new_index (species : List Str) (i : ℕ) (acc : SuperAcc) :
    (superStep species i acc).new_index =
      (if acc.st.reversible_reaction.getD i false then acc.new_index + 1
       else acc.new_index) := by
  by_cases h : acc.st.reversible_reaction.getD i false = true
  · obtain ⟨row, nr, hstep⟩ := superStep_shape_true species i acc h
    rw [hstep, if_pos h]
  · rw [Bool.not_eq_true] at h
    obtain ⟨row, hstep⟩ := superStep_shape_false species i acc h
    rw [hstep, if_neg (by rw [h]; exact Bool.false_ne_true)]

theorem superLoop_new_index_mono (species : List Str) (is : List ℕ) (acc : SuperAcc) :
    acc.new_index ≤ (superLoop species is acc).new_index := by
  induction is generalizing acc with
  | nil => exact le_rfl
  | cons i is ih =>
    refine le_trans ?_ (ih (superStep species i acc))
    rw [superStep_new_index]
    split <;> omega

/-- `superStep` never touches these members. -/
theorem superStep_untouched (species : List Str) (i : ℕ) (acc : SuperAcc) :
    (superStep species i acc).st.rate_type = acc.st.rate_type ∧
    (superStep species i acc).st.rate_equation_string = acc.st.rate_equation_string ∧
    (superStep species i acc).st.reversible_reaction = acc.st.reversible_reaction ∧
    (superStep species i acc).st.num_reactants = acc.st.num_reactants ∧
    (superStep species i acc).st.num_products = acc.st.num_products ∧
    (superStep species i acc).st.is_identified = acc.st.is_identified ∧
    (superStep species i acc).st.reaction_identifier = acc.st.reaction_identifier ∧
    (superStep species i acc).st.lumped_reaction = acc.st.lumped_reaction ∧
    (superStep species i acc).st.reaction_lumped = acc.st.reaction_lumped ∧
    (superStep species i acc).st.elastic_collision = acc.st.elastic_collision ∧
    (superStep species i acc).st.superelastic_count = acc.st.superelastic_count ∧
    (superStep species i acc).st.num_eedf_reactions = acc.st.num_eedf_reactions ∧
    (superStep species i acc).st.num_reactions = acc.st.num_reactions ∧
    (superStep species i acc).st.reaction_participants = acc.st.reaction_participants ∧
    (superStep species i acc).st.reaction_stoichiometric_coeff =
      acc.st.reaction_stoichiometric_coeff := by
  by_cases h : acc.st.reversible_reaction.getD i false = true
  · obtain ⟨row, nr, hstep⟩ := superStep_shape_true species i acc h
    rw [hstep]
    exact ⟨rfl, rfl, rfl, rfl, rfl, rfl, rfl, rfl, rfl, rfl, rfl, rfl, rfl, rfl, rfl⟩
  · rw [Bool.not_eq_true] at h
    obtain ⟨row, hstep⟩ := superStep_shape_false species i acc h
    rw [hstep]
    exact ⟨rfl, rfl, rfl, rfl, rfl, rfl, rfl, rfl, rfl, rfl, rfl, rfl, rfl, rfl, rfl⟩

theorem superLoop_untouched (species : List Str) (is : List ℕ) (acc : SuperAcc) :
    (superLoop species is acc).st.rate_type = acc.st.rate_type ∧
    (superLoop species is acc).st.rate_equation_string = acc.st.rate_equation_string ∧
    (superLoop species is acc).st.reversible_reaction = acc.st.reversible_reaction ∧
    (superLoop species is acc).st.num_reactants = acc.st.num_reactants ∧
    (superLoop species is acc).st.num_products = acc.st.num_products ∧
    (superLoop species is acc).st.is_identified = acc.st.is_identified ∧
    (superLoop species is acc).st.reaction_identifier = acc.st.reaction_identifier ∧
    (superLoop species is acc).st.lumped_reaction = acc.st.lumped_reaction ∧
    (superLoop species is acc).st.reaction_lumped = acc.st.reaction_lumped ∧
    (superLoop species is acc).st.elastic_collision = acc.st.elastic_collision ∧
    (superLoop species is acc).st.superelastic_count = acc.st.superelastic_count ∧
    (superLoop species is acc).st.num_eedf_reactions = acc.st.num_eedf_reactions ∧
    (superLoop species is acc).st.num_reactions = acc.st.num_reactions ∧
    (superLoop species is acc).st.reaction_participants = acc.st.reaction_participants ∧
    (superLoop species is acc).st.reaction_stoichiometric_coeff =
      acc.st.reaction_stoichiometric_coeff := by
  induction is generalizing acc with
  | nil =>
    exact ⟨rfl, rfl, rfl, rfl, rfl, rfl, rfl, rfl, rfl, rfl, rfl, rfl, rfl, rfl, rfl⟩
  | cons i is ih =>
    obtain ⟨a1, a2, a3, a4, a5, a6, a7, a8, a9, a10, a11, a12, a13, a14, a15⟩ :=
      ih (superStep species i acc)
    obtain ⟨b1, b2, b3, b4, b5, b6, b7, b8, b9, b10, b11, b12, b13, b14, b15⟩ :=
      superStep_untouched species i acc
    exact ⟨a1.trans b1, a2.trans b2, a3.trans b3, a4.trans b4, a5.trans b5, a6.trans b6,
      a7.trans b7, a8.trans b8, a9.trans b9, a10.trans b10, a11.trans b11, a12.trans b12,
      a13.trans b13, a14.trans b14, a15.trans b15⟩

theorem superStep_lengths (species : List Str) (i : ℕ) (acc : SuperAcc) :
    (superStep species i acc).st.superelastic_index.length =
      acc.st.superelastic_index.length ∧
    (superStep species i acc).st.superelastic_reaction.length =
      acc.st.superelastic_reaction.length ∧
    (superStep species i acc).st.rate_coefficient.length =
      acc.st.rate_coefficient.length ∧
    (superStep species i acc).st.threshold_energy.length =
      acc.st.threshold_energy.length ∧
    (superStep species i acc).st.aux_var_name.length = acc.st.aux_var_name.length ∧
    (superStep species i acc).st.reaction_coefficient_name.length =
      acc.st.reaction_coefficient_name.length ∧
    (superStep species i acc).st.rate_equation.length = acc.st.rate_equation.length ∧
    (superStep species i acc).st.energy_change.length = acc.st.energy_change.length ∧
    (superStep species i acc).st.reactants.length = acc.st.reactants.length ∧
    (superStep species i acc).st.products.length = acc.st.products.length ∧
    (superStep species i acc).st.species_count.length = acc.st.species_count.length ∧
    acc.st.reaction.length ≤ (superStep species i acc).st.reaction.length := by
  by_cases h : acc.st.reversible_reaction.getD i false = true
  · obtain ⟨row, nr, hstep⟩ := superStep_shape_true species i acc h
    rw [hstep]
    refine ⟨?_, ?_, ?_, ?_, ?_, ?_, ?_, ?_, ?_, ?_, ?_, ?_⟩ <;> simp
  · rw [Bool.not_eq_true] at h
    obtain ⟨row, hstep⟩ := superStep_shape_false species i acc h
    rw [hstep]
    refine ⟨?_, ?_, ?_, ?_, ?_, ?_, ?_, ?_, ?_, ?_, ?_, ?_⟩ <;> simp

theorem superLoop_lengths (species : List Str) (is : List ℕ) (acc : SuperAcc) :
    (superLoop species is acc).st.superelastic_index.length =
      acc.st.superelastic_index.length ∧
    (superLoop species is acc).st.superelastic_reaction.length =
      acc.st.superelastic_reaction.length ∧
    (superLoop species is acc).st.rate_coefficient.length =
      acc.st.rate_coefficient.length ∧
    (superLoop species is acc).st.threshold_energy.length =
      acc.st.threshold_energy.length ∧
    (superLoop species is acc).st.aux_var_name.length = acc.st.aux_var_name.length ∧
    (superLoop species is acc).st.reaction_coefficient_name.length =
      acc.st.reaction_coefficient_name.length ∧
    (superLoop species is acc).st.rate_equation.length = acc.st.rate_equation.length ∧
    (superLoop species is acc).st.energy_change.length = acc.st.energy_change.length ∧
    (superLoop species is acc).st.reactants.length = acc.st.reactants.length ∧
    (superLoop species is acc).st.products.length = acc.st.products.length ∧
    (superLoop species is acc).st.species_count.length = acc.st.species_count.length ∧
    acc.st.reaction.length ≤ (superLoop species is acc).st.reaction.length := by
  induction is generalizing acc with
  | nil =>
    exact ⟨rfl, rfl, rfl, rfl, rfl, rfl, rfl, rfl, rfl, rfl, rfl, le_rfl⟩
  | cons i is ih =>
    obtain ⟨a1, a2, a3, a4, a5, a6, a7, a8, a9, a10, a11, a12⟩ :=
      ih (superStep species i acc)
    obtain ⟨b1, b2, b3, b4, b5, b6, b7, b8, b9, b10, b11, b12⟩ :=
      superStep_lengths species i acc
    exact ⟨a1.trans b1, a2.trans b2, a3.trans b3, a4.trans b4, a5.trans b5, a6.trans b6,
      a7.trans b7, a8.trans b8, a9.trans b9, a10.trans b10, a11.trans b11,
      le_trans b12 a12⟩

/-- The superelastic loop never modifies entries at or below the running
`new_index` (strictly below for `_species_count`, which the stray
`Calculate coefficients` rerun touches at `new_index` itself), and only
appends to `_reaction`. -/
theorem superLoop_getD_le (species : List Str) (is : List ℕ) (acc : SuperAcc) (i : ℕ)
    (hi : i ≤ acc.new_index) :
    (superLoop species is acc).st.superelastic_index.getD i 0 =
      acc.st.superelastic_index.getD i 0 ∧
    (superLoop species is acc).st.superelastic_reaction.getD i false =
      acc.st.superelastic_reaction.getD i false ∧
    (superLoop species is acc).st.rate_coefficient.getD i none =
      acc.st.rate_coefficient.getD i none ∧
    (superLoop species is acc).st.threshold_energy.getD i 0 =
      acc.st.threshold_energy.getD i 0 ∧
    (superLoop species is acc).st.aux_var_name.getD i [] =
      acc.st.aux_var_name.getD i [] ∧
    (superLoop species is acc).st.reaction_coefficient_name.getD i [] =
      acc.st.reaction_coefficient_name.getD i [] ∧
    (superLoop species is acc).st.rate_equation.getD i false =
      acc.st.rate_equation.getD i false ∧
    (superLoop species is acc).st.energy_change.getD i false =
      acc.st.energy_change.getD i false ∧
    (superLoop species is acc).st.reactants.getD i [] = acc.st.reactants.getD i [] ∧
    (superLoop species is acc).st.products.getD i [] = acc.st.products.getD i [] ∧
    (i < acc.new_index →
      (superLoop species is acc).st.species_count.getD i [] =
        acc.st.species_count.getD i []) ∧
    (i < acc.st.reaction.length →
      (superLoop species is acc).st.reaction.getD i [] = acc.st.reaction.getD i []) := by
  induction is generalizing acc with
  | nil =>
    exact ⟨rfl, rfl, rfl, rfl, rfl, rfl, rfl, rfl, rfl, rfl, fun _ => rfl, fun _ => rfl⟩
  | cons j is ih =>
    have hloop : superLoop species (j :: is) acc =
        superLoop species is (superStep species j acc) := rfl
    rw [hloop]
    by_cases hrev : acc.st.reversible_reaction.getD j false = true
    · obtain ⟨row, nr, hstep⟩ := superStep_shape_true species j acc hrev
      have hni : i ≤ (superStep species j acc).new_index := by
        rw [hstep]
        exact le_trans hi (Nat.le_succ _)
      obtain ⟨a1, a2, a3, a4, a5, a6, a7, a8, a9, a10, a11, a12⟩ :=
        ih (superStep species j acc) hni
      have hne : acc.new_index + 1 ≠ i := by omega
      refine ⟨?_, ?_, ?_, ?_, ?_, ?_, ?_, ?_, ?_, ?_, ?_, ?_⟩
      · rw [a1, hstep]
        exact getD_set_ne _ _ _ _ _ hne
      · rw [a2, hstep]
        exact getD_set_ne _ _ _ _ _ hne
      · rw [a3, hstep]
        exact getD_set_ne _ _ _ _ _ hne
      · rw [a4, hstep]
        exact getD_set_ne _ _ _ _ _ hne
      · rw [a5, hstep]
        exact getD_set_ne _ _ _ _ _ hne
      · rw [a6, hstep]
        exact getD_set_ne _ _ _ _ _ hne
      · rw [a7, hstep]
        exact getD_set_ne _ _ _ _ _ hne
      · rw [a8, hstep]
        exact getD_set_ne _ _ _ _ _ hne
      · rw [a9, hstep]
        exact getD_set_ne _ _ _ _ _ hne
      · rw [a10, hstep]
        exact getD_set_ne _ _ _ _ _ hne
      · intro _
        rw [a11 (by rw [hstep]; exact Nat.lt_succ_of_le hi), hstep]
        exact getD_set_ne _ _ _ _ _ hne
      · intro hlt
        rw [a12 (by rw [hstep]; simpa using Nat.lt_succ_of_lt hlt), hstep]
        exact getD_append_lt _ _ _ _ hlt
    · rw [Bool.not_eq_true] at hrev
      obtain ⟨row, hstep⟩ := superStep_shape_false species j acc hrev
      have hni : i ≤ (superStep species j acc).new_index := by
        rw [hstep]
        exact hi
      obtain ⟨a1, a2, a3, a4, a5, a6, a7, a8, a9, a10, a11, a12⟩ :=
        ih (superStep species j acc) hni
      refine ⟨?_, ?_, ?_, ?_, ?_, ?_, ?_, ?_, ?_, ?_, ?_, ?_⟩
      · rw [a1, hstep]
      · rw [a2, hstep]
      · rw [a3, hstep]
      · rw [a4, hstep]
      · rw [a5, hstep]
      · rw [a6, hstep]
      · rw [a7, hstep]
      · rw [a8, hstep]
      · rw [a9, hstep]
      · rw [a10, hstep]
      · intro hlt
        rw [a11 (by rw [hstep]; exact hlt), hstep]
        exact getD_set_ne _ _ _ _ _ (by omega)
      · intro hlt
        rw [a12 (by rw [hstep]; exact hlt), hstep]

/-! ## Characterization of the classification loop -/

theorem classifyLine_ok_constant (stod : Str → Option ℚ) (lf : LineFields)
    (c : (ℚ × Bool) × (Option ℚ × Str × Bool)) (h : classifyLine stod lf = .ok c)
    (hc : c.2.2.1 = "Constant".data) :
    ∃ v, stod lf.rate_coeff_string = some v ∧ c.2.1 = some v := by
  unfold classifyLine at h
  rcases (except_bind_ok _ _ _).mp h with ⟨te, _, h2⟩
  rcases (except_bind_ok _ _ _).mp h2 with ⟨rc, hrc, h3⟩
  have hceq := Except.ok.inj h3
  subst hceq
  split at hrc
  · rw [← Except.ok.inj hrc] at hc
    have hc2 : ("EEDF".data : Str) = "Constant".data := hc
    exact absurd hc2 (by decide)
  · split at hrc
    · rw [← Except.ok.inj hrc] at hc
      have hc2 : ("Equation".data : Str) = "Constant".data := hc
      exact absurd hc2 (by decide)
    · split at hrc
      · rename_i v heq
        exact ⟨v, heq, by rw [← Except.ok.inj hrc]⟩
      · simp at hrc

theorem classifyAux_ok_spec (stod : Str → Option ℚ) (nm : Str) (i0 : ℕ)
    (lines : List LineFields) (cl : Classified)
    (h : classifyAux stod nm i0 lines = .ok cl) :
    cl.threshold_energy.length = lines.length ∧
    cl.elastic_collision.length = lines.length ∧
    cl.rate_coefficient.length = lines.length ∧
    cl.rate_type.length = lines.length ∧
    cl.aux_var_name.length = lines.length ∧
    cl.reaction_coefficient_name.length = lines.length ∧
    ∀ j, j < lines.length → cl.rate_type.getD j [] = "Constant".data →
      ∃ v, stod ((lines.getD j default).rate_coeff_string) = some v ∧
        cl.rate_coefficient.getD j none = some v := by
  induction lines generalizing i0 cl with
  | nil =>
    rw [← Except.ok.inj h]
    exact ⟨rfl, rfl, rfl, rfl, rfl, rfl, fun j hj => absurd hj (by simp)⟩
  | cons lf rest ih =>
    rw [show classifyAux stod nm i0 (lf :: rest) = _ from rfl] at h
    rcases (except_bind_ok _ _ _).mp h with ⟨c, hc, h2⟩
    rcases (except_bind_ok _ _ _).mp h2 with ⟨restC, hrest, h3⟩
    obtain ⟨l1, l2, l3, l4, l5, l6, hcs⟩ := ih (i0 + 1) restC hrest
    rw [← Except.ok.inj h3]
    refine ⟨by simpa using l1, by simpa using l2, by simpa using l3, by simpa using l4,
      by simpa using l5, by simpa using l6, ?_⟩
    intro j hj
    cases j with
    | zero =>
      intro ht
      simpa using classifyLine_ok_constant stod lf c hc (by simpa using ht)
    | succ j =>
      intro ht
      simp only [List.getD_cons_succ] at ht ⊢
      exact hcs j (by simpa using hj) ht

/-! ## Stage lemmas -/

theorem stage3_lengths (cfg : Config) (strf : ℚ → Str) (NA : ℚ)
    (lines : List LineFields) (cl : Classified) :
    (stage3 cfg strf NA lines cl).reaction.length = lines.length ∧
    (stage3 cfg strf NA lines cl).reactants.length = lines.length ∧
    (stage3 cfg strf NA lines cl).products.length = lines.length ∧
    (stage3 cfg strf NA lines cl).reversible_reaction.length = lines.length ∧
    (stage3 cfg strf NA lines cl).num_reactants.length = lines.length ∧
    (stage3 cfg strf NA lines cl).num_products.length = lines.length ∧
    (stage3 cfg strf NA lines cl).rate_coefficient.length = lines.length ∧
    (stage3 cfg strf NA lines cl).rate_equation_string.length = lines.length ∧
    (stage3 cfg strf NA lines cl).reaction_lumped.length = lines.length ∧
    (stage3 cfg strf NA lines cl).species_count.length = lines.length ∧
    (stage3 cfg strf NA lines cl).energy_change.length = lines.length ∧
    (stage3 cfg strf NA lines cl).num_reactions = lines.length ∧
    (stage3 cfg strf NA lines cl).superelastic_index = [] ∧
    (stage3 cfg strf NA lines cl).superelastic_reaction = [] := by
  unfold stage3
  refine ⟨?_, ?_, ?_, ?_, ?_, ?_, ?_, ?_, ?_, ?_, ?_, rfl, rfl, rfl⟩ <;> simp

/-- The lumped double loop leaves these members untouched. -/
theorem lumpedFold_untouched (cfg : Config) (st : RxnState) (old_num L : ℕ)
    (idxs : List (ℕ × ℕ)) (acc : RxnState) :
    (lumpedFold cfg st old_num L idxs acc).threshold_energy = acc.threshold_energy ∧
    (lumpedFold cfg st old_num L idxs acc).energy_change = acc.energy_change ∧
    (lumpedFold cfg st old_num L idxs acc).rate_equation = acc.rate_equation ∧
    (lumpedFold cfg st old_num L idxs acc).num_reactants = acc.num_reactants ∧
    (lumpedFold cfg st old_num L idxs acc).num_products = acc.num_products ∧
    (lumpedFold cfg st old_num L idxs acc).is_identified = acc.is_identified ∧
    (lumpedFold cfg st old_num L idxs acc).reaction_identifier =
      acc.reaction_identifier ∧
    (lumpedFold cfg st old_num L idxs acc).lumped_reaction = acc.lumped_reaction ∧
    (lumpedFold cfg st old_num L idxs acc).elastic_collision = acc.elastic_collision ∧
    (lumpedFold cfg st old_num L idxs acc).superelastic_index =
      acc.superelastic_index ∧
    (lumpedFold cfg st old_num L idxs acc).superelastic_count =
      acc.superelastic_count ∧
    (lumpedFold cfg st old_num L idxs acc).num_eedf_reactions =
      acc.num_eedf_reactions ∧
    (lumpedFold cfg st old_num L idxs acc).num_reactions = acc.num_reactions := by
  induction idxs generalizing acc with
  | nil => exact ⟨rfl, rfl, rfl, rfl, rfl, rfl, rfl, rfl, rfl, rfl, rfl, rfl, rfl⟩
  | cons ac idxs ih =>
    obtain ⟨e1, e2, e3, e4, e5, e6, e7, e8, e9, e10, e11, e12, e13⟩ :=
      ih (lumpedAssign cfg st old_num L acc ac)
    exact ⟨e1, e2, e3, e4, e5, e6, e7, e8, e9, e10, e11, e12, e13⟩

/-- `lumpedExpand` leaves these members untouched. -/
theorem lumpedExpand_untouched (cfg : Config) (st : RxnState) :
    (lumpedExpand cfg st).threshold_energy = st.threshold_energy ∧
    (lumpedExpand cfg st).energy_change = st.energy_change ∧
    (lumpedExpand cfg st).rate_equation = st.rate_equation ∧
    (lumpedExpand cfg st).num_reactants = st.num_reactants ∧
    (lumpedExpand cfg st).num_products = st.num_products ∧
    (lumpedExpand cfg st).is_identified = st.is_identified ∧
    (lumpedExpand cfg st).reaction_identifier = st.reaction_identifier ∧
    (lumpedExpand cfg st).lumped_reaction = st.lumped_reaction ∧
    (lumpedExpand cfg st).elastic_collision = st.elastic_collision ∧
    (lumpedExpand cfg st).superelastic_index = st.superelastic_index ∧
    (lumpedExpand cfg st).superelastic_count = st.superelastic_count ∧
    (lumpedExpand cfg st).num_eedf_reactions = st.num_eedf_reactions := by
  unfold lumpedExpand
  split
  · exact ⟨rfl, rfl, rfl, rfl, rfl, rfl, rfl, rfl, rfl, rfl, rfl, rfl⟩
  · obtain ⟨f1, f2, f3, f4, f5, f6, f7, f8, f9, f10, f11, f12, _⟩ :=
      lumpedFold_untouched cfg st st.num_reactions cfg.lumpedList.length
        (lumpedIdxs cfg st) (lumpedResize cfg st)
    exact ⟨f1, f2, f3, f4, f5, f6, f7, f8, f9, f10, f11, f12⟩

theorem lumpedExpand_num_reactions (cfg : Config) (st : RxnState) :
    (lumpedExpand cfg st).num_reactions = st.num_reactions +
      (if cfg.lumped_species then st.lumped_reaction.length * cfg.lumpedList.length
       else 0) := by
  unfold lumpedExpand
  split
  · rename_i hfl
    simp [hfl]
  · rename_i hfl
    rw [if_pos (by simp_all)]
    obtain ⟨_, _, _, _, _, _, _, _, _, _, _, _, f13⟩ :=
      lumpedFold_untouched cfg st st.num_reactions cfg.lumpedList.length
        (lumpedIdxs cfg st) (lumpedResize cfg st)
    exact f13

/-- The lumped double loop preserves every entry whose index is not one of
its slots. -/
theorem lumpedFold_getD_ne (cfg : Config) (st : RxnState) (old_num L : ℕ)
    (idxs : List (ℕ × ℕ)) (acc : RxnState) (i : ℕ)
    (hni : ∀ ac ∈ idxs, slotOf old_num L ac ≠ i) :
    (lumpedFold cfg st old_num L idxs acc).reaction.getD i [] = acc.reaction.getD i [] ∧
    (lumpedFold cfg st old_num L idxs acc).rate_coefficient.getD i none =
      acc.rate_coefficient.getD i none ∧
    (lumpedFold cfg st old_num L idxs acc).rate_type.getD i [] = acc.rate_type.getD i [] ∧
    (lumpedFold cfg st old_num L idxs acc).rate_equation_string.getD i [] =
      acc.rate_equation_string.getD i [] ∧
    (lumpedFold cfg st old_num L idxs acc).reaction_coefficient_name.getD i [] =
      acc.reaction_coefficient_name.getD i [] ∧
    (lumpedFold cfg st old_num L idxs acc).aux_var_name.getD i [] =
      acc.aux_var_name.getD i [] ∧
    (lumpedFold cfg st old_num L idxs acc).reversible_reaction.getD i false =
      acc.reversible_reaction.getD i false ∧
    (lumpedFold cfg st old_num L idxs acc).reaction_lumped.getD i false =
      acc.reaction_lumped.getD i false ∧
    (lumpedFold cfg st old_num L idxs acc).species_count.getD i [] =
      acc.species_count.getD i [] ∧
    (lumpedFold cfg st old_num L idxs acc).reactants.getD i [] =
      acc.reactants.getD i [] ∧
    (lumpedFold cfg st old_num L idxs acc).products.getD i [] =
      acc.products.getD i [] ∧
    (lumpedFold cfg st old_num L idxs acc).superelastic_reaction.getD i false =
      acc.superelastic_reaction.getD i false := by
  induction idxs generalizing acc with
  | nil => exact ⟨rfl, rfl, rfl, rfl, rfl, rfl, rfl, rfl, rfl, rfl, rfl, rfl⟩
  | cons ac idxs ih =>
    have hne : slotOf old_num L ac ≠ i := hni ac (List.mem_cons_self _ _)
    obtain ⟨e1, e2, e3, e4, e5, e6, e7, e8, e9, e10, e11, e12⟩ :=
      ih (lumpedAssign cfg st old_num L acc ac)
        (fun p hp => hni p (List.mem_cons_of_mem _ hp))
    exact ⟨e1.trans (getD_set_ne _ _ _ _ _ hne), e2.trans (getD_set_ne _ _ _ _ _ hne),
      e3.trans (getD_set_ne _ _ _ _ _ hne), e4.trans (getD_set_ne _ _ _ _ _ hne),
      e5.trans (getD_set_ne _ _ _ _ _ hne), e6.trans (getD_set_ne _ _ _ _ _ hne),
      e7.trans (getD_set_ne _ _ _ _ _ hne), e8.trans (getD_set_ne _ _ _ _ _ hne),
      e9.trans (getD_set_ne _ _ _ _ _ hne), e10.trans (getD_set_ne _ _ _ _ _ hne),
      e11.trans (getD_set_ne _ _ _ _ _ hne), e12.trans (getD_set_ne _ _ _ _ _ hne)⟩

theorem lumpedFold_lengths (cfg : Config) (st : RxnState) (old_num L : ℕ)
    (idxs : List (ℕ × ℕ)) (acc : RxnState) :
    (lumpedFold cfg st old_num L idxs acc).reaction.length = acc.reaction.length ∧
    (lumpedFold cfg st old_num L idxs acc).rate_coefficient.length =
      acc.rate_coefficient.length ∧
    (lumpedFold cfg st old_num L idxs acc).rate_type.length = acc.rate_type.length ∧
    (lumpedFold cfg st old_num L idxs acc).rate_equation_string.length =
      acc.rate_equation_string.length ∧
    (lumpedFold cfg st old_num L idxs acc).reaction_coefficient_name.length =
      acc.reaction_coefficient_name.length ∧
    (lumpedFold cfg st old_num L idxs acc).aux_var_name.length =
      acc.aux_var_name.length ∧
    (lumpedFold cfg st old_num L idxs acc).reversible_reaction.length =
      acc.reversible_reaction.length ∧
    (lumpedFold cfg st old_num L idxs acc).reaction_lumped.length =
      acc.reaction_lumped.length ∧
    (lumpedFold cfg st old_num L idxs acc).species_count.length =
      acc.species_count.length ∧
    (lumpedFold cfg st old_num L idxs acc).reactants.length = acc.reactants.length ∧
    (lumpedFold cfg st old_num L idxs acc).products.length = acc.products.length ∧
    (lumpedFold cfg st old_num L idxs acc).superelastic_reaction.length =
      acc.superelastic_reaction.length := by
  induction idxs generalizing acc with
  | nil => exact ⟨rfl, rfl, rfl, rfl, rfl, rfl, rfl, rfl, rfl, rfl, rfl, rfl⟩
  | cons ac idxs ih =>
    obtain ⟨e1, e2, e3, e4, e5, e6, e7, e8, e9, e10, e11, e12⟩ :=
      ih (lumpedAssign cfg st old_num L acc ac)
    refine ⟨e1.trans ?_, e2.trans ?_, e3.trans ?_, e4.trans ?_, e5.trans ?_, e6.trans ?_,
      e7.trans ?_, e8.trans ?_, e9.trans ?_, e10.trans ?_, e11.trans ?_, e12.trans ?_⟩ <;>
      exact List.length_set _ _ _

/-- `lumpedExpand` preserves every entry at an index below the original
reaction count (the expansion only writes at slots `≥ old_num`). -/
theorem lumpedExpand_getD_lt (cfg : Config) (st : RxnState) (i : ℕ)
    (hi : i < st.num_reactions)
    (h1 : st.reaction.length = st.num_reactions)
    (h2 : st.rate_coefficient.length = st.num_reactions)
    (h3 : st.rate_type.length = st.num_reactions)
    (h4 : st.rate_equation_string.length = st.num_reactions)
    (h5 : st.reaction_coefficient_name.length = st.num_reactions)
    (h6 : st.aux_var_name.length = st.num_reactions)
    (h7 : st.reversible_reaction.length = st.num_reactions)
    (h8 : st.reaction_lumped.length = st.num_reactions)
    (h9 : st.species_count.length = st.num_reactions)
    (h10 : st.reactants.length = st.num_reactions)
    (h11 : st.products.length = st.num_reactions)
    (h12 : st.superelastic_reaction.length ≤ st.num_reactions) :
    (lumpedExpand cfg st).reaction.getD i [] = st.reaction.getD i [] ∧
    (lumpedExpand cfg st).rate_coefficient.getD i none = st.rate_coefficient.getD i none ∧
    (lumpedExpand cfg st).rate_type.getD i [] = st.rate_type.getD i [] ∧
    (lumpedExpand cfg st).rate_equation_string.getD i [] =
      st.rate_equation_string.getD i [] ∧
    (lumpedExpand cfg st).reaction_coefficient_name.getD i [] =
      st.reaction_coefficient_name.getD i [] ∧
    (lumpedExpand cfg st).aux_var_name.getD i [] = st.aux_var_name.getD i [] ∧
    (lumpedExpand cfg st).reversible_reaction.getD i false =
      st.reversible_reaction.getD i false ∧
    (lumpedExpand cfg st).reaction_lumped.getD i false =
      st.reaction_lumped.getD i false ∧
    (lumpedExpand cfg st).species_count.getD i [] = st.species_count.getD i [] ∧
    (lumpedExpand cfg st).reactants.getD i [] = st.reactants.getD i [] ∧
    (lumpedExpand cfg st).products.getD i [] = st.products.getD i [] ∧
    (lumpedExpand cfg st).superelastic_reaction.getD i false =
      st.superelastic_reaction.getD i false := by
  unfold lumpedExpand
  split
  · exact ⟨rfl, rfl, rfl, rfl, rfl, rfl, rfl, rfl, rfl, rfl, rfl, rfl⟩
  · have hslot : ∀ ac ∈ (List.range st.lumped_reaction.length).flatMap
        (fun a => (List.range cfg.lumpedList.length).map (fun c => (a, c))),
        slotOf st.num_reactions cfg.lumpedList.length ac ≠ i := by
      intro ac _
      unfold slotOf
      omega
    obtain ⟨e1, e2, e3, e4, e5, e6, e7, e8, e9, e10, e11, e12⟩ :=
      lumpedFold_getD_ne cfg st st.num_reactions cfg.lumpedList.length
        (lumpedIdxs cfg st) (lumpedResize cfg st) i hslot
    refine ⟨e1.trans ?_, e2.trans ?_, e3.trans ?_, e4.trans ?_, e5.trans ?_, e6.trans ?_,
      e7.trans ?_, e8.trans ?_, e9.trans ?_, e10.trans ?_, e11.trans ?_, e12.trans ?_⟩
    · refine getD_resizeD_lt st.reaction _ i _ _ ?_ ?_ <;> omega
    · refine getD_resizeD_lt st.rate_coefficient _ i _ _ ?_ ?_ <;> omega
    · refine getD_resizeD_lt st.rate_type _ i _ _ ?_ ?_ <;> omega
    · refine getD_resizeD_lt st.rate_equation_string _ i _ _ ?_ ?_ <;> omega
    · refine getD_resizeD_lt st.reaction_coefficient_name _ i _ _ ?_ ?_ <;> omega
    · refine getD_resizeD_lt st.aux_var_name _ i _ _ ?_ ?_ <;> omega
    · refine getD_resizeD_lt st.reversible_reaction _ i _ _ ?_ ?_ <;> omega
    · refine getD_resizeD_lt st.reaction_lumped _ i _ _ ?_ ?_ <;> omega
    · refine getD_resizeD_lt st.species_count _ i _ _ ?_ ?_ <;> omega
    · refine getD_resizeD_lt st.reactants _ i _ _ ?_ ?_ <;> omega
    · refine getD_resizeD_lt st.products _ i _ _ ?_ ?_ <;> omega
    · by_cases hsl : i < st.superelastic_reaction.length
      · refine getD_resizeD_lt st.superelastic_reaction _ i _ _ hsl ?_
        omega
      · have hpad : (lumpedResize cfg st).superelastic_reaction.getD i false = false := by
          refine getD_resizeD_pad st.superelastic_reaction _ i false false ?_ ?_ <;> omega
        rw [hpad, List.getD_eq_getElem?_getD, List.getElem?_eq_none (by omega)]
        rfl

theorem lumpedExpand_lengths (cfg : Config) (st : RxnState)
    (h1 : st.reaction.length = st.num_reactions)
    (h2 : st.rate_coefficient.length = st.num_reactions)
    (h3 : st.rate_type.length = st.num_reactions)
    (h4 : st.rate_equation_string.length = st.num_reactions)
    (h5 : st.reaction_coefficient_name.length = st.num_reactions)
    (h6 : st.aux_var_name.length = st.num_reactions)
    (h7 : st.reversible_reaction.length = st.num_reactions)
    (h8 : st.reaction_lumped.length = st.num_reactions)
    (h9 : st.species_count.length = st.num_reactions)
    (h10 : st.reactants.length = st.num_reactions)
    (h11 : st.products.length = st.num_reactions) :
    (lumpedExpand cfg st).reaction.length = (lumpedExpand cfg st).num_reactions ∧
    (lumpedExpand cfg st).rate_coefficient.length = (lumpedExpand cfg st).num_reactions ∧
    (lumpedExpand cfg st).rate_type.length = (lumpedExpand cfg st).num_reactions ∧
    (lumpedExpand cfg st).rate_equation_string.length =
      (lumpedExpand cfg st).num_reactions ∧
    (lumpedExpand cfg st).reaction_coefficient_name.length =
      (lumpedExpand cfg st).num_reactions ∧
    (lumpedExpand cfg st).aux_var_name.length = (lumpedExpand cfg st).num_reactions ∧
    (lumpedExpand cfg st).reversible_reaction.length =
      (lumpedExpand cfg st).num_reactions ∧
    (lumpedExpand cfg st).reaction_lumped.length = (lumpedExpand cfg st).num_reactions ∧
    (lumpedExpand cfg st).species_count.length = (lumpedExpand cfg st).num_reactions ∧
    (lumpedExpand cfg st).reactants.length = (lumpedExpand cfg st).num_reactions ∧
    (lumpedExpand cfg st).products.length = (lumpedExpand cfg st).num_reactions := by
  unfold lumpedExpand
  split
  · exact ⟨h1, h2, h3, h4, h5, h6, h7, h8, h9, h10, h11⟩
  · obtain ⟨e1, e2, e3, e4, e5, e6, e7, e8, e9, e10, e11, _⟩ :=
      lumpedFold_lengths cfg st st.num_reactions cfg.lumpedList.length
        (lumpedIdxs cfg st) (lumpedResize cfg st)
    obtain ⟨_, _, _, _, _, _, _, _, _, _, _, _, f13⟩ :=
      lumpedFold_untouched cfg st st.num_reactions cfg.lumpedList.length
        (lumpedIdxs cfg st) (lumpedResize cfg st)
    rw [f13]
    refine ⟨e1.trans ?_, e2.trans ?_, e3.trans ?_, e4.trans ?_, e5.trans ?_, e6.trans ?_,
      e7.trans ?_, e8.trans ?_, e9.trans ?_, e10.trans ?_, e11.trans ?_⟩
    · refine length_resizeD st.reaction _ _ ?_
      omega
    · refine length_resizeD st.rate_coefficient _ _ ?_
      omega
    · refine length_resizeD st.rate_type _ _ ?_
      omega
    · refine length_resizeD st.rate_equation_string _ _ ?_
      omega
    · refine length_resizeD st.reaction_coefficient_name _ _ ?_
      omega
    · refine length_resizeD st.aux_var_name _ _ ?_
      omega
    · refine length_resizeD st.reversible_reaction _ _ ?_
      omega
    · refine length_resizeD st.reaction_lumped _ _ ?_
      omega
    · refine length_resizeD st.species_count _ _ ?_
      omega
    · refine length_resizeD st.reactants _ _ ?_
      omega
    · refine length_resizeD st.products _ _ ?_
      omega

/-- `superelasticExpand` leaves these members untouched and adds the pending
count to `_num_reactions`. -/
theorem superelasticExpand_untouched (cfg : Config) (st0 : RxnState) :
    (superelasticExpand cfg st0).rate_type = st0.rate_type ∧
    (superelasticExpand cfg st0).rate_equation_string = st0.rate_equation_string ∧
    (superelasticExpand cfg st0).reversible_reaction = st0.reversible_reaction ∧
    (superelasticExpand cfg st0).num_reactants = st0.num_reactants ∧
    (superelasticExpand cfg st0).num_products = st0.num_products ∧
    (superelasticExpand cfg st0).is_identified = st0.is_identified ∧
    (superelasticExpand cfg st0).reaction_identifier = st0.reaction_identifier ∧
    (superelasticExpand cfg st0).lumped_reaction = st0.lumped_reaction ∧
    (superelasticExpand cfg st0).reaction_lumped = st0.reaction_lumped ∧
    (superelasticExpand cfg st0).elastic_collision = st0.elastic_collision ∧
    (superelasticExpand cfg st0).superelastic_count = st0.superelastic_count ∧
    (superelasticExpand cfg st0).num_eedf_reactions = st0.num_eedf_reactions ∧
    (superelasticExpand cfg st0).num_reactions =
      st0.num_reactions + st0.superelastic_count := by
  simp only [superelasticExpand]
  by_cases h : 0 < st0.superelastic_count
  · rw [if_pos h]
    obtain ⟨a1, a2, a3, a4, a5, a6, a7, a8, a9, a10, a11, a12, _, _, _⟩ :=
      superLoop_untouched cfg.species (List.range st0.num_reactions)
        { st := superResize cfg st0, new_index := st0.num_reactions - 1,
          new_reaction := [] }
    exact ⟨a1, a2, a3, a4, a5, a6, a7, a8, a9, a10, a11, a12, trivial⟩
  · rw [if_neg h]
    exact ⟨rfl, rfl, rfl, rfl, rfl, rfl, rfl, rfl, rfl, rfl, rfl, rfl, trivial⟩

/-- Below the pre-pass reaction count, `superelasticExpand` only applies the
resize (the loop writes strictly above; `_species_count` additionally needs
one more slot of clearance because of the stray recount at `new_index`). -/
theorem superelasticExpand_getD (cfg : Config) (st0 : RxnState) (i : ℕ)
    (hi : i < st0.num_reactions) :
    (superelasticExpand cfg st0).superelastic_index.getD i 0 =
      (superResize cfg st0).superelastic_index.getD i 0 ∧
    (superelasticExpand cfg st0).superelastic_reaction.getD i false =
      (superResize cfg st0).superelastic_reaction.getD i false ∧
    (superelasticExpand cfg st0).rate_coefficient.getD i none =
      (superResize cfg st0).rate_coefficient.getD i none ∧
    (superelasticExpand cfg st0).threshold_energy.getD i 0 =
      (superResize cfg st0).threshold_energy.getD i 0 ∧
    (superelasticExpand cfg st0).aux_var_name.getD i [] =
      (superResize cfg st0).aux_var_name.getD i [] ∧
    (superelasticExpand cfg st0).reaction_coefficient_name.getD i [] =
      (superResize cfg st0).reaction_coefficient_name.getD i [] ∧
    (superelasticExpand cfg st0).rate_equation.getD i false =
      (superResize cfg st0).rate_equation.getD i false ∧
    (superelasticExpand cfg st0).energy_change.getD i false =
      (superResize cfg st0).energy_change.getD i false ∧
    (superelasticExpand cfg st0).reactants.getD i [] =
      (superResize cfg st0).reactants.getD i [] ∧
    (superelasticExpand cfg st0).products.getD i [] =
      (superResize cfg st0).products.getD i [] ∧
    (i + 1 < st0.num_reactions →
      (superelasticExpand cfg st0).species_count.getD i [] =
        (superResize cfg st0).species_count.getD i []) ∧
    (i < (superResize cfg st0).reaction.length →
      (superelasticExpand cfg st0).reaction.getD i [] =
        (superResize cfg st0).reaction.getD i []) := by
  simp only [superelasticExpand]
  by_cases h : 0 < st0.superelastic_count
  · rw [if_pos h]
    obtain ⟨a1, a2, a3, a4, a5, a6, a7, a8, a9, a10, a11, a12⟩ :=
      superLoop_getD_le cfg.species (List.range st0.num_reactions)
        { st := superResize cfg st0, new_index := st0.num_reactions - 1,
          new_reaction := [] } i (by show i ≤ st0.num_reactions - 1; omega)
    exact ⟨a1, a2, a3, a4, a5, a6, a7, a8, a9, a10,
      fun hlt => a11 (by show i < st0.num_reactions - 1; omega),
      fun hlt => a12 hlt⟩
  · rw [if_neg h]
    exact ⟨rfl, rfl, rfl, rfl, rfl, rfl, rfl, rfl, rfl, rfl, fun _ => rfl, fun _ => rfl⟩

/-- `participantsStage` only fills the two participant members. -/
theorem participantsStage_eq (cfg : Config) (st : RxnState) :
    participantsStage cfg st =
      { st with
        reaction_participants := (participantsStage cfg st).reaction_participants
        reaction_stoichiometric_coeff :=
          (participantsStage cfg st).reaction_stoichiometric_coeff } := by
  rfl

/-- The value of each per-reaction vector produced by the tokenizing loop at
an in-range index. -/
theorem stage3_getD (cfg : Config) (strf : ℚ → Str) (NA : ℚ) (lines : List LineFields)
    (cl : Classified) (i : ℕ) (hi : i < lines.length) :
    (stage3 cfg strf NA lines cl).reaction.getD i [] =
      (lines.getD i default).reaction ∧
    (stage3 cfg strf NA lines cl).reactants.getD i [] =
      (splitEquation (lines.getD i default).reaction).reactants ∧
    (stage3 cfg strf NA lines cl).products.getD i [] =
      (splitEquation (lines.getD i default).reaction).products ∧
    (stage3 cfg strf NA lines cl).reversible_reaction.getD i false =
      (splitEquation (lines.getD i default).reaction).reversible ∧
    (stage3 cfg strf NA lines cl).num_products.getD i 0 =
      (splitEquation (lines.getD i default).reaction).products.length ∧
    (stage3 cfg strf NA lines cl).num_reactants.getD i 0 =
      (splitEquation (lines.getD i default).reaction).reactants.length ∧
    (stage3 cfg strf NA lines cl).rate_coefficient.getD i none =
      (if cl.rate_type.getD i [] = "Constant".data then
        (cl.rate_coefficient.getD i none).map (fun v => v * convFactor NA
          cfg.convert_to_meters
          (splitEquation (lines.getD i default).reaction).reactants.length)
      else cl.rate_coefficient.getD i none) ∧
    (stage3 cfg strf NA lines cl).rate_equation_string.getD i [] =
      (if cl.rate_type.getD i [] = "Equation".data then
        (lines.getD i default).rate_equation_string ++ "*".data ++
          strf (convFactor NA cfg.convert_to_meters
            (splitEquation (lines.getD i default).reaction).reactants.length)
      else (lines.getD i default).rate_equation_string) ∧
    (stage3 cfg strf NA lines cl).reaction_lumped.getD i false =
      (lumpedOccs cfg (splitEquation (lines.getD i default).reaction).reactants != 0) ∧
    (stage3 cfg strf NA lines cl).energy_change.getD i false =
      (lines.getD i default).energy_change ∧
    (stage3 cfg strf NA lines cl).species_count.getD i [] =
      speciesRow cfg.species (splitEquation (lines.getD i default).reaction).reactants
        (splitEquation (lines.getD i default).reaction).products := by
  refine ⟨?_, ?_, ?_, ?_, ?_, ?_, ?_, ?_, ?_, ?_, ?_⟩ <;>
    simp [stage3, List.getD_eq_getElem?_getD, List.getElem?_map, List.getElem?_range,
      List.getElem?_eq_getElem, hi]

theorem lumpedExpand_sup_len (cfg : Config) (st : RxnState)
    (h : st.superelastic_reaction.length ≤ st.num_reactions) :
    (lumpedExpand cfg st).superelastic_reaction.length ≤
      (lumpedExpand cfg st).num_reactions := by
  unfold lumpedExpand
  split
  · exact h
  · obtain ⟨_, _, _, _, _, _, _, _, _, _, _, e12⟩ :=
      lumpedFold_lengths cfg st st.num_reactions cfg.lumpedList.length
        (lumpedIdxs cfg st) (lumpedResize cfg st)
    obtain ⟨_, _, _, _, _, _, _, _, _, _, _, _, f13⟩ :=
      lumpedFold_untouched cfg st st.num_reactions cfg.lumpedList.length
        (lumpedIdxs cfg st) (lumpedResize cfg st)
    rw [e12, f13]
    show (resizeD st.superelastic_reaction
        (st.num_reactions + st.lumped_reaction.length * cfg.lumpedList.length)
        false).length ≤
      st.num_reactions + st.lumped_reaction.length * cfg.lumpedList.length
    refine le_of_eq (length_resizeD _ _ _ ?_)
    omega

theorem superLoop_append (species : List Str) (is1 is2 : List ℕ) (acc : SuperAcc) :
    superLoop species (is1 ++ is2) acc =
      superLoop species is2 (superLoop species is1 acc) := by
  unfold superLoop
  rw [List.foldl_append]

/-- The loop's `new_index` advances by one exactly at each reversible index;
the flags themselves are never modified by the loop. -/
theorem superLoop_new_index_eq (species : List Str) (is : List ℕ) (acc : SuperAcc) :
    (superLoop species is acc).new_index =
      acc.new_index +
        (is.filter (fun j => acc.st.reversible_reaction.getD j false)).length := by
  induction is generalizing acc with
  | nil => simp [superLoop]
  | cons j is ih =>
    have hloop : superLoop species (j :: is) acc =
        superLoop species is (superStep species j acc) := rfl
    rw [hloop, ih]
    have hflag : (superStep species j acc).st.reversible_reaction =
        acc.st.reversible_reaction := (superStep_untouched species j acc).2.2.1
    rw [hflag, superStep_new_index]
    by_cases hj : acc.st.reversible_reaction.getD j false = true
    · rw [if_pos hj]
      simp only [List.filter_cons, hj, if_true, List.length_cons]
      omega
    · rw [Bool.not_eq_true] at hj
      rw [if_neg (by rw [hj]; exact Bool.false_ne_true)]
      simp only [List.filter_cons, hj, Bool.false_eq_true, if_false]

/-- The superelastic loop never touches entries strictly above its final
`new_index`. -/
theorem superLoop_getD_gt (species : List Str) (is : List ℕ) (acc : SuperAcc) (k : ℕ)
    (hk : (superLoop species is acc).new_index < k) :
    (superLoop species is acc).st.superelastic_index.getD k 0 =
      acc.st.superelastic_index.getD k 0 ∧
    (superLoop species is acc).st.superelastic_reaction.getD k false =
      acc.st.superelastic_reaction.getD k false ∧
    (superLoop species is acc).st.threshold_energy.getD k 0 =
      acc.st.threshold_energy.getD k 0 ∧
    (superLoop species is acc).st.reactants.getD k [] = acc.st.reactants.getD k [] ∧
    (superLoop species is acc).st.products.getD k [] = acc.st.products.getD k [] := by
  induction is generalizing acc with
  | nil => exact ⟨rfl, rfl, rfl, rfl, rfl⟩
  | cons j is ih =>
    have hloop : superLoop species (j :: is) acc =
        superLoop species is (superStep species j acc) := rfl
    rw [hloop] at hk ⊢
    obtain ⟨a1, a2, a3, a4, a5⟩ := ih (superStep species j acc) hk
    by_cases hrev : acc.st.reversible_reaction.getD j false = true
    · obtain ⟨row, nr, hstep⟩ := superStep_shape_true species j acc hrev
      have h1 := superLoop_new_index_mono species is (superStep species j acc)
      rw [superStep_new_index, hrev, if_pos rfl] at h1
      have hne : acc.new_index + 1 ≠ k := by omega
      refine ⟨?_, ?_, ?_, ?_, ?_⟩
      · rw [a1, hstep]
        exact getD_set_ne _ _ _ _ _ hne
      · rw [a2, hstep]
        exact getD_set_ne _ _ _ _ _ hne
      · rw [a3, hstep]
        exact getD_set_ne _ _ _ _ _ hne
      · rw [a4, hstep]
        exact getD_set_ne _ _ _ _ _ hne
      · rw [a5, hstep]
        exact getD_set_ne _ _ _ _ _ hne
    · rw [Bool.not_eq_true] at hrev
      obtain ⟨row, hstep⟩ := superStep_shape_false species j acc hrev
      refine ⟨?_, ?_, ?_, ?_, ?_⟩
      · rw [a1, hstep]
      · rw [a2, hstep]
      · rw [a3, hstep]
      · rw [a4, hstep]
      · rw [a5, hstep]

theorem rank_le_take_sum {β : Type} (l : List β) (φ : β → Bool) (f : β → ℕ) (d : β)
    (h : ∀ x ∈ l, φ x = true → 1 ≤ f x) :
    ∀ n, n ≤ l.length →
      ((List.range n).filter (fun j => φ (l.getD j d))).length ≤
        ((l.take n).map f).sum := by
  intro n
  induction n with
  | zero => intro _; simp
  | succ n ih =>
    intro hn
    have hn' : n ≤ l.length := by omega
    have hlt : n < l.length := by omega
    have hmem : l.get ⟨n, hlt⟩ ∈ l := List.get_mem _ _ hlt
    have hgd : l.getD n d = l.get ⟨n, hlt⟩ := by
      rw [List.getD_eq_getElem?_getD, List.getElem?_eq_getElem hlt]
      rfl
    have htake : l.take (n + 1) = l.take n ++ [l.get ⟨n, hlt⟩] := by
      rw [List.take_succ]
      congr
      rw [List.getElem?_eq_getElem hlt]
      rfl
    rw [List.range_succ, List.filter_append, List.length_append, htake,
      List.map_append, List.sum_append]
    have hsingle : (List.filter (fun j => φ (l.getD j d)) [n]).length ≤
        (List.map f [l.get ⟨n, hlt⟩]).sum := by
      by_cases hφ : φ (l.getD n d) = true
      · have h1 : 1 ≤ f (l.get ⟨n, hlt⟩) := h _ hmem (by rw [← hgd]; exact hφ)
        simp only [List.filter_cons, List.filter_nil, hφ, if_true, List.length_cons,
          List.length_nil, List.map_cons, List.map_nil, List.sum_cons, List.sum_nil]
        omega
      · rw [Bool.not_eq_true] at hφ
        simp only [List.filter_cons, List.filter_nil, hφ, Bool.false_eq_true, if_false,
          List.length_nil]
        exact Nat.zero_le _
    exact Nat.add_le_add (ih hn') hsingle

/-- Among the first `i` entries, fewer flags are set than the whole sum of a
per-entry weight that is positive wherever the flag is set and also at `i`. -/
theorem rank_lt_sum {β : Type} (l : List β) (φ : β → Bool) (f : β → ℕ) (d : β)
    (h : ∀ x ∈ l, φ x = true → 1 ≤ f x) (i : ℕ) (hi : i < l.length)
    (hφ : φ (l.getD i d) = true) :
    ((List.range i).filter (fun j => φ (l.getD j d))).length < (l.map f).sum := by
  have h1 := rank_le_take_sum l φ f d h (i + 1) hi
  rw [List.range_succ, List.filter_append, List.length_append] at h1
  have h2 : List.filter (fun j => φ (l.getD j d)) [i] = [i] := by
    simp only [List.filter_cons, List.filter_nil, hφ, if_true]
  rw [h2] at h1
  have h3 : ((l.take (i + 1)).map f).sum ≤ (l.map f).sum := by
    conv_rhs => rw [← List.take_append_drop (i + 1) l]
    rw [List.map_append, List.sum_append]
    exact Nat.le_add_right _ _
  have h4 := le_trans h1 h3
  simp only [List.length_cons, List.length_nil] at h4
  omega

/-- Any equation whose split marks it reversible also bumped the pending
superelastic counter at least once. -/
theorem eqSplit_super_pos (toks : List Str) (st : EqSides × Bool)
    (h0 : st.1.reversible = true → 1 ≤ st.1.super_incr) :
    (toks.foldl eqSplitStep st).1.reversible = true →
      1 ≤ (toks.foldl eqSplitStep st).1.super_incr := by
  induction toks generalizing st with
  | nil => exact h0
  | cons t ts ih =>
    rw [List.foldl_cons]
    refine ih _ ?_
    unfold eqSplitStep
    split
    · exact h0
    · split
      · intro hh
        simp at hh
      · split
        · intro _
          show 1 ≤ st.1.super_incr + 1
          exact Nat.le_add_left 1 _
        · split
          · exact h0
          · exact h0

theorem splitEquation_super_pos (s : Str) :
    (splitEquation s).reversible = true → 1 ≤ (splitEquation s).super_incr := by
  unfold splitEquation
  refine eqSplit_super_pos _ _ ?_
  intro hh
  simp at hh

set_option maxHeartbeats 400000 in
/-- On a state entering the superelastic pass with still-empty
`_superelastic_index`/`_superelastic_reaction` and per-reaction vectors of
length `num_reactions`, every reversible reaction `i` produces one appended
row at slot `num_reactions + (number of reversible reactions before i)`:
back-reference `i`, superelastic flag set, threshold negated, reactant list
the original products (through the stored product count), product list the
original reactants. -/
theorem superelasticExpand_rev_row (cfg : Config) (st0 : RxnState) (i : ℕ)
    (hi : i < st0.num_reactions)
    (hrev : st0.reversible_reaction.getD i false = true)
    (hcnt : ((List.range i).filter
        (fun j => st0.reversible_reaction.getD j false)).length <
      st0.superelastic_count)
    (hre : st0.reactants.length = st0.num_reactions)
    (hpr : st0.products.length = st0.num_reactions)
    (hthn : st0.threshold_energy.length = st0.num_reactions)
    (hsi : st0.superelastic_index = [])
    (hsr : st0.superelastic_reaction = []) :
    (superelasticExpand cfg st0).superelastic_index.getD
      (st0.num_reactions + ((List.range i).filter
        (fun j => st0.reversible_reaction.getD j false)).length) 0 = i ∧
    (superelasticExpand cfg st0).superelastic_reaction.getD
      (st0.num_reactions + ((List.range i).filter
        (fun j => st0.reversible_reaction.getD j false)).length) false = true ∧
    (superelasticExpand cfg st0).threshold_energy.getD
      (st0.num_reactions + ((List.range i).filter
        (fun j => st0.reversible_reaction.getD j false)).length) 0 =
      -(st0.threshold_energy.getD i 0) ∧
    (superelasticExpand cfg st0).reactants.getD
      (st0.num_reactions + ((List.range i).filter
        (fun j => st0.reversible_reaction.getD j false)).length) [] =
      (st0.products.getD i []).take (st0.num_products.getD i 0) ∧
    (superelasticExpand cfg st0).products.getD
      (st0.num_reactions + ((List.range i).filter
        (fun j => st0.reversible_reaction.getD j false)).length) [] =
      st0.reactants.getD i [] := by
  set r := ((List.range i).filter
      (fun j => st0.reversible_reaction.getD j false)).length with hr
  have hs0 : 0 < st0.superelastic_count := lt_of_le_of_lt (Nat.zero_le _) hcnt
  have hn1 : 0 < st0.num_reactions := lt_of_le_of_lt (Nat.zero_le i) hi
  set acc0 : SuperAcc :=
    ⟨superResize cfg st0, st0.num_reactions - 1, []⟩ with hacc0
  have hx : superelasticExpand cfg st0 =
      { (superLoop cfg.species (List.range st0.num_reactions) acc0).st with
        num_reactions := st0.num_reactions + st0.superelastic_count } := by
    rw [hacc0]
    simp only [superelasticExpand]
    rw [if_pos hs0]
  set A := superLoop cfg.species (List.range i) acc0 with hA
  set B := superStep cfg.species i A with hB
  have hrev0 : acc0.st.reversible_reaction = st0.reversible_reaction := rfl
  have hniA : A.new_index = st0.num_reactions - 1 + r := by
    rw [hA, superLoop_new_index_eq, hrev0, hr]
  have hkni : A.new_index + 1 = st0.num_reactions + r := by omega
  have hsplit : List.range st0.num_reactions =
      List.range i ++ i :: List.range' (i + 1) (st0.num_reactions - i - 1) := by
    have h1 : i :: List.range' (i + 1) (st0.num_reactions - i - 1) =
        List.range' i (st0.num_reactions - i - 1 + 1) := by
      rw [List.range'_succ]
    have h2 : st0.num_reactions - i - 1 + 1 = st0.num_reactions - i := by omega
    rw [h1, h2, List.range_eq_range' st0.num_reactions, List.range_eq_range' i]
    have h3 := List.range'_append_1 0 i (st0.num_reactions - i)
    rw [Nat.zero_add] at h3
    rw [h3]
    congr 1
    omega
  have hdec : superLoop cfg.species (List.range st0.num_reactions) acc0 =
      superLoop cfg.species (List.range' (i + 1) (st0.num_reactions - i - 1)) B := by
    rw [hB, hA, hsplit, superLoop_append]
    rfl
  have hlen := superLoop_lengths cfg.species (List.range i) acc0
  have hLsi : A.st.superelastic_index.length =
      st0.num_reactions + st0.superelastic_count := by
    rw [hA, hlen.1]
    show (resizeD st0.superelastic_index
        (st0.num_reactions + st0.superelastic_count) 0).length = _
    exact length_resizeD _ _ _ (by rw [hsi]; exact Nat.zero_le _)
  have hLsr : A.st.superelastic_reaction.length =
      st0.num_reactions + st0.superelastic_count := by
    rw [hA, hlen.2.1]
    show (resizeD st0.superelastic_reaction
        (st0.num_reactions + st0.superelastic_count) false).length = _
    exact length_resizeD _ _ _ (by rw [hsr]; exact Nat.zero_le _)
  have hLth : A.st.threshold_energy.length =
      st0.num_reactions + st0.superelastic_count := by
    rw [hA, hlen.2.2.2.1]
    show (resizeD st0.threshold_energy
        (st0.num_reactions + st0.superelastic_count) 0).length = _
    exact length_resizeD _ _ _ (by rw [hthn]; exact Nat.le_add_right _ _)
  have hLre : A.st.reactants.length =
      st0.num_reactions + st0.superelastic_count := by
    rw [hA, hlen.2.2.2.2.2.2.2.2.1]
    show (resizeD st0.reactants
        (st0.reactants.length + st0.superelastic_count) []).length = _
    rw [length_resizeD _ _ _ (Nat.le_add_right _ _), hre]
  have hLpr : A.st.products.length =
      st0.num_reactions + st0.superelastic_count := by
    rw [hA, hlen.2.2.2.2.2.2.2.2.2.1]
    show (resizeD st0.products
        (st0.products.length + st0.superelastic_count) []).length = _
    rw [length_resizeD _ _ _ (Nat.le_add_right _ _), hpr]
  have hpre := superLoop_getD_le cfg.species (List.range i) acc0 i (by
    show i ≤ st0.num_reactions - 1
    omega)
  have hthA : A.st.threshold_energy.getD i 0 = st0.threshold_energy.getD i 0 := by
    rw [hA, hpre.2.2.2.1]
    show (resizeD st0.threshold_energy
        (st0.num_reactions + st0.superelastic_count) 0).getD i 0 = _
    exact getD_resizeD_lt _ _ _ _ _ (by rw [hthn]; exact hi)
      (by rw [hthn]; exact Nat.le_add_right _ _)
  have hreAi : A.st.reactants.getD i [] = st0.reactants.getD i [] := by
    rw [hA, hpre.2.2.2.2.2.2.2.2.1]
    show (resizeD st0.reactants
        (st0.reactants.length + st0.superelastic_count) []).getD i [] = _
    exact getD_resizeD_lt _ _ _ _ _ (by rw [hre]; exact hi) (Nat.le_add_right _ _)
  have hprAi : A.st.products.getD i [] = st0.products.getD i [] := by
    rw [hA, hpre.2.2.2.2.2.2.2.2.2.1]
    show (resizeD st0.products
        (st0.products.length + st0.superelastic_count) []).getD i [] = _
    exact getD_resizeD_lt _ _ _ _ _ (by rw [hpr]; exact hi) (Nat.le_add_right _ _)
  have hrevA : A.st.reversible_reaction = st0.reversible_reaction := by
    rw [hA, (superLoop_untouched cfg.species (List.range i) acc0).2.2.1]
    exact rfl
  have hnpA : A.st.num_products = st0.num_products := by
    rw [hA, (superLoop_untouched cfg.species (List.range i) acc0).2.2.2.2.1]
    exact rfl
  have hrevAi : A.st.reversible_reaction.getD i false = true := by
    rw [hrevA]
    exact hrev
  have hgt := superLoop_getD_gt cfg.species (List.range i) acc0 (A.new_index + 1) (by
    rw [← hA]
    exact Nat.lt_succ_self _)
  rw [← hA] at hgt
  have hreNi : A.st.reactants.getD (A.new_index + 1) [] = [] := by
    rw [hgt.2.2.2.1]
    show (resizeD st0.reactants
        (st0.reactants.length + st0.superelastic_count) []).getD
      (A.new_index + 1) [] = []
    exact getD_resizeD_pad _ _ _ _ _ (by omega) (by omega)
  have hprNi : A.st.products.getD (A.new_index + 1) [] = [] := by
    rw [hgt.2.2.2.2]
    show (resizeD st0.products
        (st0.products.length + st0.superelastic_count) []).getD
      (A.new_index + 1) [] = []
    exact getD_resizeD_pad _ _ _ _ _ (by omega) (by omega)
  obtain ⟨row, nr, hstep⟩ := superStep_shape_true cfg.species i A hrevAi
  rw [← hB] at hstep
  have hniB : B.new_index = A.new_index + 1 := by rw [hstep]
  have hb1 : B.st.superelastic_index.getD (A.new_index + 1) 0 = i := by
    rw [hstep]
    exact getD_set_self _ _ _ _ (by rw [hLsi]; omega)
  have hb2 : B.st.superelastic_reaction.getD (A.new_index + 1) false = true := by
    rw [hstep]
    exact getD_set_self _ _ _ _ (by rw [hLsr]; omega)
  have hb3 : B.st.threshold_energy.getD (A.new_index + 1) 0 =
      -(st0.threshold_energy.getD i 0) := by
    rw [hstep, ← hthA]
    exact getD_set_self _ _ _ _ (by rw [hLth]; omega)
  have hb4 : B.st.reactants.getD (A.new_index + 1) [] =
      (st0.products.getD i []).take (st0.num_products.getD i 0) := by
    rw [hstep]
    refine (getD_set_self _ _ _ _ (by rw [hLre]; omega)).trans ?_
    rw [hreNi, hprAi, hnpA]
    exact List.nil_append _
  have hb5 : B.st.products.getD (A.new_index + 1) [] = st0.reactants.getD i [] := by
    rw [hstep]
    refine (getD_set_self _ _ _ _ (by rw [hLpr]; omega)).trans ?_
    rw [hprNi, hreAi]
    exact List.nil_append _
  have hsuf := superLoop_getD_le cfg.species
    (List.range' (i + 1) (st0.num_reactions - i - 1)) B (A.new_index + 1)
    (le_of_eq hniB.symm)
  rw [hx, hdec, ← hkni]
  refine ⟨?_, ?_, ?_, ?_, ?_⟩
  · show (superLoop cfg.species (List.range' (i + 1) (st0.num_reactions - i - 1))
        B).st.superelastic_index.getD (A.new_index + 1) 0 = i
    rw [hsuf.1]
    exact hb1
  · show (superLoop cfg.species (List.range' (i + 1) (st0.num_reactions - i - 1))
        B).st.superelastic_reaction.getD (A.new_index + 1) false = true
    rw [hsuf.2.1]
    exact hb2
  · show (superLoop cfg.species (List.range' (i + 1) (st0.num_reactions - i - 1))
        B).st.threshold_energy.getD (A.new_index + 1) 0 =
      -(st0.threshold_energy.getD i 0)
    rw [hsuf.2.2.2.1]
    exact hb3
  · show (superLoop cfg.species (List.range' (i + 1) (st0.num_reactions - i - 1))
        B).st.reactants.getD (A.new_index + 1) [] =
      (st0.products.getD i []).take (st0.num_products.getD i 0)
    rw [hsuf.2.2.2.2.2.2.2.2.1]
    exact hb4
  · show (superLoop cfg.species (List.range' (i + 1) (st0.num_reactions - i - 1))
        B).st.products.getD (A.new_index + 1) [] = st0.reactants.getD i []
    rw [hsuf.2.2.2.2.2.2.2.2.2.1]
    exact hb5

set_option maxHeartbeats 400000 in
/-- Master field lemma: on a successful construction, every member of the
final state at an originally-parsed index equals the value the tokenizing
loop computed for that line (the two expansion passes only write at higher
slots, except for the stray species-count rewrite, which needs one slot of
clearance below the pre-superelastic count). -/
theorem build_ok_fields (cfg : Config) (stod : Str → Option ℚ) (stringify : ℚ → Str)
    (fexists : Str → Bool) (input : List Str) (st : RxnState)
    (hok : build cfg stod stringify fexists input = .ok st) :
    ∃ cl, classifyAux stod (nmOf cfg) 0 ((prepLines input).map parseLine) = .ok cl ∧
      (st.num_reactants.length = ((prepLines input).map parseLine).length ∧
       st.superelastic_count =
         (((prepLines input).map parseLine).map
           (fun lf => (splitEquation lf.reaction).super_incr)).sum ∧
       st.lumped_reaction =
         (stage3 cfg stringify (naOf cfg) ((prepLines input).map parseLine) cl).lumped_reaction ∧
       st.num_reactions =
         (lumpedExpand cfg
           (stage3 cfg stringify (naOf cfg) ((prepLines input).map parseLine) cl)).num_reactions +
           st.superelastic_count) ∧
      ∀ i, i < ((prepLines input).map parseLine).length →
        st.reaction.getD i [] =
          (((prepLines input).map parseLine).getD i default).reaction ∧
        st.reactants.getD i [] =
          (splitEquation (((prepLines input).map parseLine).getD i default).reaction).reactants ∧
        st.products.getD i [] =
          (splitEquation (((prepLines input).map parseLine).getD i default).reaction).products ∧
        st.reversible_reaction.getD i false =
          (splitEquation (((prepLines input).map parseLine).getD i default).reaction).reversible ∧
        st.num_products.getD i 0 =
          (splitEquation (((prepLines input).map parseLine).getD i default).reaction).products.length ∧
        st.rate_type.getD i [] = cl.rate_type.getD i [] ∧
        st.rate_coefficient.getD i none =
          (if cl.rate_type.getD i [] = "Constant".data then
            (cl.rate_coefficient.getD i none).map (fun v => v * convFactor (naOf cfg)
              cfg.convert_to_meters
              (splitEquation (((prepLines input).map parseLine).getD i default).reaction).reactants.length)
          else cl.rate_coefficient.getD i none) ∧
        st.rate_equation_string.getD i [] =
          (if cl.rate_type.getD i [] = "Equation".data then
            (((prepLines input).map parseLine).getD i default).rate_equation_string ++
              "*".data ++ stringify (convFactor (naOf cfg) cfg.convert_to_meters
                (splitEquation (((prepLines input).map parseLine).getD i default).reaction).reactants.length)
          else (((prepLines input).map parseLine).getD i default).rate_equation_string) ∧
        st.reaction_coefficient_name.getD i [] = cl.reaction_coefficient_name.getD i [] ∧
        st.aux_var_name.getD i [] = cl.aux_var_name.getD i [] ∧
        st.reaction_lumped.getD i false =
          (lumpedOccs cfg
            (splitEquation (((prepLines input).map parseLine).getD i default).reaction).reactants != 0) ∧
        st.threshold_energy.getD i 0 = cl.threshold_energy.getD i 0 ∧
        st.energy_change.getD i false =
          (((prepLines input).map parseLine).getD i default).energy_change ∧
        st.superelastic_index.getD i 0 = 0 ∧
        st.superelastic_reaction.getD i false = false ∧
        (i + 1 < st.num_reactions - st.superelastic_count →
          st.species_count.getD i [] = speciesRow cfg.species
            (splitEquation (((prepLines input).map parseLine).getD i default).reaction).reactants
            (splitEquation (((prepLines input).map parseLine).getD i default).reaction).products) := by
  obtain ⟨cl, hcl, hst⟩ := build_ok_inv cfg stod stringify fexists input st hok
  refine ⟨cl, hcl, ?_⟩
  obtain ⟨L1, L2, L3, L4, L5, L6, _⟩ :=
    classifyAux_ok_spec stod (nmOf cfg) 0 ((prepLines input).map parseLine) cl hcl
  obtain ⟨s1, s2, s3, s4, s5, s6, s7, s8, s9, s10, s11, s12, s13, s14⟩ :=
    stage3_lengths cfg stringify (naOf cfg) ((prepLines input).map parseLine) cl
  set lines := (prepLines input).map parseLine with hL
  set st3 := stage3 cfg stringify (naOf cfg) lines cl with hS3
  clear_value lines st3
  obtain ⟨lu1, lu2, lu3, lu4, lu5, lu6, lu7, lu8, lu9, lu10, lu11, lu12⟩ :=
    lumpedExpand_untouched cfg st3
  obtain ⟨su1, su2, su3, su4, su5, su6, su7, su8, su9, su10, su11, su12, su13⟩ :=
    superelasticExpand_untouched cfg (lumpedExpand cfg st3)
  have t3 : st3.rate_type.length = st3.num_reactions := by
    rw [s12, hS3]
    exact L4
  have t5 : st3.reaction_coefficient_name.length = st3.num_reactions := by
    rw [s12, hS3]
    exact L6
  have t6 : st3.aux_var_name.length = st3.num_reactions := by
    rw [s12, hS3]
    exact L5
  have tth : st3.threshold_energy.length = lines.length := by
    rw [hS3]
    exact L1
  obtain ⟨m1, m2, m3, m4, m5, m6, m7, m8, m9, m10, m11⟩ :=
    lumpedExpand_lengths cfg st3 (by rw [s1, s12]) (by rw [s7, s12]) t3
      (by rw [s8, s12]) t5 t6 (by rw [s4, s12]) (by rw [s9, s12]) (by rw [s10, s12])
      (by rw [s2, s12]) (by rw [s3, s12])
  have hn4 := lumpedExpand_num_reactions cfg st3
  have hsupl : (lumpedExpand cfg st3).superelastic_reaction.length ≤
      (lumpedExpand cfg st3).num_reactions := by
    refine lumpedExpand_sup_len cfg st3 ?_
    rw [s14]
    simp
  refine ⟨⟨?_, ?_, ?_, ?_⟩, ?_⟩
  · have e : st.num_reactants = st3.num_reactants := by
      rw [hst]
      show (superelasticExpand cfg (lumpedExpand cfg st3)).num_reactants =
        st3.num_reactants
      rw [su4, lu4]
    rw [e, s5]
  · have e : st.superelastic_count = st3.superelastic_count := by
      rw [hst]
      show (superelasticExpand cfg (lumpedExpand cfg st3)).superelastic_count =
        st3.superelastic_count
      rw [su11, lu11]
    rw [e, hS3]
    show ((lines.map (fun lf => splitEquation lf.reaction)).map
      (fun s => s.super_incr)).sum = _
    simp only [List.map_map]
    rfl
  · rw [hst]
    show (superelasticExpand cfg (lumpedExpand cfg st3)).lumped_reaction =
      st3.lumped_reaction
    rw [su8, lu8]
  · have e1 : st.num_reactions = (lumpedExpand cfg st3).num_reactions +
        (lumpedExpand cfg st3).superelastic_count := by
      rw [hst]
      show (superelasticExpand cfg (lumpedExpand cfg st3)).num_reactions = _
      exact su13
    have e2 : st.superelastic_count = (lumpedExpand cfg st3).superelastic_count := by
      rw [hst]
      show (superelasticExpand cfg (lumpedExpand cfg st3)).superelastic_count = _
      exact su11
    rw [e1, e2]
  · intro i hi
    have hi3 : i < st3.num_reactions := by
      rw [s12]
      exact hi
    have hi4 : i < (lumpedExpand cfg st3).num_reactions := by
      rw [hn4]
      exact Nat.lt_of_lt_of_le hi3 (Nat.le_add_right _ _)
    obtain ⟨g1, g2, g3, g4, g5, g6, g7, g8, g9, g10, g11, g12⟩ :=
      lumpedExpand_getD_lt cfg st3 i hi3 (by rw [s1, s12]) (by rw [s7, s12]) t3
        (by rw [s8, s12]) t5 t6 (by rw [s4, s12]) (by rw [s9, s12]) (by rw [s10, s12])
        (by rw [s2, s12]) (by rw [s3, s12]) (by rw [s14]; simp)
    obtain ⟨p1, p2, p3, p4, p5, p6, p7, p8, p9, p10, p11, p12⟩ :=
      superelasticExpand_getD cfg (lumpedExpand cfg st3) i hi4
    obtain ⟨q1, q2, q3, q4, q5, q6, q7, q8, q9, q10, q11⟩ :=
      stage3_getD cfg stringify (naOf cfg) lines cl i hi
    have fRe : st.reaction = (superelasticExpand cfg (lumpedExpand cfg st3)).reaction := by
      rw [hst]
      rfl
    have fRa : st.reactants =
        (superelasticExpand cfg (lumpedExpand cfg st3)).reactants := by
      rw [hst]
      rfl
    have fPr : st.products =
        (superelasticExpand cfg (lumpedExpand cfg st3)).products := by
      rw [hst]
      rfl
    have fRv : st.reversible_reaction =
        (superelasticExpand cfg (lumpedExpand cfg st3)).reversible_reaction := by
      rw [hst]
      rfl
    have fNP : st.num_products =
        (superelasticExpand cfg (lumpedExpand cfg st3)).num_products := by
      rw [hst]
      rfl
    have fRT : st.rate_type =
        (superelasticExpand cfg (lumpedExpand cfg st3)).rate_type := by
      rw [hst]
      rfl
    have fRC : st.rate_coefficient =
        (superelasticExpand cfg (lumpedExpand cfg st3)).rate_coefficient := by
      rw [hst]
      rfl
    have fRS : st.rate_equation_string =
        (superelasticExpand cfg (lumpedExpand cfg st3)).rate_equation_string := by
      rw [hst]
      rfl
    have fCN : st.reaction_coefficient_name =
        (superelasticExpand cfg (lumpedExpand cfg st3)).reaction_coefficient_name := by
      rw [hst]
      rfl
    have fAV : st.aux_var_name =
        (superelasticExpand cfg (lumpedExpand cfg st3)).aux_var_name := by
      rw [hst]
      rfl
    have fRL : st.reaction_lumped =
        (superelasticExpand cfg (lumpedExpand cfg st3)).reaction_lumped := by
      rw [hst]
      rfl
    have fTH : st.threshold_energy =
        (superelasticExpand cfg (lumpedExpand cfg st3)).threshold_energy := by
      rw [hst]
      rfl
    have fEC : st.energy_change =
        (superelasticExpand cfg (lumpedExpand cfg st3)).energy_change := by
      rw [hst]
      rfl
    have fSI : st.superelastic_index =
        (superelasticExpand cfg (lumpedExpand cfg st3)).superelastic_index := by
      rw [hst]
      rfl
    have fSR : st.superelastic_reaction =
        (superelasticExpand cfg (lumpedExpand cfg st3)).superelastic_reaction := by
      rw [hst]
      rfl
    have fSC : st.species_count =
        (superelasticExpand cfg (lumpedExpand cfg st3)).species_count := by
      rw [hst]
      rfl
    refine ⟨?_, ?_, ?_, ?_, ?_, ?_, ?_, ?_, ?_, ?_, ?_, ?_, ?_, ?_, ?_, ?_⟩
    · rw [fRe]
      have hlen : i < (superResize cfg (lumpedExpand cfg st3)).reaction.length := by
        show i < (lumpedExpand cfg st3).reaction.length
        rw [m1]
        exact hi4
      rw [p12 hlen,
        show (superResize cfg (lumpedExpand cfg st3)).reaction =
          (lumpedExpand cfg st3).reaction from rfl, g1, hS3]
      exact q1
    · rw [fRa, p9,
        show (superResize cfg (lumpedExpand cfg st3)).reactants =
          resizeD (lumpedExpand cfg st3).reactants
            ((lumpedExpand cfg st3).reactants.length +
              (lumpedExpand cfg st3).superelastic_count) [] from rfl,
        getD_resizeD_lt (lumpedExpand cfg st3).reactants
          ((lumpedExpand cfg st3).reactants.length +
            (lumpedExpand cfg st3).superelastic_count) i [] []
          (by rw [m10]; exact hi4) (Nat.le_add_right _ _),
        g10, hS3]
      exact q2
    · rw [fPr, p10,
        show (superResize cfg (lumpedExpand cfg st3)).products =
          resizeD (lumpedExpand cfg st3).products
            ((lumpedExpand cfg st3).products.length +
              (lumpedExpand cfg st3).superelastic_count) [] from rfl,
        getD_resizeD_lt (lumpedExpand cfg st3).products
          ((lumpedExpand cfg st3).products.length +
            (lumpedExpand cfg st3).superelastic_count) i [] []
          (by rw [m11]; exact hi4) (Nat.le_add_right _ _),
        g11, hS3]
      exact q3
    · rw [fRv, su3, g7, hS3]
      exact q4
    · rw [fNP, su5, lu5, hS3]
      exact q5
    · rw [fRT, su1, g3, hS3]
      try rfl
    · rw [fRC, p3,
        show (superResize cfg (lumpedExpand cfg st3)).rate_coefficient =
          resizeD (lumpedExpand cfg st3).rate_coefficient
            ((lumpedExpand cfg st3).num_reactions +
              (lumpedExpand cfg st3).superelastic_count) (some 0) from rfl,
        getD_resizeD_lt (lumpedExpand cfg st3).rate_coefficient
          ((lumpedExpand cfg st3).num_reactions +
            (lumpedExpand cfg st3).superelastic_count) i (some 0) none
          (by rw [m2]; exact hi4) (by rw [m2]; exact Nat.le_add_right _ _), g2, hS3]
      exact q7
    · rw [fRS, su2, g4, hS3]
      exact q8
    · rw [fCN, p6,
        show (superResize cfg (lumpedExpand cfg st3)).reaction_coefficient_name =
          resizeD (lumpedExpand cfg st3).reaction_coefficient_name
            ((lumpedExpand cfg st3).num_reactions +
              (lumpedExpand cfg st3).superelastic_count) [] from rfl,
        getD_resizeD_lt (lumpedExpand cfg st3).reaction_coefficient_name
          ((lumpedExpand cfg st3).num_reactions +
            (lumpedExpand cfg st3).superelastic_count) i [] []
          (by rw [m5]; exact hi4) (by rw [m5]; exact Nat.le_add_right _ _),
        g5, hS3]
      try rfl
    · rw [fAV, p5,
        show (superResize cfg (lumpedExpand cfg st3)).aux_var_name =
          resizeD (lumpedExpand cfg st3).aux_var_name
            ((lumpedExpand cfg st3).num_reactions +
              (lumpedExpand cfg st3).superelastic_count) [] from rfl,
        getD_resizeD_lt (lumpedExpand cfg st3).aux_var_name
          ((lumpedExpand cfg st3).num_reactions +
            (lumpedExpand cfg st3).superelastic_count) i [] []
          (by rw [m6]; exact hi4) (by rw [m6]; exact Nat.le_add_right _ _),
        g6, hS3]
      try rfl
    · rw [fRL, su9, g8, hS3]
      exact q9
    · have hthl : (lumpedExpand cfg st3).threshold_energy.length = lines.length := by
        rw [lu1]
        exact tth
      rw [fTH, p4,
        show (superResize cfg (lumpedExpand cfg st3)).threshold_energy =
          resizeD (lumpedExpand cfg st3).threshold_energy
            ((lumpedExpand cfg st3).num_reactions +
              (lumpedExpand cfg st3).superelastic_count) 0 from rfl,
        getD_resizeD_lt (lumpedExpand cfg st3).threshold_energy
          ((lumpedExpand cfg st3).num_reactions +
            (lumpedExpand cfg st3).superelastic_count) i 0 0
          (by rw [hthl]; exact hi)
          (by rw [hthl, ← s12]
              exact le_trans (by rw [hn4]; exact Nat.le_add_right _ _)
                (Nat.le_add_right _ _)),
        lu1, hS3]
      try rfl
    · have hecl : (lumpedExpand cfg st3).energy_change.length = lines.length := by
        rw [lu2]
        exact s11
      rw [fEC, p8,
        show (superResize cfg (lumpedExpand cfg st3)).energy_change =
          resizeD (lumpedExpand cfg st3).energy_change
            ((lumpedExpand cfg st3).num_reactions +
              (lumpedExpand cfg st3).superelastic_count) false from rfl,
        getD_resizeD_lt (lumpedExpand cfg st3).energy_change
          ((lumpedExpand cfg st3).num_reactions +
            (lumpedExpand cfg st3).superelastic_count) i false false
          (by rw [hecl]; exact hi)
          (by rw [hecl, ← s12]
              exact le_trans (by rw [hn4]; exact Nat.le_add_right _ _)
                (Nat.le_add_right _ _)), lu2, hS3]
      exact q10
    · have hemp : (lumpedExpand cfg st3).superelastic_index = [] := by
        rw [lu10]
        exact s13
      rw [fSI, p1,
        show (superResize cfg (lumpedExpand cfg st3)).superelastic_index =
          resizeD (lumpedExpand cfg st3).superelastic_index
            ((lumpedExpand cfg st3).num_reactions +
              (lumpedExpand cfg st3).superelastic_count) 0 from rfl,
        hemp, getD_resizeD_pad ([] : List ℕ)
          ((lumpedExpand cfg st3).num_reactions +
            (lumpedExpand cfg st3).superelastic_count) i 0 0 (Nat.zero_le i)
          (Nat.lt_of_lt_of_le hi4 (Nat.le_add_right _ _))]
    · rw [fSR, p2,
        show (superResize cfg (lumpedExpand cfg st3)).superelastic_reaction =
          resizeD (lumpedExpand cfg st3).superelastic_reaction
            ((lumpedExpand cfg st3).num_reactions +
              (lumpedExpand cfg st3).superelastic_count) false from rfl]
      by_cases hc : i < (lumpedExpand cfg st3).superelastic_reaction.length
      · rw [getD_resizeD_lt (lumpedExpand cfg st3).superelastic_reaction
            ((lumpedExpand cfg st3).num_reactions +
              (lumpedExpand cfg st3).superelastic_count) i false false hc
            (le_trans hsupl (Nat.le_add_right _ _)),
          g12, s14]
        simp [List.getD_eq_getElem?_getD]
      · rw [getD_resizeD_pad (lumpedExpand cfg st3).superelastic_reaction
            ((lumpedExpand cfg st3).num_reactions +
              (lumpedExpand cfg st3).superelastic_count) i false false
            (Nat.le_of_not_lt hc) (Nat.lt_of_lt_of_le hi4 (Nat.le_add_right _ _))]
    · intro hsc
      have e1 : st.num_reactions = (lumpedExpand cfg st3).num_reactions +
          (lumpedExpand cfg st3).superelastic_count := by
        rw [hst]
        show (superelasticExpand cfg (lumpedExpand cfg st3)).num_reactions = _
        exact su13
      have e2 : st.superelastic_count = (lumpedExpand cfg st3).superelastic_count := by
        rw [hst]
        show (superelasticExpand cfg (lumpedExpand cfg st3)).superelastic_count = _
        exact su11
      have hi1 : i + 1 < (lumpedExpand cfg st3).num_reactions := by
        rw [e1, e2, Nat.add_sub_cancel] at hsc
        exact hsc
      rw [fSC, p11 hi1,
        show (superResize cfg (lumpedExpand cfg st3)).species_count =
          resizeD (lumpedExpand cfg st3).species_count
            ((lumpedExpand cfg st3).num_reactions +
              (lumpedExpand cfg st3).superelastic_count)
            (List.replicate cfg.species.length (0 : ℚ)) from rfl,
        getD_resizeD_lt (lumpedExpand cfg st3).species_count
          ((lumpedExpand cfg st3).num_reactions +
            (lumpedExpand cfg st3).superelastic_count) i
          (List.replicate cfg.species.length (0 : ℚ)) []
          (by rw [m9]; exact hi4) (by rw [m9]; exact Nat.le_add_right _ _),
        g9, hS3]
      exact q11

/-! ## C8: the rate-coefficient field of a line -/

/-- C8 — For every input line containing a colon, if a `(` appears at an
earlier position than the `[` (taking an absent character's position to be
`npos`, as `std::string::find` does), the rate-coefficient field captured by
the tokenizer is the text between the `:` and the `(`; otherwise it is the
text between the `:` and the `[`, or the text to the end of the line when no
`[` exists (the stored field is the capture with surrounding whitespace
trimmed, which is applied to both sides here). -/
theorem c8_rate_coefficient_field (token : Str) (hlen : token.length < npos)
    (hp : findC token ':' ≠ npos)
    (hpg : findC token '(' ≠ npos → findC token ':' < findC token '(')
    (hpb : findC token '[' ≠ npos → findC token ':' < findC token '[') :
    (parseLine token).rate_coeff_string =
      if findC token '(' < findC token '[' then
        trimStr (textBetween token (findC token ':') (findC token '('))
      else if findC token '[' ≠ npos then
        trimStr (textBetween token (findC token ':') (findC token '['))
      else trimStr (token.drop (findC token ':' + 1)) := by
  have hple : token.length ≤ npos := le_of_lt hlen
  have hpl : findC token ':' < token.length := findC_lt_length token ':' hple hp
  have hp1 : (findC token ':' + 1) % 2 ^ 64 = findC token ':' + 1 := by
    have h2 : findC token ':' + 1 < 2 ^ 64 := by
      have h3 := hlen
      unfold npos at h3
      omega
    exact Nat.mod_eq_of_lt h2
  simp only [parseLine, hp1]
  by_cases hgb : findC token '(' < findC token '['
  · rw [if_pos hgb, if_pos hgb]
    have hg : findC token '(' ≠ npos := by
      have hb := findC_le_npos token '[' hple
      omega
    have hpg' := hpg hg
    have hgl : findC token '(' < token.length := findC_lt_length token '(' hple hg
    have hs : sub64 (findC token '(') (findC token ':' + 1) =
        findC token '(' - (findC token ':' + 1) := by
      apply sub64_eq_of_le _ _ (by omega)
      unfold npos at hlen
      omega
    rw [hs]
    unfold substrC textBetween
    rw [List.drop_take]
  · rw [if_neg hgb, if_neg hgb]
    by_cases hb : findC token '[' ≠ npos
    · rw [if_pos hb]
      have hpb' := hpb hb
      have hbl : findC token '[' < token.length := findC_lt_length token '[' hple hb
      have hs : sub64 (findC token '[') (findC token ':' + 1) =
          findC token '[' - (findC token ':' + 1) := by
        apply sub64_eq_of_le _ _ (by omega)
        unfold npos at hlen
        omega
      rw [hs]
      unfold substrC textBetween
      rw [List.drop_take]
    · rw [if_neg hb]
      push_neg at hb
      have hs : sub64 (findC token '[') (findC token ':' + 1) =
          npos - (findC token ':' + 1) := by
        rw [hb]
        apply sub64_eq_of_le _ _ (by unfold npos at hlen ⊢; omega)
        unfold npos at hlen ⊢
        omega
      rw [hs]
      unfold substrC
      have htake : List.take (npos - (findC token ':' + 1))
          (token.drop (findC token ':' + 1)) = token.drop (findC token ':' + 1) := by
        apply List.take_of_length_le
        rw [List.length_drop]
        unfold npos at hlen ⊢
        omega
      rw [htake]

/-- Witness for C8 at the concrete line `A -> B : 7.1 (id) [2.0]`. -/
theorem c8_rate_coefficient_field_witness :
    (parseLine ("A -> B : 7.1 (id) [2.0]".data)).rate_coeff_string =
      if findC ("A -> B : 7.1 (id) [2.0]".data) '(' <
          findC ("A -> B : 7.1 (id) [2.0]".data) '[' then
        trimStr (textBetween ("A -> B : 7.1 (id) [2.0]".data)
          (findC ("A -> B : 7.1 (id) [2.0]".data) ':')
          (findC ("A -> B : 7.1 (id) [2.0]".data) '('))
      else if findC ("A -> B : 7.1 (id) [2.0]".data) '[' ≠ npos then
        trimStr (textBetween ("A -> B : 7.1 (id) [2.0]".data)
          (findC ("A -> B : 7.1 (id) [2.0]".data) ':')
          (findC ("A -> B : 7.1 (id) [2.0]".data) '['))
      else trimStr (("A -> B : 7.1 (id) [2.0]".data).drop
        (findC ("A -> B : 7.1 (id) [2.0]".data) ':' + 1)) :=
  c8_rate_coefficient_field ("A -> B : 7.1 (id) [2.0]".data)
    (by decide) (by decide) (fun _ => by decide) (fun _ => by decide)

/-! ## C10: a captured brace expression discards the identifier -/

/-- C10 — On every line where a brace-delimited rate expression is captured
(`token.find('{') != npos`), any parenthesized identifier is discarded: the
reaction is marked not-identified and its identifier is the sentinel
`"NONE"`, so an Equation-rate reaction is never treated as having a
tabulated-rate file identifier. -/
theorem c10_equation_discards_identifier (token : Str)
    (hbrace : findC token '\x7b' ≠ npos) :
    (parseLine token).is_identified = false ∧
    (parseLine token).reaction_identifier = "NONE".data := by
  simp only [parseLine, hbrace, if_true, reduceIte, ne_eq, not_false_eq_true]
  constructor <;> simp

/-- Witness for C10 at the concrete line `A + B -> C : \x7b2.0*Te\x7d (id)`. -/
theorem c10_equation_discards_identifier_witness :
    (parseLine ("A + B -> C : \x7b2.0*Te\x7d (id)".data)).is_identified = false ∧
    (parseLine ("A + B -> C : \x7b2.0*Te\x7d (id)".data)).reaction_identifier = "NONE".data :=
  c10_equation_discards_identifier ("A + B -> C : \x7b2.0*Te\x7d (id)".data) (by decide)

/-! ## Concrete fixtures used by the evaluation theorems and witnesses -/

/-! ## C1: recorded stoichiometric coefficients -/

/-- C1 — the code disagrees with the claim on `_species_count`: the
synthesized superelastic reaction `B -> A` (index 2) has one product
occurrence of `A` and no reactant occurrence, so the claimed coefficient is
`1`, and the restricted `_reaction_stoichiometric_coeff` row indeed records
`1`; but `_species_count[2]` records `2` for `A` (and `-2` for `B`), because
the per-row accumulation reruns once for every later non-reversible
reaction. -/
theorem c1_species_count_bug :
    (build cfgBase stodFix strfFix fexAll c1Input).toOption = some c1St ∧
    c1St.reactants.getD 2 [] = ["B".data] ∧
    c1St.products.getD 2 [] = ["A".data] ∧
    ((c1St.products.getD 2 []).count "A".data : ℚ) -
      ((c1St.reactants.getD 2 []).count "A".data : ℚ) = 1 ∧
    (c1St.reaction_stoichiometric_coeff.getD 2 []).getD 0 0 = 1 ∧
    (c1St.species_count.getD 2 []).getD 0 0 = 2 := by
  refine ⟨?_, ?_, ?_, ?_, ?_, ?_⟩ <;> with_unfolding_all decide

/-! ## C4: balance-check lookup of an unmapped species -/

/-- C4 — the code disagrees with the claim: the particle-weight lookup for
the unmapped token `C` does not fail with a configuration-error diagnostic;
`std::find` returns `end`, `std::distance` gives `_species.size()`, and the
code then reads `_species[2]` and `num_particles[2]` out of bounds
(undefined behaviour, surfaced in the embedding as `oobSpeciesIndex`, which
is distinct from every `mooseError` diagnostic of the constructor). -/
theorem c4_unmapped_species_oob :
    buildErr (build cfgC4 stodFix strfFix fexAll c4Input) =
      some (BuildError.oobSpeciesIndex "C".data) := by
  with_unfolding_all decide

/-! ## C6: tabulated-rate file probing -/

/-- C6 — the code disagrees with the claim: with a file system on which
every probe fails (`fexNone`), construction still succeeds and the
identified reaction's identifier is left untouched, because the probing loop
runs `i` from `0` to `_num_eedf_reactions - 1` and tests `_is_identified[i]`
with the loop counter, never reaching the identified EEDF reaction at
index 1.  Under the claim, the four probes for identifier `ON` would all
fail and construction would abort. -/
theorem c6_identified_reaction_never_probed :
    (build cfgBase stodFix strfFix fexNone c6Input).toOption = some c6St ∧
    c6St.num_eedf_reactions = 1 ∧
    c6St.is_identified = [false, true] ∧
    c6St.reaction_identifier = ["NONE".data, "ON".data] ∧
    fexNone ("/data/ON".data) = false := by
  refine ⟨?_, ?_, ?_, ?_, ?_⟩ <;> with_unfolding_all decide

/-! ## C3: lumped expansion, counterexample part -/

/-- C3 counterexample — the lumped-species set has exactly one entry, yet
two concrete reactions are appended for the single template `M + M -> B`
(the flagging loop pushes the template index once per occurrence of the
placeholder in the reactant list), refuting "exactly one concrete reaction
is appended for each entry of the configured lumped-species set". -/
theorem c3_duplicate_placeholder_counterexample :
    (build cfgC3x stodFix strfFix fexAll c3xInput).toOption = some c3xSt ∧
    cfgC3x.lumpedList.length = 1 ∧
    c3xSt.lumped_reaction = [0, 0] ∧
    c3xSt.num_reactions = 3 ∧
    c3xSt.reactants.getD 1 [] = ["X".data, "X".data] ∧
    c3xSt.reactants.getD 2 [] = ["X".data, "X".data] := by
  refine ⟨?_, ?_, ?_, ?_, ?_, ?_⟩ <;> with_unfolding_all decide

/-! ## C9: lumped copies, counterexample part -/

/-- C9 counterexample — the claim's "only the equation text, rate
coefficient, rate kind, rate-expression string, reversibility flags, and
species-count row are copied" is refuted: the rate-coefficient name of the
appended concrete reaction at index 1 equals the template's
`rate_constant0` (copied, unlike the freshly assigned `_aux_var_name`,
which is `rate_constant1`), not a default value.  The claim's threshold
part is visible too: the template keeps threshold `3/2` while the copy has
threshold `0`. -/
theorem c9_rate_coefficient_name_copied :
    (build cfgC9 stodFix strfFix fexAll c9Input).toOption = some c9xSt ∧
    c9xSt.reaction_coefficient_name.getD 1 [] = "rate_constant0".data ∧
    c9xSt.aux_var_name.getD 1 [] = "rate_constant1".data ∧
    c9xSt.threshold_energy.getD 0 0 = 3 / 2 ∧
    c9xSt.threshold_energy.getD 1 0 = 0 := by
  refine ⟨?_, ?_, ?_, ?_, ?_⟩ <;> with_unfolding_all decide

/-! ## C7: the unit-conversion factor -/

/-- C7 — For every originally-parsed reaction with `r ≥ 1` reactant tokens,
on a successful construction: if its rate kind is `Constant`, the stored
coefficient is the `std::stod` value of the line's rate field multiplied by
`N_A^(r-1) * position_units^(3*(r-1))`, where `N_A` is Avogadro's number
when `convert_to_moles` is set and `1` otherwise and `position_units` is the
`convert_to_meters` value; if its rate kind is `Equation`, the same factor
is appended to the captured rate-expression string as a multiplicative
suffix through `Moose::stringify`. -/
theorem c7_rate_conversion (cfg : Config) (stod : Str → Option ℚ)
    (stringify : ℚ → Str) (fexists : Str → Bool) (input : List Str) (st : RxnState)
    (i : ℕ) (hok : build cfg stod stringify fexists input = .ok st)
    (hi : i < ((prepLines input).map parseLine).length)
    (hr : 1 ≤ (st.reactants.getD i []).length) :
    (st.rate_type.getD i [] = "Constant".data →
      ∃ v, stod (((prepLines input).map parseLine).getD i default).rate_coeff_string
          = some v ∧
        st.rate_coefficient.getD i none = some (v *
          (naOf cfg ^ ((st.reactants.getD i []).length - 1) *
            cfg.convert_to_meters ^ (3 * ((st.reactants.getD i []).length - 1))))) ∧
    (st.rate_type.getD i [] = "Equation".data →
      st.rate_equation_string.getD i [] =
        (((prepLines input).map parseLine).getD i default).rate_equation_string ++
          "*".data ++ stringify (naOf cfg ^ ((st.reactants.getD i []).length - 1) *
            cfg.convert_to_meters ^ (3 * ((st.reactants.getD i []).length - 1)))) := by
  obtain ⟨cl, hcl, _, hper⟩ := build_ok_fields cfg stod stringify fexists input st hok
  obtain ⟨e1, e2, e3, e4, e5, e6, e7, e8, e9, e10, e11, e12, e13, e14, e15, e16⟩ :=
    hper i hi
  constructor
  · intro hct
    obtain ⟨_, _, _, _, _, _, hforall⟩ :=
      classifyAux_ok_spec stod (nmOf cfg) 0 ((prepLines input).map parseLine) cl hcl
    have hct' : cl.rate_type.getD i [] = "Constant".data := by
      rw [← e6]
      exact hct
    obtain ⟨v, hv, hcoeff⟩ := hforall i hi hct'
    refine ⟨v, hv, ?_⟩
    rw [e7, if_pos hct', hcoeff, e2]
    rfl
  · intro heq
    have heq' : cl.rate_type.getD i [] = "Equation".data := by
      rw [← e6]
      exact heq
    rw [e8, if_pos heq', e2]
    rfl

theorem c7_rate_conversion_witness :
    (∃ v, stodFix (((prepLines c7Input).map parseLine).getD 0 default).rate_coeff_string
        = some v ∧
      c7St.rate_coefficient.getD 0 none = some (v *
        (naOf cfgC7 ^ ((c7St.reactants.getD 0 []).length - 1) *
          cfgC7.convert_to_meters ^ (3 * ((c7St.reactants.getD 0 []).length - 1))))) ∧
    c7St.rate_equation_string.getD 1 [] =
      (((prepLines c7Input).map parseLine).getD 1 default).rate_equation_string ++
        "*".data ++ strfFix (naOf cfgC7 ^ ((c7St.reactants.getD 1 []).length - 1) *
          cfgC7.convert_to_meters ^ (3 * ((c7St.reactants.getD 1 []).length - 1))) :=
  ⟨(c7_rate_conversion cfgC7 stodFix strfFix fexAll c7Input c7St 0
      (by with_unfolding_all rfl) (by with_unfolding_all decide)
      (by with_unfolding_all decide)).1 (by with_unfolding_all decide),
   (c7_rate_conversion cfgC7 stodFix strfFix fexAll c7Input c7St 1
      (by with_unfolding_all rfl) (by with_unfolding_all decide)
      (by with_unfolding_all decide)).2 (by with_unfolding_all decide)⟩

/-! ## C5: the balance check -/

/-- When every token of a side is a tracked species, the fold of `partStep`
computes the electron-skipping weighted sum. -/
theorem partFold_ok (species : List Str) (numP : List ℤ) (electron : Str)
    (toks : List Str) (acc : ℚ) (hmap : ∀ t ∈ toks, t ∈ species)
    (hlen : numP.length = species.length) :
    toks.foldlM (partStep species numP electron) acc =
      .ok (acc + specParticleSum species numP electron toks) := by
  induction toks generalizing acc with
  | nil =>
    simp [specParticleSum, List.foldlM_nil, pure, Except.pure]
  | cons t ts ih =>
    have ht : t ∈ species := hmap t (List.mem_cons_self _ _)
    have hidx : species.findIdx (fun sp => sp == t) < species.length :=
      List.findIdx_lt_length_of_exists ⟨t, ht, by simp⟩
    have hget : species.get? (species.findIdx (fun sp => sp == t)) =
        some (species.get ⟨species.findIdx (fun sp => sp == t), hidx⟩) :=
      List.get?_eq_get hidx
    have hsp : species.get ⟨species.findIdx (fun sp => sp == t), hidx⟩ = t := by
      have h2 := @List.findIdx_getElem _ (fun sp => sp == t) species hidx
      simpa using h2
    have hidn : species.findIdx (fun sp => sp == t) < numP.length := by
      rw [hlen]
      exact hidx
    have hgetn : numP.get? (species.findIdx (fun sp => sp == t)) =
        some (numP.get ⟨species.findIdx (fun sp => sp == t), hidn⟩) :=
      List.get?_eq_get hidn
    have hstep : partStep species numP electron acc t =
        .ok (if t = electron then acc
          else acc + ((numP.getD (species.findIdx (fun sp => sp == t)) 0 : ℤ) : ℚ)) := by
      simp only [partStep, hget, hsp]
      by_cases he : t = electron
      · rw [if_pos he, if_pos he]
      · rw [if_neg he, if_neg he, hgetn]
        have h3 : numP.getD (species.findIdx (fun sp => sp == t)) 0 =
            numP.get ⟨species.findIdx (fun sp => sp == t), hidn⟩ := by
          rw [List.getD_eq_getElem?_getD, List.getElem?_eq_getElem hidn]
          rfl
        rw [h3]
    rw [List.foldlM_cons, hstep]
    refine (except_bind_ok _ _ _).mpr ⟨_, rfl, ?_⟩
    rw [ih _ (fun t' ht' => hmap t' (List.mem_cons_of_mem _ ht'))]
    congr 1
    by_cases he : t = electron
    · simp [specParticleSum, List.filter_cons, he]
    · simp [specParticleSum, List.filter_cons, he]
      ring

/-- The balance scan over any index list: with all tokens tracked, it
returns the accumulated equation texts of exactly the mismatched
reactions. -/
theorem balFold_ok (cfg : Config) (st : RxnState) (is : List ℕ) (acc : List Str)
    (hmap : ∀ i ∈ is, (∀ t ∈ st.reactants.getD i [], t ∈ cfg.species) ∧
      (∀ t ∈ st.products.getD i [], t ∈ cfg.species))
    (hlen : cfg.numParticlesList.length = cfg.species.length) :
    is.foldlM (fun (acc : List Str) i => do
      let r ← partSum cfg.species cfg.numParticlesList cfg.electron_density
        (st.reactants.getD i [])
      let p ← partSum cfg.species cfg.numParticlesList cfg.electron_density
        (st.products.getD i [])
      if r ≠ p then pure (acc ++ [st.reaction.getD i []]) else pure acc) acc =
    .ok (acc ++ (is.filter (fun i =>
      decide (specParticleSum cfg.species cfg.numParticlesList cfg.electron_density
          (st.reactants.getD i []) ≠
        specParticleSum cfg.species cfg.numParticlesList cfg.electron_density
          (st.products.getD i [])))).map (fun i => st.reaction.getD i [])) := by
  induction is generalizing acc with
  | nil =>
    simp [List.foldlM_nil, pure, Except.pure]
  | cons i is ih =>
    obtain ⟨hr, hp⟩ := hmap i (List.mem_cons_self _ _)
    have h1 : partSum cfg.species cfg.numParticlesList cfg.electron_density
        (st.reactants.getD i []) =
        .ok (specParticleSum cfg.species cfg.numParticlesList cfg.electron_density
          (st.reactants.getD i [])) := by
      rw [partSum, partFold_ok _ _ _ _ _ hr hlen, zero_add]
    have h2 : partSum cfg.species cfg.numParticlesList cfg.electron_density
        (st.products.getD i []) =
        .ok (specParticleSum cfg.species cfg.numParticlesList cfg.electron_density
          (st.products.getD i [])) := by
      rw [partSum, partFold_ok _ _ _ _ _ hp hlen, zero_add]
    set f : List Str → ℕ → Except BuildError (List Str) := (fun acc i => do
      let r ← partSum cfg.species cfg.numParticlesList cfg.electron_density
        (st.reactants.getD i [])
      let p ← partSum cfg.species cfg.numParticlesList cfg.electron_density
        (st.products.getD i [])
      if r ≠ p then pure (acc ++ [st.reaction.getD i []]) else pure acc) with hf
    have hstep : f acc i = .ok (if specParticleSum cfg.species cfg.numParticlesList
        cfg.electron_density (st.reactants.getD i []) ≠
        specParticleSum cfg.species cfg.numParticlesList cfg.electron_density
          (st.products.getD i []) then acc ++ [st.reaction.getD i []] else acc) := by
      rw [hf]
      simp only [h1, h2, bind, Except.bind, pure, Except.pure]
      split <;> rfl
    rw [List.foldlM_cons, hstep]
    refine (except_bind_ok _ _ _).mpr ⟨_, rfl, ?_⟩
    by_cases hq : specParticleSum cfg.species cfg.numParticlesList cfg.electron_density
        (st.reactants.getD i []) =
        specParticleSum cfg.species cfg.numParticlesList cfg.electron_density
          (st.products.getD i [])
    · rw [if_neg (not_not_intro hq),
        ih acc (fun j hj => hmap j (List.mem_cons_of_mem _ hj))]
      have hd : (decide (specParticleSum cfg.species cfg.numParticlesList
          cfg.electron_density (st.reactants.getD i []) ≠
        specParticleSum cfg.species cfg.numParticlesList cfg.electron_density
          (st.products.getD i []))) = false := decide_eq_false (not_not_intro hq)
      simp only [List.filter_cons, hd]
      simp
    · rw [if_pos hq,
        ih (acc ++ [st.reaction.getD i []]) (fun j hj => hmap j (List.mem_cons_of_mem _ hj))]
      have hd : (decide (specParticleSum cfg.species cfg.numParticlesList
          cfg.electron_density (st.reactants.getD i []) ≠
        specParticleSum cfg.species cfg.numParticlesList cfg.electron_density
          (st.products.getD i []))) = true := decide_eq_true hq
      simp only [List.filter_cons, hd]
      simp

/-- C5 — When balance checking is requested and every reactant and product
token is a tracked species, the stage sums the `num_particles` weight of
each side of every reaction, skipping the designated electron species on
both sides alike, records the equation text of every reaction whose two
sums differ, scans all reactions before failing, and fails exactly when at
least one mismatch was recorded, with the single error listing every
unbalanced equation; with no mismatch it does not fail. -/
theorem c5_balance_check (cfg : Config) (st : RxnState)
    (hbc : cfg.balance_check = true)
    (hlen : cfg.numParticlesList.length = cfg.species.length)
    (hmap : ∀ i ∈ List.range st.num_reactions,
      (∀ t ∈ st.reactants.getD i [], t ∈ cfg.species) ∧
      (∀ t ∈ st.products.getD i [], t ∈ cfg.species)) :
    balanceStage cfg st =
      (if ((List.range st.num_reactions).filter (fun i =>
          decide (specParticleSum cfg.species cfg.numParticlesList cfg.electron_density
              (st.reactants.getD i []) ≠
            specParticleSum cfg.species cfg.numParticlesList cfg.electron_density
              (st.products.getD i [])))).map (fun i => st.reaction.getD i []) = []
       then .ok st
       else .error (.unbalanced (((List.range st.num_reactions).filter (fun i =>
          decide (specParticleSum cfg.species cfg.numParticlesList cfg.electron_density
              (st.reactants.getD i []) ≠
            specParticleSum cfg.species cfg.numParticlesList cfg.electron_density
              (st.products.getD i [])))).map (fun i => st.reaction.getD i [])))) := by
  unfold balanceStage
  rw [hbc, if_neg (by decide)]
  rw [balFold_ok cfg st (List.range st.num_reactions) [] hmap hlen]
  simp only [bind, Except.bind, List.nil_append]
  set L := ((List.range st.num_reactions).filter (fun i =>
    decide (specParticleSum cfg.species cfg.numParticlesList cfg.electron_density
        (st.reactants.getD i []) ≠
      specParticleSum cfg.species cfg.numParticlesList cfg.electron_density
        (st.products.getD i [])))).map (fun i => st.reaction.getD i []) with hLd
  by_cases hemp : L = []
  · rw [if_neg (not_not_intro hemp), if_pos hemp]
  · rw [if_pos hemp, if_neg hemp]

theorem c5_balance_check_witness :
    balanceStage cfgC4 c5St = .error (.unbalanced ["A -> B".data]) :=
  (c5_balance_check cfgC4 c5St (by decide) (by decide) (by decide)).trans
    (by with_unfolding_all rfl)

/-! ## C3 and C9: the lumped expansion slots -/

theorem slot_lt (old L nlr a c : ℕ) (ha : a < nlr) (hc : c < L) :
    old + a * L + c < old + nlr * L := by
  have h1 : (a + 1) * L ≤ nlr * L := Nat.mul_le_mul (show a + 1 ≤ nlr from ha) (le_refl L)
  have h2 : (a + 1) * L = a * L + L := by ring
  omega

/-- Writing one row of the lumped double loop: the slot of column `c` ends
holding its own value. -/
theorem foldl_set_row_getD {α : Type} (L old m : ℕ) (v : ℕ × ℕ → α) (l0 : List α)
    (d : α) (K c : ℕ) (hc : c < K) (hlen : old + m * L + c < l0.length) :
    (((List.range K).map (fun c => (m, c))).foldl
      (fun l p => l.set (slotOf old L p) (v p)) l0).getD (old + m * L + c) d =
      v (m, c) := by
  induction K with
  | zero => exact absurd hc (Nat.not_lt_zero c)
  | succ K ih =>
    rw [List.range_succ, List.map_append, List.foldl_append]
    simp only [List.map_cons, List.map_nil, List.foldl_cons, List.foldl_nil]
    by_cases hck : c = K
    · rw [hck]
      refine getD_set_self _ (slotOf old L (m, K)) (v (m, K)) d ?_
      rw [foldl_set_length]
      show old + m * L + K < l0.length
      exact hck ▸ hlen
    · rw [getD_set_ne _ (slotOf old L (m, K)) (old + m * L + c) (v (m, K)) d
        (by show old + m * L + K ≠ old + m * L + c; omega)]
      exact ih (by omega)

/-- The full lumped double loop: the slot of occurrence `a`, column `c` ends
holding its own value. -/
theorem lumpedIdxs_foldl_getD {α : Type} (L old : ℕ) (v : ℕ × ℕ → α) (l0 : List α)
    (d : α) (n a c : ℕ) (ha : a < n) (hc : c < L) (hlen : old + a * L + c < l0.length) :
    (((List.range n).flatMap (fun a => (List.range L).map (fun c => (a, c)))).foldl
      (fun l p => l.set (slotOf old L p) (v p)) l0).getD (old + a * L + c) d =
      v (a, c) := by
  induction n with
  | zero => exact absurd ha (Nat.not_lt_zero a)
  | succ n ih =>
    rw [List.range_succ, List.flatMap_append, List.foldl_append]
    simp only [List.flatMap_cons, List.flatMap_nil, List.append_nil]
    by_cases han : a = n
    · rw [han]
      refine foldl_set_row_getD L old n v _ d L c hc ?_
      rw [foldl_set_length]
      exact han ▸ hlen
    · have hne : ∀ p ∈ (List.range L).map (fun c => (n, c)),
          slotOf old L p ≠ old + a * L + c := by
        intro p hp
        obtain ⟨c', _, rfl⟩ := List.mem_map.mp hp
        show old + n * L + c' ≠ old + a * L + c
        have := slot_lt old L n a c (by omega) hc
        omega
      rw [foldl_set_getD_ne (slotOf old L) v _ _ _ d hne]
      exact ih (by omega)

/-- The value of every member of the concrete reaction the lumped expansion
creates for occurrence `a` of the template list and lumped species `c`, and
the untouched template flags below the original count. -/
theorem lumpedExpand_copy (cfg : Config) (st : RxnState) (a c : ℕ)
    (hfl : cfg.lumped_species = true)
    (ha : a < st.lumped_reaction.length) (hc : c < cfg.lumpedList.length)
    (l7 : st.reaction_lumped.length = st.num_reactions) :
    (lumpedExpand cfg st).reaction.getD
        (st.num_reactions + a * cfg.lumpedList.length + c) [] =
      st.reaction.getD (st.lumped_reaction.getD a 0) [] ∧
    (lumpedExpand cfg st).reactants.getD
        (st.num_reactions + a * cfg.lumpedList.length + c) [] =
      substLumped cfg.lumped_name (cfg.lumpedList.getD c [])
        (st.reactants.getD (st.lumped_reaction.getD a 0) []) ∧
    (lumpedExpand cfg st).products.getD
        (st.num_reactions + a * cfg.lumpedList.length + c) [] =
      substLumped cfg.lumped_name (cfg.lumpedList.getD c [])
        (st.products.getD (st.lumped_reaction.getD a 0) []) ∧
    (lumpedExpand cfg st).rate_coefficient.getD
        (st.num_reactions + a * cfg.lumpedList.length + c) none =
      st.rate_coefficient.getD (st.lumped_reaction.getD a 0) (some 0) ∧
    (lumpedExpand cfg st).rate_type.getD
        (st.num_reactions + a * cfg.lumpedList.length + c) [] =
      st.rate_type.getD (st.lumped_reaction.getD a 0) [] ∧
    (lumpedExpand cfg st).rate_equation_string.getD
        (st.num_reactions + a * cfg.lumpedList.length + c) [] =
      st.rate_equation_string.getD (st.lumped_reaction.getD a 0) [] ∧
    (lumpedExpand cfg st).reaction_coefficient_name.getD
        (st.num_reactions + a * cfg.lumpedList.length + c) [] =
      st.reaction_coefficient_name.getD (st.lumped_reaction.getD a 0) [] ∧
    (lumpedExpand cfg st).aux_var_name.getD
        (st.num_reactions + a * cfg.lumpedList.length + c) [] =
      "rate_constant".data ++
        natStr (st.num_reactions + a * cfg.lumpedList.length + c) ∧
    (lumpedExpand cfg st).superelastic_reaction.getD
        (st.num_reactions + a * cfg.lumpedList.length + c) false =
      st.superelastic_reaction.getD (st.lumped_reaction.getD a 0) false ∧
    (lumpedExpand cfg st).reversible_reaction.getD
        (st.num_reactions + a * cfg.lumpedList.length + c) false =
      st.reversible_reaction.getD (st.lumped_reaction.getD a 0) false ∧
    (lumpedExpand cfg st).reaction_lumped.getD
        (st.num_reactions + a * cfg.lumpedList.length + c) false = false ∧
    (lumpedExpand cfg st).species_count.getD
        (st.num_reactions + a * cfg.lumpedList.length + c) [] =
      st.species_count.getD (st.lumped_reaction.getD a 0) [] ∧
    (∀ j, j < st.num_reactions → (lumpedExpand cfg st).reaction_lumped.getD j false =
      st.reaction_lumped.getD j false) := by
  have hb : ∀ {β : Type} (l : List β) (dflt : β),
      st.num_reactions + a * cfg.lumpedList.length + c <
        (resizeD l (st.num_reactions +
          st.lumped_reaction.length * cfg.lumpedList.length) dflt).length := by
    intro β l dflt
    have hst := slot_lt st.num_reactions cfg.lumpedList.length
      st.lumped_reaction.length a c ha hc
    unfold resizeD
    simp only [List.length_append, List.length_take, List.length_replicate]
    omega
  simp only [lumpedExpand, hfl, reduceIte]
  rw [lumpedFold_eq]
  simp only [lumpedIdxs]
  refine ⟨?_, ?_, ?_, ?_, ?_, ?_, ?_, ?_, ?_, ?_, ?_, ?_, ?_⟩
  · exact lumpedIdxs_foldl_getD _ _ _ _ []
      st.lumped_reaction.length a c ha hc (hb st.reaction [])
  · exact lumpedIdxs_foldl_getD _ _ _ _ []
      st.lumped_reaction.length a c ha hc (hb st.reactants [])
  · exact lumpedIdxs_foldl_getD _ _ _ _ []
      st.lumped_reaction.length a c ha hc (hb st.products [])
  · exact lumpedIdxs_foldl_getD _ _ _ _ none
      st.lumped_reaction.length a c ha hc (hb st.rate_coefficient (some 0))
  · exact lumpedIdxs_foldl_getD _ _ _ _ []
      st.lumped_reaction.length a c ha hc (hb st.rate_type [])
  · exact lumpedIdxs_foldl_getD _ _ _ _ []
      st.lumped_reaction.length a c ha hc (hb st.rate_equation_string [])
  · exact lumpedIdxs_foldl_getD _ _ _ _ []
      st.lumped_reaction.length a c ha hc (hb st.reaction_coefficient_name [])
  · exact lumpedIdxs_foldl_getD _ _ _ _ []
      st.lumped_reaction.length a c ha hc (hb st.aux_var_name [])
  · exact lumpedIdxs_foldl_getD _ _ _ _ false
      st.lumped_reaction.length a c ha hc (hb st.superelastic_reaction false)
  · exact lumpedIdxs_foldl_getD _ _ _ _ false
      st.lumped_reaction.length a c ha hc (hb st.reversible_reaction false)
  · exact lumpedIdxs_foldl_getD _ _ _ _ false
      st.lumped_reaction.length a c ha hc (hb st.reaction_lumped false)
  · exact lumpedIdxs_foldl_getD _ _ _ _ []
      st.lumped_reaction.length a c ha hc (hb st.species_count [])
  · intro j hj
    have hne : ∀ p ∈ (List.range st.lumped_reaction.length).flatMap
        (fun a => (List.range cfg.lumpedList.length).map (fun c => (a, c))),
        slotOf st.num_reactions cfg.lumpedList.length p ≠ j := by
      intro p _
      unfold slotOf
      omega
    have hfold := foldl_set_getD_ne
      (slotOf st.num_reactions cfg.lumpedList.length) (fun _ => false)
      (resizeD st.reaction_lumped
        (st.num_reactions + st.lumped_reaction.length * cfg.lumpedList.length) false)
      ((List.range st.lumped_reaction.length).flatMap
        (fun a => (List.range cfg.lumpedList.length).map (fun c => (a, c))))
      j false hne
    have hres : (resizeD st.reaction_lumped
        (st.num_reactions + st.lumped_reaction.length * cfg.lumpedList.length)
        false).getD j false = st.reaction_lumped.getD j false := by
      refine getD_resizeD_lt st.reaction_lumped _ j false false ?_ ?_
      · rw [l7]
        exact hj
      · rw [l7]
        exact Nat.le_add_right _ _
    exact hfold.trans hres

/-- C3 — When lumped-species expansion is enabled, a template reaction keeps
its non-instantiable flag, and for every recorded occurrence `a` of the
placeholder (the flag loop records the template index once per occurrence of
the placeholder in its reactant list, so a template can be recorded more
than once) and every entry `c` of the configured lumped-species set, one
concrete reaction is created at slot
`num_reactions + a * |lumped set| + c`, after all originally-parsed
reactions, with the placeholder substituted by that concrete species name in
both the reactant and the product list, with the template's rate
coefficient, rate kind and rate-expression string copied verbatim, and with
the copy's own lumped flag cleared; the reaction count grows by
`|recorded occurrences| * |lumped set|`. -/
theorem c3_lumped_expansion (cfg : Config) (st : RxnState) (a c j : ℕ)
    (hfl : cfg.lumped_species = true)
    (ha : a < st.lumped_reaction.length) (hc : c < cfg.lumpedList.length)
    (hj : j < st.num_reactions)
    (l7 : st.reaction_lumped.length = st.num_reactions) :
    (lumpedExpand cfg st).num_reactions =
      st.num_reactions + st.lumped_reaction.length * cfg.lumpedList.length ∧
    (lumpedExpand cfg st).reaction_lumped.getD j false =
      st.reaction_lumped.getD j false ∧
    (lumpedExpand cfg st).reaction_lumped.getD
      (st.num_reactions + a * cfg.lumpedList.length + c) false = false ∧
    (lumpedExpand cfg st).reaction.getD
        (st.num_reactions + a * cfg.lumpedList.length + c) [] =
      st.reaction.getD (st.lumped_reaction.getD a 0) [] ∧
    (lumpedExpand cfg st).reactants.getD
        (st.num_reactions + a * cfg.lumpedList.length + c) [] =
      substLumped cfg.lumped_name (cfg.lumpedList.getD c [])
        (st.reactants.getD (st.lumped_reaction.getD a 0) []) ∧
    (lumpedExpand cfg st).products.getD
        (st.num_reactions + a * cfg.lumpedList.length + c) [] =
      substLumped cfg.lumped_name (cfg.lumpedList.getD c [])
        (st.products.getD (st.lumped_reaction.getD a 0) []) ∧
    (lumpedExpand cfg st).rate_coefficient.getD
        (st.num_reactions + a * cfg.lumpedList.length + c) none =
      st.rate_coefficient.getD (st.lumped_reaction.getD a 0) (some 0) ∧
    (lumpedExpand cfg st).rate_type.getD
        (st.num_reactions + a * cfg.lumpedList.length + c) [] =
      st.rate_type.getD (st.lumped_reaction.getD a 0) [] ∧
    (lumpedExpand cfg st).rate_equation_string.getD
        (st.num_reactions + a * cfg.lumpedList.length + c) [] =
      st.rate_equation_string.getD (st.lumped_reaction.getD a 0) [] := by
  obtain ⟨e1, e2, e3, e4, e5, e6, e7, e8, e9, e10, e11, e12, e13⟩ :=
    lumpedExpand_copy cfg st a c hfl ha hc l7
  refine ⟨?_, e13 j hj, e11, e1, e2, e3, e4, e5, e6⟩
  rw [lumpedExpand_num_reactions, if_pos hfl]

theorem c3_lumped_expansion_witness :
    (lumpedExpand cfgC3x c3St).num_reactions =
      c3St.num_reactions + c3St.lumped_reaction.length * cfgC3x.lumpedList.length ∧
    (lumpedExpand cfgC3x c3St).reaction_lumped.getD 0 false =
      c3St.reaction_lumped.getD 0 false ∧
    (lumpedExpand cfgC3x c3St).reaction_lumped.getD
      (c3St.num_reactions + 1 * cfgC3x.lumpedList.length + 0) false = false ∧
    (lumpedExpand cfgC3x c3St).reaction.getD
        (c3St.num_reactions + 1 * cfgC3x.lumpedList.length + 0) [] =
      c3St.reaction.getD (c3St.lumped_reaction.getD 1 0) [] ∧
    (lumpedExpand cfgC3x c3St).reactants.getD
        (c3St.num_reactions + 1 * cfgC3x.lumpedList.length + 0) [] =
      substLumped cfgC3x.lumped_name (cfgC3x.lumpedList.getD 0 [])
        (c3St.reactants.getD (c3St.lumped_reaction.getD 1 0) []) ∧
    (lumpedExpand cfgC3x c3St).products.getD
        (c3St.num_reactions + 1 * cfgC3x.lumpedList.length + 0) [] =
      substLumped cfgC3x.lumped_name (cfgC3x.lumpedList.getD 0 [])
        (c3St.products.getD (c3St.lumped_reaction.getD 1 0) []) ∧
    (lumpedExpand cfgC3x c3St).rate_coefficient.getD
        (c3St.num_reactions + 1 * cfgC3x.lumpedList.length + 0) none =
      c3St.rate_coefficient.getD (c3St.lumped_reaction.getD 1 0) (some 0) ∧
    (lumpedExpand cfgC3x c3St).rate_type.getD
        (c3St.num_reactions + 1 * cfgC3x.lumpedList.length + 0) [] =
      c3St.rate_type.getD (c3St.lumped_reaction.getD 1 0) [] ∧
    (lumpedExpand cfgC3x c3St).rate_equation_string.getD
        (c3St.num_reactions + 1 * cfgC3x.lumpedList.length + 0) [] =
      c3St.rate_equation_string.getD (c3St.lumped_reaction.getD 1 0) [] :=
  c3_lumped_expansion cfgC3x c3St 1 0 0 (by with_unfolding_all decide)
    (by with_unfolding_all decide) (by with_unfolding_all decide)
    (by with_unfolding_all decide) (by with_unfolding_all decide)

/-- Every recorded template index is an originally-parsed reaction index. -/
theorem stage3_lumped_lt (cfg : Config) (strf : ℚ → Str) (NA : ℚ)
    (lines : List LineFields) (cl : Classified) :
    ∀ x ∈ (stage3 cfg strf NA lines cl).lumped_reaction, x < lines.length := by
  intro x hx
  simp only [stage3] at hx
  rw [List.mem_flatten] at hx
  obtain ⟨l, hl, hxl⟩ := hx
  rw [List.mem_map] at hl
  obtain ⟨i, hi, rfl⟩ := hl
  rw [List.mem_replicate] at hxl
  rw [hxl.2]
  exact List.mem_range.mp hi

set_option maxHeartbeats 800000 in
/-- C9 — On a successful construction with lumped expansion enabled, the
concrete reaction created for occurrence `a` and lumped entry `c`, at slot
`|lines| + a * |lumped set| + c`, has threshold energy `0` and energy-change
flag `false` regardless of any bracketed threshold on its template (both
vectors are only resized with value-initialised defaults at the copy slots),
while its equation text, rate kind, rate coefficient, and also the
template's `_reaction_coefficient_name` are copied verbatim from the
template, and `_aux_var_name` alone is freshly assigned
`rate_constant<slot>`. -/
theorem c9_lumped_copy_defaults (cfg : Config) (stod : Str → Option ℚ)
    (stringify : ℚ → Str) (fexists : Str → Bool) (input : List Str) (st : RxnState)
    (a c : ℕ) (hok : build cfg stod stringify fexists input = .ok st)
    (hfl : cfg.lumped_species = true)
    (ha : a < st.lumped_reaction.length) (hc : c < cfg.lumpedList.length) :
    st.threshold_energy.getD
      (((prepLines input).map parseLine).length + a * cfg.lumpedList.length + c)
      0 = 0 ∧
    st.energy_change.getD
      (((prepLines input).map parseLine).length + a * cfg.lumpedList.length + c)
      false = false ∧
    st.reaction_coefficient_name.getD
        (((prepLines input).map parseLine).length + a * cfg.lumpedList.length + c)
        [] =
      st.reaction_coefficient_name.getD (st.lumped_reaction.getD a 0) [] ∧
    st.aux_var_name.getD
        (((prepLines input).map parseLine).length + a * cfg.lumpedList.length + c)
        [] =
      "rate_constant".data ++ natStr
        (((prepLines input).map parseLine).length + a * cfg.lumpedList.length + c) ∧
    st.reaction.getD
        (((prepLines input).map parseLine).length + a * cfg.lumpedList.length + c)
        [] =
      st.reaction.getD (st.lumped_reaction.getD a 0) [] ∧
    st.rate_type.getD
        (((prepLines input).map parseLine).length + a * cfg.lumpedList.length + c)
        [] =
      st.rate_type.getD (st.lumped_reaction.getD a 0) [] ∧
    st.rate_coefficient.getD
        (((prepLines input).map parseLine).length + a * cfg.lumpedList.length + c)
        none =
      st.rate_coefficient.getD (st.lumped_reaction.getD a 0) none := by
  obtain ⟨cl, hcl, hst⟩ := build_ok_inv cfg stod stringify fexists input st hok
  obtain ⟨L1, L2, L3, L4, L5, L6, _⟩ :=
    classifyAux_ok_spec stod (nmOf cfg) 0 ((prepLines input).map parseLine) cl hcl
  obtain ⟨s1, s2, s3, s4, s5, s6, s7, s8, s9, s10, s11, s12, s13, s14⟩ :=
    stage3_lengths cfg stringify (naOf cfg) ((prepLines input).map parseLine) cl
  have hlr := stage3_lumped_lt cfg stringify (naOf cfg)
    ((prepLines input).map parseLine) cl
  set lines := (prepLines input).map parseLine with hL
  set st3 := stage3 cfg stringify (naOf cfg) lines cl with hS3
  clear_value lines st3
  obtain ⟨lu1, lu2, lu3, lu4, lu5, lu6, lu7, lu8, lu9, lu10, lu11, lu12⟩ :=
    lumpedExpand_untouched cfg st3
  obtain ⟨su1, su2, su3, su4, su5, su6, su7, su8, su9, su10, su11, su12, su13⟩ :=
    superelasticExpand_untouched cfg (lumpedExpand cfg st3)
  have hG3 : st.lumped_reaction = st3.lumped_reaction := by
    rw [hst]
    show (superelasticExpand cfg (lumpedExpand cfg st3)).lumped_reaction =
      st3.lumped_reaction
    rw [su8, lu8]
  have ha3 : a < st3.lumped_reaction.length := by
    rw [← hG3]
    exact ha
  have hsrcEq : st.lumped_reaction.getD a 0 = st3.lumped_reaction.getD a 0 := by
    rw [hG3]
  have hsg : st3.lumped_reaction.getD a 0 = st3.lumped_reaction.get ⟨a, ha3⟩ := by
    rw [List.getD_eq_getElem?_getD, List.getElem?_eq_getElem ha3]
    rfl
  have hsrcL : st3.lumped_reaction.getD a 0 < lines.length := by
    rw [hsg]
    exact hlr _ (List.get_mem _ _ ha3)
  have hsrc3 : st3.lumped_reaction.getD a 0 < st3.num_reactions := by
    rw [s12]
    exact hsrcL
  obtain ⟨e1, e2, e3, e4, e5, e6, e7, e8, e9, e10, e11, e12, e13⟩ :=
    lumpedExpand_copy cfg st3 a c hfl ha3 hc (by rw [s9, s12])
  rw [s12] at e1 e4 e5 e7 e8
  have t3 : st3.rate_type.length = st3.num_reactions := by
    rw [s12, hS3]
    exact L4
  have t5 : st3.reaction_coefficient_name.length = st3.num_reactions := by
    rw [s12, hS3]
    exact L6
  have t6 : st3.aux_var_name.length = st3.num_reactions := by
    rw [s12, hS3]
    exact L5
  have tth : st3.threshold_energy.length = lines.length := by
    rw [hS3]
    exact L1
  obtain ⟨m1, m2, m3, m4, m5, m6, m7, m8, m9, m10, m11⟩ :=
    lumpedExpand_lengths cfg st3 (by rw [s1, s12]) (by rw [s7, s12]) t3
      (by rw [s8, s12]) t5 t6 (by rw [s4, s12]) (by rw [s9, s12]) (by rw [s10, s12])
      (by rw [s2, s12]) (by rw [s3, s12])
  have hn4 := lumpedExpand_num_reactions cfg st3
  have hslot4 : lines.length + a * cfg.lumpedList.length + c <
      (lumpedExpand cfg st3).num_reactions := by
    rw [hn4, if_pos hfl, s12]
    exact slot_lt lines.length cfg.lumpedList.length st3.lumped_reaction.length a c
      ha3 hc
  have hsrc4 : st3.lumped_reaction.getD a 0 < (lumpedExpand cfg st3).num_reactions := by
    rw [hn4]
    exact Nat.lt_of_lt_of_le hsrc3 (Nat.le_add_right _ _)
  obtain ⟨p1, p2, p3, p4, p5, p6, p7, p8, p9, p10, p11, p12⟩ :=
    superelasticExpand_getD cfg (lumpedExpand cfg st3)
      (lines.length + a * cfg.lumpedList.length + c) hslot4
  obtain ⟨q1, q2, q3, q4, q5, q6, q7, q8, q9, q10, q11, q12⟩ :=
    superelasticExpand_getD cfg (lumpedExpand cfg st3)
      (st3.lumped_reaction.getD a 0) hsrc4
  obtain ⟨g1, g2, g3, g4, g5, g6, g7, g8, g9, g10, g11, g12⟩ :=
    lumpedExpand_getD_lt cfg st3 (st3.lumped_reaction.getD a 0) hsrc3
      (by rw [s1, s12]) (by rw [s7, s12]) t3 (by rw [s8, s12]) t5 t6
      (by rw [s4, s12]) (by rw [s9, s12]) (by rw [s10, s12]) (by rw [s2, s12])
      (by rw [s3, s12]) (by rw [s14]; simp)
  have fTH : st.threshold_energy =
      (superelasticExpand cfg (lumpedExpand cfg st3)).threshold_energy := by
    rw [hst]
    rfl
  have fEC : st.energy_change =
      (superelasticExpand cfg (lumpedExpand cfg st3)).energy_change := by
    rw [hst]
    rfl
  have fCN : st.reaction_coefficient_name =
      (superelasticExpand cfg (lumpedExpand cfg st3)).reaction_coefficient_name := by
    rw [hst]
    rfl
  have fAV : st.aux_var_name =
      (superelasticExpand cfg (lumpedExpand cfg st3)).aux_var_name := by
    rw [hst]
    rfl
  have fRe : st.reaction =
      (superelasticExpand cfg (lumpedExpand cfg st3)).reaction := by
    rw [hst]
    rfl
  have fRT : st.rate_type =
      (superelasticExpand cfg (lumpedExpand cfg st3)).rate_type := by
    rw [hst]
    rfl
  have fRC : st.rate_coefficient =
      (superelasticExpand cfg (lumpedExpand cfg st3)).rate_coefficient := by
    rw [hst]
    rfl
  rw [hsrcEq]
  refine ⟨?_, ?_, ?_, ?_, ?_, ?_, ?_⟩
  · have hthl : (lumpedExpand cfg st3).threshold_energy.length = lines.length := by
      rw [lu1]
      exact tth
    rw [fTH, p4,
      show (superResize cfg (lumpedExpand cfg st3)).threshold_energy =
        resizeD (lumpedExpand cfg st3).threshold_energy
          ((lumpedExpand cfg st3).num_reactions +
            (lumpedExpand cfg st3).superelastic_count) 0 from rfl,
      getD_resizeD_pad (lumpedExpand cfg st3).threshold_energy
        ((lumpedExpand cfg st3).num_reactions +
          (lumpedExpand cfg st3).superelastic_count)
        (lines.length + a * cfg.lumpedList.length + c) 0 0
        (by rw [hthl]
            exact le_trans (Nat.le_add_right _ _) (Nat.le_add_right _ _))
        (Nat.lt_of_lt_of_le hslot4 (Nat.le_add_right _ _))]
  · have hecl : (lumpedExpand cfg st3).energy_change.length = lines.length := by
      rw [lu2]
      exact s11
    rw [fEC, p8,
      show (superResize cfg (lumpedExpand cfg st3)).energy_change =
        resizeD (lumpedExpand cfg st3).energy_change
          ((lumpedExpand cfg st3).num_reactions +
            (lumpedExpand cfg st3).superelastic_count) false from rfl,
      getD_resizeD_pad (lumpedExpand cfg st3).energy_change
        ((lumpedExpand cfg st3).num_reactions +
          (lumpedExpand cfg st3).superelastic_count)
        (lines.length + a * cfg.lumpedList.length + c) false false
        (by rw [hecl]
            exact le_trans (Nat.le_add_right _ _) (Nat.le_add_right _ _))
        (Nat.lt_of_lt_of_le hslot4 (Nat.le_add_right _ _))]
  · rw [fCN, p6, q6,
      show (superResize cfg (lumpedExpand cfg st3)).reaction_coefficient_name =
        resizeD (lumpedExpand cfg st3).reaction_coefficient_name
          ((lumpedExpand cfg st3).num_reactions +
            (lumpedExpand cfg st3).superelastic_count) [] from rfl,
      getD_resizeD_lt (lumpedExpand cfg st3).reaction_coefficient_name
        ((lumpedExpand cfg st3).num_reactions +
          (lumpedExpand cfg st3).superelastic_count)
        (lines.length + a * cfg.lumpedList.length + c) [] []
        (by rw [m5]; exact hslot4) (by rw [m5]; exact Nat.le_add_right _ _),
      getD_resizeD_lt (lumpedExpand cfg st3).reaction_coefficient_name
        ((lumpedExpand cfg st3).num_reactions +
          (lumpedExpand cfg st3).superelastic_count)
        (st3.lumped_reaction.getD a 0) [] []
        (by rw [m5]; exact hsrc4) (by rw [m5]; exact Nat.le_add_right _ _),
      e7, g5]
  · rw [fAV, p5,
      show (superResize cfg (lumpedExpand cfg st3)).aux_var_name =
        resizeD (lumpedExpand cfg st3).aux_var_name
          ((lumpedExpand cfg st3).num_reactions +
            (lumpedExpand cfg st3).superelastic_count) [] from rfl,
      getD_resizeD_lt (lumpedExpand cfg st3).aux_var_name
        ((lumpedExpand cfg st3).num_reactions +
          (lumpedExpand cfg st3).superelastic_count)
        (lines.length + a * cfg.lumpedList.length + c) [] []
        (by rw [m6]; exact hslot4) (by rw [m6]; exact Nat.le_add_right _ _),
      e8]
  · have hlenS : lines.length + a * cfg.lumpedList.length + c <
        (superResize cfg (lumpedExpand cfg st3)).reaction.length := by
      show lines.length + a * cfg.lumpedList.length + c <
        (lumpedExpand cfg st3).reaction.length
      rw [m1]
      exact hslot4
    have hlenR : st3.lumped_reaction.getD a 0 <
        (superResize cfg (lumpedExpand cfg st3)).reaction.length := by
      show st3.lumped_reaction.getD a 0 < (lumpedExpand cfg st3).reaction.length
      rw [m1]
      exact hsrc4
    rw [fRe, p12 hlenS, q12 hlenR,
      show (superResize cfg (lumpedExpand cfg st3)).reaction =
        (lumpedExpand cfg st3).reaction from rfl, e1, g1]
  · rw [fRT, su1, e5, g3]
  · have hveq : ∀ src0, src0 < st3.rate_coefficient.length →
        st3.rate_coefficient.getD src0 (some 0) =
          st3.rate_coefficient.getD src0 none := by
      intro src0 hlt
      rw [List.getD_eq_getElem?_getD, List.getD_eq_getElem?_getD,
        List.getElem?_eq_getElem hlt]
      rfl
    rw [fRC, p3, q3,
      show (superResize cfg (lumpedExpand cfg st3)).rate_coefficient =
        resizeD (lumpedExpand cfg st3).rate_coefficient
          ((lumpedExpand cfg st3).num_reactions +
            (lumpedExpand cfg st3).superelastic_count) (some 0) from rfl,
      getD_resizeD_lt (lumpedExpand cfg st3).rate_coefficient
        ((lumpedExpand cfg st3).num_reactions +
          (lumpedExpand cfg st3).superelastic_count)
        (lines.length + a * cfg.lumpedList.length + c) (some 0) none
        (by rw [m2]; exact hslot4) (by rw [m2]; exact Nat.le_add_right _ _),
      getD_resizeD_lt (lumpedExpand cfg st3).rate_coefficient
        ((lumpedExpand cfg st3).num_reactions +
          (lumpedExpand cfg st3).superelastic_count)
        (st3.lumped_reaction.getD a 0) (some 0) none
        (by rw [m2]; exact hsrc4) (by rw [m2]; exact Nat.le_add_right _ _),
      e4, g2, hveq _ (by rw [s7]; exact hsrcL)]

theorem c9_lumped_copy_defaults_witness :
    c9xSt.threshold_energy.getD
      (((prepLines c9Input).map parseLine).length + 0 * cfgC9.lumpedList.length + 1)
      0 = 0 ∧
    c9xSt.energy_change.getD
      (((prepLines c9Input).map parseLine).length + 0 * cfgC9.lumpedList.length + 1)
      false = false ∧
    c9xSt.reaction_coefficient_name.getD
        (((prepLines c9Input).map parseLine).length + 0 * cfgC9.lumpedList.length + 1)
        [] =
      c9xSt.reaction_coefficient_name.getD (c9xSt.lumped_reaction.getD 0 0) [] ∧
    c9xSt.aux_var_name.getD
        (((prepLines c9Input).map parseLine).length + 0 * cfgC9.lumpedList.length + 1)
        [] =
      "rate_constant".data ++ natStr
        (((prepLines c9Input).map parseLine).length + 0 * cfgC9.lumpedList.length +
          1) ∧
    c9xSt.reaction.getD
        (((prepLines c9Input).map parseLine).length + 0 * cfgC9.lumpedList.length + 1)
        [] =
      c9xSt.reaction.getD (c9xSt.lumped_reaction.getD 0 0) [] ∧
    c9xSt.rate_type.getD
        (((prepLines c9Input).map parseLine).length + 0 * cfgC9.lumpedList.length + 1)
        [] =
      c9xSt.rate_type.getD (c9xSt.lumped_reaction.getD 0 0) [] ∧
    c9xSt.rate_coefficient.getD
        (((prepLines c9Input).map parseLine).length + 0 * cfgC9.lumpedList.length + 1)
        none =
      c9xSt.rate_coefficient.getD (c9xSt.lumped_reaction.getD 0 0) none :=
  c9_lumped_copy_defaults cfgC9 stodFix strfFix fexAll c9Input c9xSt 0 1
    (by with_unfolding_all rfl) (by with_unfolding_all decide)
    (by with_unfolding_all decide) (by with_unfolding_all decide)

/-! ## C2: the superelastic append -/

set_option maxHeartbeats 1000000 in
/-- C2 — For every reaction flagged reversible (with lumped-species expansion
disabled, so the superelastic pass is the only expansion), one new reaction is
appended, at slot `number of parsed lines + number of reversible reactions
with smaller index`: its reactant list equals the original reaction's product
list and its product list equals the original reaction's reactant list (order
preserved), its threshold energy is the negation of the original's, its
superelastic flag is set, its back-reference `_superelastic_index` equals the
original reaction's index, and the slot lies below the final
`_num_reactions`. -/
theorem c2_superelastic_append (cfg : Config) (stod : Str → Option ℚ)
    (stringify : ℚ → Str) (fexists : Str → Bool) (input : List Str) (st : RxnState)
    (hok : build cfg stod stringify fexists input = .ok st)
    (hnl : cfg.lumped_species = false) (i : ℕ)
    (hi : i < ((prepLines input).map parseLine).length)
    (hrev : st.reversible_reaction.getD i false = true) :
    st.superelastic_index.getD
      (((prepLines input).map parseLine).length + ((List.range i).filter
        (fun j => st.reversible_reaction.getD j false)).length) 0 = i ∧
    st.superelastic_reaction.getD
      (((prepLines input).map parseLine).length + ((List.range i).filter
        (fun j => st.reversible_reaction.getD j false)).length) false = true ∧
    st.threshold_energy.getD
      (((prepLines input).map parseLine).length + ((List.range i).filter
        (fun j => st.reversible_reaction.getD j false)).length) 0 =
      -(st.threshold_energy.getD i 0) ∧
    st.reactants.getD
      (((prepLines input).map parseLine).length + ((List.range i).filter
        (fun j => st.reversible_reaction.getD j false)).length) [] =
      st.products.getD i [] ∧
    st.products.getD
      (((prepLines input).map parseLine).length + ((List.range i).filter
        (fun j => st.reversible_reaction.getD j false)).length) [] =
      st.reactants.getD i [] ∧
    ((prepLines input).map parseLine).length + ((List.range i).filter
        (fun j => st.reversible_reaction.getD j false)).length <
      st.num_reactions := by
  obtain ⟨cl, hcl, hst⟩ := build_ok_inv cfg stod stringify fexists input st hok
  set lines := (prepLines input).map parseLine with hlines
  have hs3 := stage3_lengths cfg stringify (naOf cfg) lines cl
  have hsu := superelasticExpand_untouched cfg
    (stage3 cfg stringify (naOf cfg) lines cl)
  set st3 := stage3 cfg stringify (naOf cfg) lines cl with hst3
  obtain ⟨s1, s2, s3, s4, s5, s6, s7, s8, s9, s10, s11, s12, s13, s14⟩ := hs3
  have hl4 : lumpedExpand cfg st3 = st3 := by
    unfold lumpedExpand
    rw [if_pos hnl]
  rw [hl4] at hst
  set SE := superelasticExpand cfg st3 with hSE
  have f1 : st.superelastic_index = SE.superelastic_index := by
    rw [hst, participantsStage_eq]
  have f2 : st.superelastic_reaction = SE.superelastic_reaction := by
    rw [hst, participantsStage_eq]
  have f3 : st.threshold_energy = SE.threshold_energy := by
    rw [hst, participantsStage_eq]
  have f4 : st.reactants = SE.reactants := by
    rw [hst, participantsStage_eq]
  have f5 : st.products = SE.products := by
    rw [hst, participantsStage_eq]
  have f6 : st.reversible_reaction = SE.reversible_reaction := by
    rw [hst, participantsStage_eq]
  have f7 : st.num_reactions = SE.num_reactions := by
    rw [hst, participantsStage_eq]
  have g6 : st.reversible_reaction = st3.reversible_reaction := f6.trans hsu.2.2.1
  have hi3 : i < st3.num_reactions := by
    rw [s12]
    exact hi
  have hrev3 : st3.reversible_reaction.getD i false = true := by
    rw [← g6]
    exact hrev
  have hthn3 : st3.threshold_energy.length = st3.num_reactions := by
    rw [s12]
    show cl.threshold_energy.length = lines.length
    exact (classifyAux_ok_spec stod (nmOf cfg) 0 lines cl hcl).1
  have hre3 : st3.reactants.length = st3.num_reactions := by
    rw [s2, s12]
  have hpr3 : st3.products.length = st3.num_reactions := by
    rw [s3, s12]
  have hper : ∀ j, j < lines.length →
      st3.reversible_reaction.getD j false =
        (splitEquation (lines.getD j default).reaction).reversible := by
    intro j hj
    rw [hst3]
    exact (stage3_getD cfg stringify (naOf cfg) lines cl j hj).2.2.2.1
  have hsum3 : st3.superelastic_count =
      (lines.map (fun lf => (splitEquation lf.reaction).super_incr)).sum := by
    show ((lines.map (fun lf => splitEquation lf.reaction)).map
        (fun sd => sd.super_incr)).sum = _
    rw [List.map_map]
    rfl
  have hwt : ∀ lf ∈ lines, (splitEquation lf.reaction).reversible = true →
      1 ≤ (splitEquation lf.reaction).super_incr := by
    intro lf _ h
    exact splitEquation_super_pos _ h
  have hrank := rank_lt_sum lines (fun lf => (splitEquation lf.reaction).reversible)
    (fun lf => (splitEquation lf.reaction).super_incr) default hwt i hi
    (by
      show (splitEquation (lines.getD i default).reaction).reversible = true
      rw [← hper i hi]
      exact hrev3)
  have hfilt : (List.range i).filter
      (fun j => st3.reversible_reaction.getD j false) =
      (List.range i).filter
        (fun j => (splitEquation (lines.getD j default).reaction).reversible) := by
    apply List.filter_congr
    intro j hj
    exact hper j (lt_trans (List.mem_range.mp hj) hi)
  have hcnt3 : ((List.range i).filter
      (fun j => st3.reversible_reaction.getD j false)).length <
      st3.superelastic_count := by
    rw [hfilt, hsum3]
    exact hrank
  have hrow := superelasticExpand_rev_row cfg st3 i hi3 hrev3 hcnt3 hre3 hpr3
    hthn3 s13 s14
  rw [← hSE] at hrow
  have hkk : lines.length + ((List.range i).filter
      (fun j => st.reversible_reaction.getD j false)).length =
      st3.num_reactions + ((List.range i).filter
        (fun j => st3.reversible_reaction.getD j false)).length := by
    rw [g6, s12]
  have hthi : SE.threshold_energy.getD i 0 = st3.threshold_energy.getD i 0 := by
    rw [hSE, (superelasticExpand_getD cfg st3 i hi3).2.2.2.1]
    show (resizeD st3.threshold_energy
        (st3.num_reactions + st3.superelastic_count) 0).getD i 0 = _
    exact getD_resizeD_lt _ _ _ _ _ (by rw [hthn3]; exact hi3)
      (by rw [hthn3]; exact Nat.le_add_right _ _)
  have hrei : SE.reactants.getD i [] = st3.reactants.getD i [] := by
    rw [hSE, (superelasticExpand_getD cfg st3 i hi3).2.2.2.2.2.2.2.2.1]
    show (resizeD st3.reactants
        (st3.reactants.length + st3.superelastic_count) []).getD i [] = _
    exact getD_resizeD_lt _ _ _ _ _ (by rw [hre3]; exact hi3) (Nat.le_add_right _ _)
  have hpri : SE.products.getD i [] = st3.products.getD i [] := by
    rw [hSE, (superelasticExpand_getD cfg st3 i hi3).2.2.2.2.2.2.2.2.2.1]
    show (resizeD st3.products
        (st3.products.length + st3.superelastic_count) []).getD i [] = _
    exact getD_resizeD_lt _ _ _ _ _ (by rw [hpr3]; exact hi3) (Nat.le_add_right _ _)
  have htake : (st3.products.getD i []).take (st3.num_products.getD i 0) =
      st3.products.getD i [] := by
    have e1 : st3.products.getD i [] =
        (splitEquation (lines.getD i default).reaction).products := by
      rw [hst3]
      exact (stage3_getD cfg stringify (naOf cfg) lines cl i hi).2.2.1
    have e2 : st3.num_products.getD i 0 =
        (splitEquation (lines.getD i default).reaction).products.length := by
      rw [hst3]
      exact (stage3_getD cfg stringify (naOf cfg) lines cl i hi).2.2.2.2.1
    rw [e1, e2]
    exact List.take_length _
  refine ⟨?_, ?_, ?_, ?_, ?_, ?_⟩
  · rw [f1, hkk]
    exact hrow.1
  · rw [f2, hkk]
    exact hrow.2.1
  · rw [f3, hkk, hthi]
    exact hrow.2.2.1
  · rw [f4, f5, hkk, hpri, ← htake]
    exact hrow.2.2.2.1
  · rw [f5, f4, hkk, hrei]
    exact hrow.2.2.2.2
  · rw [f7, hkk]
    have hnum : SE.num_reactions = st3.num_reactions + st3.superelastic_count := by
      rw [hSE]
      exact (superelasticExpand_untouched cfg st3).2.2.2.2.2.2.2.2.2.2.2.2
    rw [hnum]
    exact Nat.add_lt_add_left hcnt3 _

theorem c2_superelastic_append_witness :
    c2St.superelastic_index.getD
      (((prepLines c2Input).map parseLine).length + ((List.range 0).filter
        (fun j => c2St.reversible_reaction.getD j false)).length) 0 = 0 ∧
    c2St.superelastic_reaction.getD
      (((prepLines c2Input).map parseLine).length + ((List.range 0).filter
        (fun j => c2St.reversible_reaction.getD j false)).length) false = true ∧
    c2St.threshold_energy.getD
      (((prepLines c2Input).map parseLine).length + ((List.range 0).filter
        (fun j => c2St.reversible_reaction.getD j false)).length) 0 =
      -(c2St.threshold_energy.getD 0 0) ∧
    c2St.reactants.getD
      (((prepLines c2Input).map parseLine).length + ((List.range 0).filter
        (fun j => c2St.reversible_reaction.getD j false)).length) [] =
      c2St.products.getD 0 [] ∧
    c2St.products.getD
      (((prepLines c2Input).map parseLine).length + ((List.range 0).filter
        (fun j => c2St.reversible_reaction.getD j false)).length) [] =
      c2St.reactants.getD 0 [] ∧
    ((prepLines c2Input).map parseLine).length + ((List.range 0).filter
        (fun j => c2St.reversible_reaction.getD j false)).length <
      c2St.num_reactions :=
  c2_superelastic_append cfgBase stodFix strfFix fexAll c2Input c2St
    (by with_unfolding_all rfl) rfl 0 (by with_unfolding_all decide)
    (by with_unfolding_all decide)
end Crane
